import Mathlib

/-!
The Routine supervisor loop of khealth, `pkg/routines/routines.go`, as a
shallow embedding.

* `Routine` is the Go struct without its mutex and channel fields.  The methods
  `Start` and `SignalTerminate` hold the mutex for their whole body, so each is
  one atomic transition.  The unbuffered channel is represented by the list of
  values sent on it so far; the consumer is assumed to receive every value.
* The goroutine `routine` is a small-step machine.  Its program points are
  named after the source lines (`PC.L76` is the loop test on line 76, ...).
  One step executes one statement and appends one `Action` to the trace of the
  goroutine, so other threads can interleave between any two statements.
* The handler is an interface with private mutable state: each method is a
  transformer of a world `W` that returns `nil` (`none`) or an error with its
  text (`some text`).  `time.Now` and `time.Sleep` also act on the world.
  A handler that panics or never returns is not modelled.
* Times are integers, nanoseconds since the Unix epoch; durations are
  nanoseconds.  `time.Since` saturates like `Time.Sub`.
* Reads of `r.terminated` by the loop are taken to be sequentially consistent.
-/

namespace routines

/-- Go `error`: `none` is `nil`, `some s` is an error whose `Error()` is `s`. -/
abbrev Error := Option String

/-- The struct `Event` (line 16). -/
structure Event where
  Status : Int
  Message : String
deriving DecidableEq, Repr

/-- The interface `RoutineHandler` (line 10); each call may change the world. -/
structure RoutineHandler (W : Type) where
  Init : W → Error × W
  Poll : W → Error × W
  Cleanup : W → Error × W

/-- The struct `Routine` (line 22), without `mtx` and the two channel ends. -/
structure Routine (W K : Type) where
  started : Bool
  terminated : Bool
  client : K
  pollInterval : Int
  podTTL : Int
  handler : RoutineHandler W

/-- The function `NewRoutine` (line 35): both flags start as Go zero values. -/
def NewRoutine {W K : Type} (client : K) (pollInterval podTTL : Int)
    (handler : RoutineHandler W) : Routine W K :=
  { started := false, terminated := false, client := client,
    pollInterval := pollInterval, podTTL := podTTL, handler := handler }

/-- The method `SignalTerminate` (line 62). -/
def SignalTerminate {W K : Type} (r : Routine W K) : Routine W K :=
  { r with terminated := true }

/-- The constant `pulseInterval = 2 * time.Second` (line 69), in nanoseconds. -/
def pulseInterval : Int := 2 * 1000000000

/-- Largest `time.Duration` (int64 nanoseconds). -/
def maxDuration : Int := 9223372036854775807

/-- Smallest `time.Duration`. -/
def minDuration : Int := -9223372036854775808

/-- Go `Time.Sub`: the difference `t - u`, saturated to the int64 range. -/
def Sub (t u : Int) : Int := max minDuration (min maxDuration (t - u))

/-- The part of package `time` the loop uses. -/
structure Runtime (W : Type) where
  Now : W → Int × W
  Sleep : Int → W → W

/-- The three handler methods. -/
inductive Method
  | Init
  | Poll
  | Cleanup
deriving DecidableEq, Repr

/-- One observable action of the goroutine. -/
inductive Action
  /-- a read of `r.terminated` and the value read -/
  | load (terminated : Bool)
  /-- a handler call and what it returned -/
  | call (m : Method) (err : Error)
  /-- a completed send on `r.events`; `none` is the `nil` pointer -/
  | send (e : Option Event)
  /-- a call of `time.Sleep` -/
  | sleep (d : Int)
  /-- a reading of the clock by `time.Now` or `time.Since` -/
  | now (t : Int)
deriving DecidableEq, Repr

/-- Program points of `routine`, named by source line. -/
inductive PC
  /-- `for !r.terminated` -/
  | L76
  /-- `err := r.handler.Init()` -/
  | L77
  /-- `r.events <- &Event{500, "init error: ..."}` -/
  | L78 (err : String)
  /-- `time.Sleep(pulseInterval); continue` -/
  | L82
  /-- `r.events <- &Event{0, "init success"}` -/
  | L85
  /-- `lastPoll := time.Unix(0, 0); podStart := time.Now()` -/
  | L91
  /-- `for !r.terminated && ...`: the read of the flag -/
  | L93
  /-- `... && time.Since(podStart) <= r.podTTL` -/
  | L93b
  /-- `if time.Since(lastPoll) > r.pollInterval` -/
  | L94
  /-- `err := r.handler.Poll()` -/
  | L96
  /-- `r.events <- &Event{500, "poll error: ..."}` -/
  | L97 (err : String)
  /-- `r.events <- &Event{200, "poll success"}` -/
  | L102
  /-- `lastPoll = time.Now()` -/
  | L108
  /-- `time.Sleep(pulseInterval)` at the end of a polling iteration -/
  | L110
  /-- `r.events <- &Event{Message: "terminated, will clean up"}` -/
  | L112
  /-- `err := r.handler.Cleanup()` -/
  | L117
  /-- `r.events <- &Event{500, "cleanup error: ..."}` -/
  | L118 (err : String)
  /-- `r.events <- &Event{Message: "cleanup success"}; break` -/
  | L123
  /-- `time.Sleep(pulseInterval)` between clean-up attempts -/
  | L128
  /-- the deferred `r.events <- nil` -/
  | L73
  /-- the goroutine has returned -/
  | done
deriving DecidableEq, Repr

/-- State of one goroutine running `routine`: program point, the two locals and
the actions performed so far, oldest first. -/
structure Loop where
  pc : PC
  lastPoll : Int
  podStart : Int
  trace : List Action
deriving DecidableEq, Repr

/-- A goroutine at the entry of `routine`. -/
def Loop.entry : Loop := { pc := .L76, lastPoll := 0, podStart := 0, trace := [] }

/-- Move to program point `pc` after performing action `a`. -/
def Loop.goto (l : Loop) (pc : PC) (a : Action) : Loop :=
  { l with pc := pc, trace := l.trace ++ [a] }

/-- One statement of `routine` (lines 71-131). -/
def step {W K : Type} (rt : Runtime W) (r : Routine W K) (w : W) (l : Loop) : Loop × W :=
  match l.pc with
  | .L76 =>
    if r.terminated then (l.goto .L73 (.load true), w)
    else (l.goto .L77 (.load false), w)
  | .L77 =>
    match r.handler.Init w with
    | (some err, w1) => (l.goto (.L78 err) (.call .Init (some err)), w1)
    | (none, w1) => (l.goto .L85 (.call .Init none), w1)
  | .L78 err =>
    (l.goto .L82 (.send (some { Status := 500, Message := "init error: " ++ err })), w)
  | .L82 => (l.goto .L76 (.sleep pulseInterval), rt.Sleep pulseInterval w)
  | .L85 => (l.goto .L91 (.send (some { Status := 0, Message := "init success" })), w)
  | .L91 =>
    match rt.Now w with
    | (t, w1) => ({ pc := .L93, lastPoll := 0, podStart := t, trace := l.trace ++ [.now t] }, w1)
  | .L93 =>
    if r.terminated then (l.goto .L112 (.load true), w)
    else (l.goto .L93b (.load false), w)
  | .L93b =>
    match rt.Now w with
    | (t, w1) =>
      if Sub t l.podStart ≤ r.podTTL then (l.goto .L94 (.now t), w1)
      else (l.goto .L112 (.now t), w1)
  | .L94 =>
    match rt.Now w with
    | (t, w1) =>
      if Sub t l.lastPoll > r.pollInterval then (l.goto .L96 (.now t), w1)
      else (l.goto .L110 (.now t), w1)
  | .L96 =>
    match r.handler.Poll w with
    | (some err, w1) => (l.goto (.L97 err) (.call .Poll (some err)), w1)
    | (none, w1) => (l.goto .L102 (.call .Poll none), w1)
  | .L97 err =>
    (l.goto .L108 (.send (some { Status := 500, Message := "poll error: " ++ err })), w)
  | .L102 => (l.goto .L108 (.send (some { Status := 200, Message := "poll success" })), w)
  | .L108 =>
    match rt.Now w with
    | (t, w1) => ({ l with pc := .L110, lastPoll := t, trace := l.trace ++ [.now t] }, w1)
  | .L110 => (l.goto .L93 (.sleep pulseInterval), rt.Sleep pulseInterval w)
  | .L112 =>
    (l.goto .L117 (.send (some { Status := 0, Message := "terminated, will clean up" })), w)
  | .L117 =>
    match r.handler.Cleanup w with
    | (some err, w1) => (l.goto (.L118 err) (.call .Cleanup (some err)), w1)
    | (none, w1) => (l.goto .L123 (.call .Cleanup none), w1)
  | .L118 err =>
    (l.goto .L128 (.send (some { Status := 500, Message := "cleanup error: " ++ err })), w)
  | .L123 => (l.goto .L76 (.send (some { Status := 0, Message := "cleanup success" })), w)
  | .L128 => (l.goto .L117 (.sleep pulseInterval), rt.Sleep pulseInterval w)
  | .L73 => (l.goto .done (.send none), w)
  | .done => (l, w)

/-- The whole system: the shared struct, the goroutines launched by `Start`
(in launch order) and the world of the handler and the clock. -/
structure Sys (W K : Type) where
  r : Routine W K
  procs : List Loop
  w : W

/-- A freshly constructed Routine with no goroutine yet. -/
def Sys.new {W K : Type} (client : K) (pollInterval podTTL : Int)
    (handler : RoutineHandler W) (w : W) : Sys W K :=
  { r := NewRoutine client pollInterval podTTL handler, procs := [], w := w }

/-- The method `Start` (line 51): the returned error and the state after the
call; `go r.routine()` adds a goroutine at the entry of `routine`. -/
def Start {W K : Type} (s : Sys W K) : Error × Sys W K :=
  if s.r.started then (some "Routine is already started", s)
  else (none, { s with r := { s.r with started := true }, procs := s.procs ++ [Loop.entry] })

/-- What can happen next: a call of `Start`, a call of `SignalTerminate`, or one
statement of the `i`-th goroutine. -/
inductive Op
  | Start
  | SignalTerminate
  | step (i : Nat)
deriving DecidableEq, Repr

/-- Effect of one operation on the system. -/
def Sys.apply {W K : Type} (rt : Runtime W) (s : Sys W K) : Op → Sys W K
  | .Start => (Start s).2
  | .SignalTerminate => { s with r := SignalTerminate s.r }
  | .step i =>
    match s.procs[i]? with
    | none => s
    | some l => { s with procs := s.procs.set i (step rt s.r s.w l).1, w := (step rt s.r s.w l).2 }

/-- Effect of a schedule, a list of operations executed left to right. -/
def exec {W K : Type} (rt : Runtime W) (s : Sys W K) (ops : List Op) : Sys W K :=
  ops.foldl (Sys.apply rt) s

/-- The values sent on `r.events`, in order. -/
def events : List Action → List (Option Event)
  | [] => []
  | .send e :: t => e :: events t
  | _ :: t => events t

/-- The handler calls with their results, in order. -/
def calls : List Action → List (Method × Error)
  | [] => []
  | .call m e :: t => (m, e) :: calls t
  | _ :: t => calls t

/-- The clock readings, in order. -/
def readings : List Action → List Int
  | [] => []
  | .now t :: l => t :: readings l
  | _ :: l => readings l

/-- The values read from `r.terminated`, in order. -/
def loads : List Action → List Bool
  | [] => []
  | .load b :: l => b :: loads l
  | _ :: l => loads l

/-- The durations slept, in order. -/
def sleeps : List Action → List Int
  | [] => []
  | .sleep d :: l => d :: sleeps l
  | _ :: l => sleeps l

/-- The labelled transitions of `routine`: `Trans pI pT l a l1` says that a
goroutine at `l`, running with `pollInterval = pI` and `podTTL = pT`, can
perform `a` and is then at `l1`.  This is `step` with the answers of the
world (flag, handler results, clock readings) made explicit. -/
inductive Trans (pI pT : Int) (l : Loop) : Action → Loop → Prop
  | loopExit (h : l.pc = .L76) : Trans pI pT l (.load true) (l.goto .L73 (.load true))
  | loopEnter (h : l.pc = .L76) : Trans pI pT l (.load false) (l.goto .L77 (.load false))
  | initErr (err : String) (h : l.pc = .L77) :
    Trans pI pT l (.call .Init (some err)) (l.goto (.L78 err) (.call .Init (some err)))
  | initOk (h : l.pc = .L77) : Trans pI pT l (.call .Init none) (l.goto .L85 (.call .Init none))
  | sendInitErr (err : String) (h : l.pc = .L78 err) :
    Trans pI pT l (.send (some { Status := 500, Message := "init error: " ++ err }))
      (l.goto .L82 (.send (some { Status := 500, Message := "init error: " ++ err })))
  | sleepInit (h : l.pc = .L82) :
    Trans pI pT l (.sleep pulseInterval) (l.goto .L76 (.sleep pulseInterval))
  | sendInitOk (h : l.pc = .L85) :
    Trans pI pT l (.send (some { Status := 0, Message := "init success" }))
      (l.goto .L91 (.send (some { Status := 0, Message := "init success" })))
  | podStart (t : Int) (h : l.pc = .L91) :
    Trans pI pT l (.now t) { pc := .L93, lastPoll := 0, podStart := t, trace := l.trace ++ [.now t] }
  | pollExit (h : l.pc = .L93) : Trans pI pT l (.load true) (l.goto .L112 (.load true))
  | pollEnter (h : l.pc = .L93) : Trans pI pT l (.load false) (l.goto .L93b (.load false))
  | ttlOk (t : Int) (h : l.pc = .L93b) (hle : Sub t l.podStart ≤ pT) :
    Trans pI pT l (.now t) (l.goto .L94 (.now t))
  | ttlOver (t : Int) (h : l.pc = .L93b) (hgt : ¬ Sub t l.podStart ≤ pT) :
    Trans pI pT l (.now t) (l.goto .L112 (.now t))
  | due (t : Int) (h : l.pc = .L94) (hgt : Sub t l.lastPoll > pI) :
    Trans pI pT l (.now t) (l.goto .L96 (.now t))
  | notDue (t : Int) (h : l.pc = .L94) (hle : ¬ Sub t l.lastPoll > pI) :
    Trans pI pT l (.now t) (l.goto .L110 (.now t))
  | pollErr (err : String) (h : l.pc = .L96) :
    Trans pI pT l (.call .Poll (some err)) (l.goto (.L97 err) (.call .Poll (some err)))
  | pollOk (h : l.pc = .L96) : Trans pI pT l (.call .Poll none) (l.goto .L102 (.call .Poll none))
  | sendPollErr (err : String) (h : l.pc = .L97 err) :
    Trans pI pT l (.send (some { Status := 500, Message := "poll error: " ++ err }))
      (l.goto .L108 (.send (some { Status := 500, Message := "poll error: " ++ err })))
  | sendPollOk (h : l.pc = .L102) :
    Trans pI pT l (.send (some { Status := 200, Message := "poll success" }))
      (l.goto .L108 (.send (some { Status := 200, Message := "poll success" })))
  | lastPoll (t : Int) (h : l.pc = .L108) :
    Trans pI pT l (.now t) { l with pc := .L110, lastPoll := t, trace := l.trace ++ [.now t] }
  | sleepPoll (h : l.pc = .L110) :
    Trans pI pT l (.sleep pulseInterval) (l.goto .L93 (.sleep pulseInterval))
  | sendTerm (h : l.pc = .L112) :
    Trans pI pT l (.send (some { Status := 0, Message := "terminated, will clean up" }))
      (l.goto .L117 (.send (some { Status := 0, Message := "terminated, will clean up" })))
  | cleanupErr (err : String) (h : l.pc = .L117) :
    Trans pI pT l (.call .Cleanup (some err)) (l.goto (.L118 err) (.call .Cleanup (some err)))
  | cleanupOk (h : l.pc = .L117) :
    Trans pI pT l (.call .Cleanup none) (l.goto .L123 (.call .Cleanup none))
  | sendCleanupErr (err : String) (h : l.pc = .L118 err) :
    Trans pI pT l (.send (some { Status := 500, Message := "cleanup error: " ++ err }))
      (l.goto .L128 (.send (some { Status := 500, Message := "cleanup error: " ++ err })))
  | sendCleanupOk (h : l.pc = .L123) :
    Trans pI pT l (.send (some { Status := 0, Message := "cleanup success" }))
      (l.goto .L76 (.send (some { Status := 0, Message := "cleanup success" })))
  | sleepCleanup (h : l.pc = .L128) :
    Trans pI pT l (.sleep pulseInterval) (l.goto .L117 (.sleep pulseInterval))
  | sentinel (h : l.pc = .L73) : Trans pI pT l (.send none) (l.goto .done (.send none))

/-- The action `a` is what the world answers at this moment: the flag in `r`,
the result of the handler on `w`, the reading of the clock on `w`. -/
def Obs {W K : Type} (rt : Runtime W) (r : Routine W K) (w : W) : Action → Prop
  | .load b => b = r.terminated
  | .call .Init e => e = (r.handler.Init w).1
  | .call .Poll e => e = (r.handler.Poll w).1
  | .call .Cleanup e => e = (r.handler.Cleanup w).1
  | .now t => t = (rt.Now w).1
  | _ => True

/-- Several transitions in a row: `Path pI pT l t l2` says that from `l` the
goroutine can perform the actions `t` and is then at `l2`. -/
inductive Path (pI pT : Int) : Loop → List Action → Loop → Prop
  | nil (l : Loop) : Path pI pT l [] l
  | cons {l l1 l2 : Loop} {a : Action} {t : List Action} :
    Trans pI pT l a l1 → Path pI pT l1 t l2 → Path pI pT l (a :: t) l2

/-- Every goroutine state is reached from the entry by performing its trace. -/
def Sys.Traced {W K : Type} (s : Sys W K) : Prop :=
  ∀ l ∈ s.procs, Path s.r.pollInterval s.r.podTTL Loop.entry l.trace l

/-! ## Worlds used in the examples -/

/-- A world that is just the current time: reading the clock costs nothing and
a sleep lasts exactly as long as asked. -/
def simClock : Runtime Int := { Now := fun w => (w, w), Sleep := fun d w => w + d }

/-- A handler whose three methods always succeed. -/
def okHandler : RoutineHandler Int :=
  { Init := fun w => (none, w), Poll := fun w => (none, w), Cleanup := fun w => (none, w) }

/-- A new Routine with a 1 s poll interval and a 5 s TTL, at a recent date. -/
def demo : Sys Int Unit := Sys.new () 1000000000 5000000000 okHandler 1700000000000000000

/-- The schedule of the witnesses: `Start`, four statements, `SignalTerminate`,
and six more statements, which let the loop finish. -/
def demoOps : List Op :=
  [.Start, .step 0, .step 0, .step 0, .step 0, .SignalTerminate,
   .step 0, .step 0, .step 0, .step 0, .step 0, .step 0]

/-- The goroutine state at the end of `demoOps`. -/
def demoLoop : Loop :=
  { pc := .done, lastPoll := 0, podStart := 1700000000000000000,
    trace := [.load false, .call .Init none, .send (some { Status := 0, Message := "init success" }),
      .now 1700000000000000000, .load true,
      .send (some { Status := 0, Message := "terminated, will clean up" }),
      .call .Cleanup none, .send (some { Status := 0, Message := "cleanup success" }),
      .load true, .send none] }

/-- A handler whose `Init` always fails with the text "boom". -/
def failInit : RoutineHandler Int :=
  { Init := fun w => (some "boom", w), Poll := fun w => (none, w), Cleanup := fun w => (none, w) }

/-- A new Routine like `demo`, with the handler `failInit`. -/
def demoFailInit : Sys Int Unit :=
  Sys.new () 1000000000 5000000000 failInit 1700000000000000000

/-- The world in which `Init` is attempted for the `k+1`-th time when the `k`
attempts before it failed: each failed attempt is a call of `Init` followed by
a sleep of `pulseInterval` (lines 77-83). -/
def initAttempt {W : Type} (rt : Runtime W) (h : RoutineHandler W) (w : W) : Nat → W
  | 0 => w
  | k + 1 => initAttempt rt h (rt.Sleep pulseInterval (h.Init w).2) k

/-- The world in which `Cleanup` is attempted for the `k+1`-th time when the
`k` attempts before it failed: each failed attempt is a call of `Cleanup`
followed by a sleep of `pulseInterval` (lines 117-128). -/
def cleanupAttempt {W : Type} (rt : Runtime W) (h : RoutineHandler W) (w : W) : Nat → W
  | 0 => w
  | k + 1 => cleanupAttempt rt h (rt.Sleep pulseInterval (h.Cleanup w).2) k

/-- The actions of one failed `Init` attempt with error text `e`. -/
def initErrorRound (e : String) : List Action :=
  [.load false, .call .Init (some e),
   .send (some { Status := 500, Message := "init error: " ++ e }), .sleep pulseInterval]

/-- The actions of one failed `Cleanup` attempt with error text `e`. -/
def cleanupErrorRound (e : String) : List Action :=
  [.call .Cleanup (some e),
   .send (some { Status := 500, Message := "cleanup error: " ++ e }), .sleep pulseInterval]

/-- A handler over a world that counts its calls: `Init` fails on the first two
calls, `Cleanup` on the first three, `Poll` always succeeds. -/
def flakyHandler : RoutineHandler Nat :=
  { Init := fun n => (if n < 2 then some "not ready" else none, n + 1),
    Poll := fun n => (none, n),
    Cleanup := fun n => (if n < 3 then some "busy" else none, n + 1) }

/-- A runtime for the counting world: the clock stands still. -/
def stillClock : Runtime Nat := { Now := fun n => (0, n), Sleep := fun _ n => n }

/-- A Routine with the handler `flakyHandler`. -/
def flaky : Routine Nat Unit := NewRoutine () 1000000000 5000000000 flakyHandler

/-- The goroutine and the world after `n` statements of `routine` in a row,
with the struct `r` unchanged meanwhile. -/
def runLoop {W K : Type} (rt : Runtime W) (r : Routine W K) : Nat → Loop × W → Loop × W
  | 0, c => c
  | n + 1, c => runLoop rt r n (step rt r c.2 c.1)

/-- The number of statements a goroutine at `pc` still executes at most when
`terminated` is set and no handler call fails. -/
def PC.togo : PC → Nat
  | .done => 0
  | .L73 => 1
  | .L76 => 2
  | .L123 => 3
  | .L82 => 3
  | .L117 => 4
  | .L78 _ => 4
  | .L112 => 5
  | .L128 => 5
  | .L93 => 6
  | .L118 _ => 6
  | .L110 => 7
  | .L91 => 7
  | .L108 => 8
  | .L85 => 8
  | .L102 => 9
  | .L97 _ => 9
  | .L77 => 9
  | .L96 => 10
  | .L94 => 11
  | .L93b => 12

/-- The events of an epoch in which every handler call succeeds, up to the
`j`-th "poll success". -/
def epochEvents (j : Nat) : List (Option Event) :=
  some { Status := 0, Message := "init success" } ::
    List.replicate j (some { Status := 200, Message := "poll success" })

/-- What a goroutine has sent, by program point, in a run in which every
handler call succeeds, the first loop test read `false` and the second one, if
reached, read `true`. -/
def oneEpoch (l : Loop) : Prop :=
  match l.pc with
  | .L77 => events l.trace = []
  | .L85 => events l.trace = []
  | .L91 => events l.trace = epochEvents 0
  | .L93 => ∃ j, events l.trace = epochEvents j
  | .L93b => ∃ j, events l.trace = epochEvents j
  | .L94 => ∃ j, events l.trace = epochEvents j
  | .L96 => ∃ j, events l.trace = epochEvents j
  | .L102 => ∃ j, events l.trace = epochEvents j
  | .L108 => ∃ j, events l.trace = epochEvents j
  | .L110 => ∃ j, events l.trace = epochEvents j
  | .L112 => ∃ j, events l.trace = epochEvents j
  | .L117 => ∃ j, events l.trace =
      epochEvents j ++ [some { Status := 0, Message := "terminated, will clean up" }]
  | .L123 => ∃ j, events l.trace =
      epochEvents j ++ [some { Status := 0, Message := "terminated, will clean up" }]
  | .L76 => ∃ j, events l.trace =
      epochEvents j ++ [some { Status := 0, Message := "terminated, will clean up" },
        some { Status := 0, Message := "cleanup success" }]
  | .L73 => ∃ j, events l.trace =
      epochEvents j ++ [some { Status := 0, Message := "terminated, will clean up" },
        some { Status := 0, Message := "cleanup success" }]
  | .done => ∃ j, events l.trace =
      epochEvents j ++ [some { Status := 0, Message := "terminated, will clean up" },
        some { Status := 0, Message := "cleanup success" }, none]
  | _ => False

/-- The program points from the end of a polling iteration to the first call of
`Cleanup`: between two of them no handler call is needed. -/
def PC.polling : PC → Prop
  | .L110 => True
  | .L93 => True
  | .L93b => True
  | .L94 => True
  | .L96 => True
  | .L112 => True
  | .L117 => True
  | _ => False

/-- A schedule in which the goroutine polls twice in its first epoch. -/
def demoPollOps : List Op := .Start :: List.replicate 15 (.step 0)

/-- The goroutine state at the end of `demoPollOps`. -/
def demoPollLoop : Loop :=
  { pc := .L102, lastPoll := 1700000000000000000, podStart := 1700000000000000000,
    trace := [.load false, .call .Init none, .send (some { Status := 0, Message := "init success" }),
      .now 1700000000000000000, .load false, .now 1700000000000000000,
      .now 1700000000000000000, .call .Poll none,
      .send (some { Status := 200, Message := "poll success" }), .now 1700000000000000000,
      .sleep 2000000000, .load false, .now 1700000002000000000,
      .now 1700000002000000000, .call .Poll none] }

/-- The event `routine` sends after a handler call, by method and result
(lines 78-88, 97-105 and 118-125). -/
def report : Method → Error → Event
  | .Init, some err => { Status := 500, Message := "init error: " ++ err }
  | .Init, none => { Status := 0, Message := "init success" }
  | .Poll, some err => { Status := 500, Message := "poll error: " ++ err }
  | .Poll, none => { Status := 200, Message := "poll success" }
  | .Cleanup, some err => { Status := 500, Message := "cleanup error: " ++ err }
  | .Cleanup, none => { Status := 0, Message := "cleanup success" }

/-- What can have been sent since the report of the last handler call, by
program point, as long as no further handler call was made: nothing, or before
the first `Cleanup` the marker "terminated, will clean up".  After the loop
test has read `true` no handler call can follow. -/
def quiet : PC → List (Option Event) → Prop
  | .L82, es => es = []
  | .L76, es => es = []
  | .L77, es => es = []
  | .L91, es => es = []
  | .L93, es => es = []
  | .L93b, es => es = []
  | .L94, es => es = []
  | .L96, es => es = []
  | .L108, es => es = []
  | .L110, es => es = []
  | .L112, es => es = []
  | .L128, es => es = []
  | .L117, es => es = [] ∨ es = [some { Status := 0, Message := "terminated, will clean up" }]
  | .L73, _ => True
  | .done, _ => True
  | _, _ => False

/-- A handler whose `Poll` always fails with the text "down". -/
def failPoll : RoutineHandler Int :=
  { Init := fun w => (none, w), Poll := fun w => (some "down", w), Cleanup := fun w => (none, w) }

/-- A new Routine like `demo`, with the handler `failPoll`. -/
def demoFailPoll : Sys Int Unit :=
  Sys.new () 1000000000 5000000000 failPoll 1700000000000000000

/-- A schedule in which a poll fails and `SignalTerminate` comes before the
next polling iteration. -/
def failPollOps : List Op :=
  .Start :: (List.replicate 11 (.step 0) ++ .SignalTerminate :: List.replicate 3 (.step 0))

/-- The goroutine state at the end of `failPollOps`, run on `demoFailPoll`. -/
def failPollLoop : Loop :=
  { pc := .L123, lastPoll := 1700000000000000000, podStart := 1700000000000000000,
    trace := [.load false, .call .Init none, .send (some { Status := 0, Message := "init success" }),
      .now 1700000000000000000, .load false, .now 1700000000000000000,
      .now 1700000000000000000, .call .Poll (some "down"),
      .send (some { Status := 500, Message := "poll error: down" }),
      .now 1700000000000000000, .sleep 2000000000, .load true,
      .send (some { Status := 0, Message := "terminated, will clean up" }),
      .call .Cleanup none] }

/-- The calls of `Init` and `Cleanup` with their results, in order. -/
def initCleanupCalls : List Action → List (Method × Error)
  | [] => []
  | .call .Poll _ :: l => initCleanupCalls l
  | .call m e :: l => (m, e) :: initCleanupCalls l
  | _ :: l => initCleanupCalls l

/-- The methods called, in order, without the results. -/
def methods : List Action → List Method
  | [] => []
  | .call m _ :: l => m :: methods l
  | _ :: l => methods l

/-- Two actions are the same up to the result of a `Poll` call and the Status
and Message of the event that reports a `Poll` call. -/
def Action.alike (a b : Action) : Prop :=
  a = b ∨ (∃ e1 e2, a = .call .Poll e1 ∧ b = .call .Poll e2) ∨
  (∃ e1 e2, a = .send (some (report .Poll e1)) ∧ b = .send (some (report .Poll e2)))

/-- Two sent values are the same up to the Status and Message of the report of
a `Poll` call. -/
def Event.alike (a b : Option Event) : Prop :=
  a = b ∨ ∃ e1 e2, a = some (report .Poll e1) ∧ b = some (report .Poll e2)

/-- The program point is the send of the report of a `Poll` call. -/
def PC.pollReport : PC → Prop
  | .L97 _ => True
  | .L102 => True
  | _ => False

/-- Two goroutine states agree on the locals and on the program point, up to
the result of the `Poll` call that is about to be reported. -/
def Loop.alike (l1 l2 : Loop) : Prop :=
  l1.lastPoll = l2.lastPoll ∧ l1.podStart = l2.podStart ∧
  (l1.pc = l2.pc ∨ (l1.pc.pollReport ∧ l2.pc.pollReport))

/-- A schedule that ends after the first poll of the first epoch. -/
def firstPollOps : List Op := .Start :: List.replicate 10 (.step 0)

/-- The goroutine state at the end of `firstPollOps`, run on `demo`. -/
def pollOkLoop : Loop :=
  { pc := .L110, lastPoll := 1700000000000000000, podStart := 1700000000000000000,
    trace := [.load false, .call .Init none, .send (some { Status := 0, Message := "init success" }),
      .now 1700000000000000000, .load false, .now 1700000000000000000,
      .now 1700000000000000000, .call .Poll none,
      .send (some { Status := 200, Message := "poll success" }), .now 1700000000000000000] }

/-- The goroutine state at the end of `firstPollOps`, run on `demoFailPoll`. -/
def pollErrLoop : Loop :=
  { pc := .L110, lastPoll := 1700000000000000000, podStart := 1700000000000000000,
    trace := [.load false, .call .Init none, .send (some { Status := 0, Message := "init success" }),
      .now 1700000000000000000, .load false, .now 1700000000000000000,
      .now 1700000000000000000, .call .Poll (some "down"),
      .send (some { Status := 500, Message := "poll error: down" }),
      .now 1700000000000000000] }

/-- A schedule in which `SignalTerminate` comes while a failed `Init` is being
reported, and the goroutine then runs to its return. -/
def failInitOps : List Op :=
  [.Start, .step 0, .step 0, .SignalTerminate, .step 0, .step 0, .step 0, .step 0]

/-- The goroutine state at the end of `failInitOps`, run on `demoFailInit`. -/
def failInitLoop : Loop :=
  { pc := .done, lastPoll := 0, podStart := 0,
    trace := [.load false, .call .Init (some "boom"),
      .send (some { Status := 500, Message := "init error: boom" }),
      .sleep 2000000000, .load true, .send none] }

/-- What a goroutine has done since it reached line 112, by program point,
while every `Cleanup` fails: the send of "terminated, will clean up", some
complete failed rounds, and the begun part of the current round. -/
def stalled : PC → List Action → Prop
  | .L112, t => t = []
  | .L117, t => ∃ errs : List String,
      t = .send (some { Status := 0, Message := "terminated, will clean up" }) ::
        (errs.map cleanupErrorRound).flatten
  | .L118 e, t => ∃ errs : List String,
      t = .send (some { Status := 0, Message := "terminated, will clean up" }) ::
        ((errs.map cleanupErrorRound).flatten ++ [.call .Cleanup (some e)])
  | .L128, t => ∃ (errs : List String) (e : String),
      t = .send (some { Status := 0, Message := "terminated, will clean up" }) ::
        ((errs.map cleanupErrorRound).flatten ++
          [.call .Cleanup (some e),
           .send (some { Status := 500, Message := "cleanup error: " ++ e })])
  | _, _ => False

/-- A handler whose `Cleanup` always fails with the text "stuck". -/
def failCleanup : RoutineHandler Int :=
  { Init := fun w => (none, w), Poll := fun w => (none, w),
    Cleanup := fun w => (some "stuck", w) }

/-- A list of failed `Init` calls. -/
def failedInits (cs : List (Method × Error)) : Prop :=
  ∀ c ∈ cs, ∃ e, c = (Method.Init, some e)

/-- A list of `Poll` calls, with any results. -/
def pollCalls (cs : List (Method × Error)) : Prop :=
  ∀ c ∈ cs, ∃ e, c = (Method.Poll, e)

/-- A list of failed `Cleanup` calls. -/
def failedCleanups (cs : List (Method × Error)) : Prop :=
  ∀ c ∈ cs, ∃ e, c = (Method.Cleanup, some e)

/-- The calls of one epoch with what follows it up to the next successful
`Init`: successful `Init`, polls, failed `Cleanup`s, successful `Cleanup`, failed
`Init`s. -/
def isEpoch (cs : List (Method × Error)) : Prop :=
  ∃ ps fc fi, pollCalls ps ∧ failedCleanups fc ∧ failedInits fi ∧
    cs = (Method.Init, none) :: (ps ++ fc ++ (Method.Cleanup, none) :: fi)

/-- The call protocol: failed `Init`s, then any number of epochs. -/
def isProtocol (cs : List (Method × Error)) : Prop :=
  ∃ (fi : List (Method × Error)) (eps : List (List (Method × Error))),
    failedInits fi ∧ (∀ ep ∈ eps, isEpoch ep) ∧ cs = fi ++ eps.flatten

/-- The protocol followed by the begun part of an epoch that is still polling. -/
def openPoll (cs : List (Method × Error)) : Prop :=
  ∃ p ps, isProtocol p ∧ pollCalls ps ∧ cs = p ++ (Method.Init, none) :: ps

/-- The protocol followed by the begun part of an epoch that is polling or
cleaning up. -/
def openClean (cs : List (Method × Error)) : Prop :=
  ∃ p ps fc, isProtocol p ∧ pollCalls ps ∧ failedCleanups fc ∧
    cs = p ++ (Method.Init, none) :: (ps ++ fc)

/-- Where in the protocol the calls made so far stand, by program point. -/
def onProtocol : PC → List (Method × Error) → Prop
  | .L76, cs => isProtocol cs
  | .L77, cs => isProtocol cs
  | .L78 _, cs => isProtocol cs
  | .L82, cs => isProtocol cs
  | .L73, cs => isProtocol cs
  | .done, cs => isProtocol cs
  | .L123, cs => isProtocol cs
  | .L117, cs => openClean cs
  | .L118 _, cs => openClean cs
  | .L128, cs => openClean cs
  | _, cs => openPoll cs

/-- The states of a goroutine whose first loop test reads `terminated` as true:
at the entry, after that read, and returned after the send of the sentinel. -/
def exitsAtOnce (l : Loop) : Prop :=
  (l.pc = .L76 ∧ l.trace = []) ∨ (l.pc = .L73 ∧ l.trace = [.load true]) ∨
  (l.pc = .done ∧ l.trace = [.load true, .send none])

/-- The goroutine state after `SignalTerminate`, `Start` and two statements. -/
def exitedLoop : Loop :=
  { pc := .done, lastPoll := 0, podStart := 0, trace := [.load true, .send none] }

/-- A new Routine with a 10 s poll interval and a 1 s TTL, with the handler
`okHandler`, at the same date as `demo`. -/
def demoShortTTL : Sys Int Unit :=
  Sys.new () 10000000000 1000000000 okHandler 1700000000000000000

/-- A schedule that runs one whole epoch and the next one up to its first poll. -/
def twoEpochOps : List Op := .Start :: List.replicate 24 (.step 0)

/-- The goroutine state at the end of `twoEpochOps`, run on `demoShortTTL`. -/
def twoEpochLoop : Loop :=
  { pc := .L102, lastPoll := 0, podStart := 1700000002000000000,
    trace := [.load false, .call .Init none, .send (some { Status := 0, Message := "init success" }),
      .now 1700000000000000000, .load false, .now 1700000000000000000,
      .now 1700000000000000000, .call .Poll none,
      .send (some { Status := 200, Message := "poll success" }), .now 1700000000000000000,
      .sleep 2000000000, .load false, .now 1700000002000000000,
      .send (some { Status := 0, Message := "terminated, will clean up" }),
      .call .Cleanup none, .send (some { Status := 0, Message := "cleanup success" }),
      .load false, .call .Init none, .send (some { Status := 0, Message := "init success" }),
      .now 1700000002000000000, .load false, .now 1700000002000000000,
      .now 1700000002000000000, .call .Poll none] }

/-- No poll has been made and `lastPoll` still has its initial value of the
epoch; the program point is not inside a poll. -/
def unpolled (l : Loop) : Prop :=
  match l.pc with
  | .L93 => l.lastPoll = 0
  | .L93b => l.lastPoll = 0
  | .L94 => l.lastPoll = 0
  | .L110 => l.lastPoll = 0
  | .L96 => False
  | .L97 _ => False
  | .L102 => False
  | .L108 => False
  | _ => True

/-- A new Routine with a 4 s poll interval and a 4.5 s TTL, with the handler
`okHandler`, on a clock that stands at the Unix epoch. -/
def demoEpochZero : Sys Int Unit := Sys.new () 4000000000 4500000000 okHandler 0

/-- A schedule that runs the polling phase of the first epoch to its end. -/
def wholePhaseOps : List Op := .Start :: List.replicate 18 (.step 0)

/-- The goroutine state at the end of `wholePhaseOps`, run on `demoEpochZero`. -/
def wholePhaseLoop : Loop :=
  { pc := .L112, lastPoll := 0, podStart := 0,
    trace := [.load false, .call .Init none, .send (some { Status := 0, Message := "init success" }),
      .now 0, .load false, .now 0, .now 0, .sleep 2000000000,
      .load false, .now 2000000000, .now 2000000000, .sleep 2000000000,
      .load false, .now 4000000000, .now 4000000000, .sleep 2000000000,
      .load false, .now 6000000000] }

/-- A clock that advances by exactly the time slept and not otherwise: `time`
reads the world, `Now` returns it without advancing it, `Sleep` adds the
duration, and `Poll` takes no time. -/
def ExactClock {W : Type} (rt : Runtime W) (h : RoutineHandler W) (time : W → Int) : Prop :=
  (∀ w, (rt.Now w).1 = time w ∧ time (rt.Now w).2 = time w) ∧
  (∀ d w, time (rt.Sleep d w) = time w + d) ∧
  (∀ w, time (h.Poll w).2 = time w)

/-- The clock reading at the last iteration of a polling phase that starts at
`t0` on a clock that advances by one `pulseInterval` per iteration: `t0` plus
the whole heartbeats that fit in the TTL `T`. -/
def lastIteration (t0 T : Int) : Int := t0 + T / pulseInterval * pulseInterval

/-- What the polling phase has done after some iterations: the goroutine is at
the top of an iteration, a whole number of heartbeats after `podStart = t0`,
and `k` polls have been made since `base`.  If `k > 0`, the last poll was at
least one sleep ago and not before `(k - 1) * max P H` after `podStart`, and
the last iteration reads more than `P` after the Unix epoch.  If `k = 0`,
`lastPoll` still is the Unix epoch, and the last iteration is still to come
when it reads more than `P` after the Unix epoch. -/
def phaseInv {W : Type} (time : W → Int) (P T : Int) (base : List Method) (t0 : Int)
    (k : Nat) (l : Loop) (w : W) : Prop :=
  l.pc = .L93 ∧ l.podStart = t0 ∧ t0 ≤ time w ∧ (time w - t0) % pulseInterval = 0 ∧
  methods l.trace = base ++ List.replicate k .Poll ∧
  (0 < k → ((k : Int) - 1) * max P pulseInterval ≤ l.lastPoll - t0 ∧ l.lastPoll - t0 ≤ T ∧
    l.lastPoll + pulseInterval ≤ time w ∧ P < Sub (lastIteration t0 T) 0) ∧
  (k = 0 → l.lastPoll = 0 ∧
    (P < Sub (lastIteration t0 T) 0 → time w ≤ lastIteration t0 T))

/-- A new Routine with a 1 s poll interval and the largest Duration as TTL,
with the handler `okHandler`, at a recent date. -/
def demoForever : Sys Int Unit :=
  Sys.new () 1000000000 9223372036854775807 okHandler 1700000000000000000

/-- A goroutine that has just reported "init success" and is about to start
the polling phase of its first epoch (line 91). -/
def epochStart : Loop :=
  { pc := .L91, lastPoll := 0, podStart := 0,
    trace := [.load false, .call .Init none,
      .send (some { Status := 0, Message := "init success" })] }

/-! ## Schedules -/

section basics
variable {W K : Type}

theorem exec_nil (rt : Runtime W) (s : Sys W K) : exec rt s [] = s := rfl

theorem exec_cons (rt : Runtime W) (s : Sys W K) (o : Op) (ops : List Op) :
    exec rt s (o :: ops) = exec rt (s.apply rt o) ops := rfl

theorem exec_append (rt : Runtime W) (s : Sys W K) (ops₁ ops₂ : List Op) :
    exec rt s (ops₁ ++ ops₂) = exec rt (exec rt s ops₁) ops₂ := by
  simp [exec, List.foldl_append]

theorem exec_snoc (rt : Runtime W) (s : Sys W K) (ops : List Op) (o : Op) :
    exec rt s (ops ++ [o]) = (exec rt s ops).apply rt o := by
  simp [exec, List.foldl_append]

/-- No operation changes the configuration fields of the struct. -/
theorem apply_config (rt : Runtime W) (s : Sys W K) (o : Op) :
    (s.apply rt o).r.pollInterval = s.r.pollInterval ∧ (s.apply rt o).r.podTTL = s.r.podTTL ∧
    (s.apply rt o).r.handler = s.r.handler ∧ (s.apply rt o).r.client = s.r.client := by
  cases o with
  | Start => by_cases h : s.r.started = true <;> simp [Sys.apply, Start, h]
  | SignalTerminate => simp [Sys.apply, SignalTerminate]
  | step i => cases h : s.procs[i]? <;> simp [Sys.apply, h]

theorem exec_config (rt : Runtime W) (s : Sys W K) (ops : List Op) :
    (exec rt s ops).r.pollInterval = s.r.pollInterval ∧ (exec rt s ops).r.podTTL = s.r.podTTL ∧
    (exec rt s ops).r.handler = s.r.handler ∧ (exec rt s ops).r.client = s.r.client := by
  induction ops generalizing s with
  | nil => simp [exec_nil]
  | cons o ops ih =>
    rw [exec_cons]
    obtain ⟨h1, h2, h3, h4⟩ := ih (s.apply rt o)
    obtain ⟨g1, g2, g3, g4⟩ := apply_config rt s o
    exact ⟨h1.trans g1, h2.trans g2, h3.trans g3, h4.trans g4⟩

/-- Once set, `started` stays set, and then the number of goroutines is fixed. -/
theorem apply_started (rt : Runtime W) (s : Sys W K) (o : Op) (h : s.r.started = true) :
    (s.apply rt o).r.started = true ∧ (s.apply rt o).procs.length = s.procs.length := by
  cases o with
  | Start => simp [Sys.apply, Start, h]
  | SignalTerminate => simp [Sys.apply, SignalTerminate, h]
  | step i => cases hi : s.procs[i]? <;> simp [Sys.apply, hi, h]

theorem exec_started (rt : Runtime W) (s : Sys W K) (ops : List Op) (h : s.r.started = true) :
    (exec rt s ops).r.started = true ∧ (exec rt s ops).procs.length = s.procs.length := by
  induction ops generalizing s with
  | nil => simp [exec_nil, h]
  | cons o ops ih =>
    rw [exec_cons]
    obtain ⟨h1, h2⟩ := apply_started rt s o h
    obtain ⟨g1, g2⟩ := ih (s.apply rt o) h1
    exact ⟨g1, g2.trans h2⟩

end basics

/-! ## Transitions and paths -/

/-- A statement of `routine` is the transition labelled with the action it
performs, and that action carries the answers of the world; a goroutine that
has returned stays as it is. -/
theorem step_obs {W K : Type} (rt : Runtime W) (r : Routine W K) (w : W) (l : Loop) :
    (l.pc = .done ∧ (step rt r w l).1 = l) ∨
    ∃ a, Trans r.pollInterval r.podTTL l a (step rt r w l).1 ∧ Obs rt r w a := by
  cases hpc : l.pc
  case done => exact Or.inl ⟨rfl, by simp [step, hpc]⟩
  case L76 =>
    by_cases h : r.terminated = true
    · exact Or.inr ⟨_, by simpa [step, hpc, h] using Trans.loopExit hpc, by simp [Obs, h]⟩
    · exact Or.inr ⟨_, by simpa [step, hpc, h] using Trans.loopEnter hpc, by simpa [Obs] using h⟩
  case L93 =>
    by_cases h : r.terminated = true
    · exact Or.inr ⟨_, by simpa [step, hpc, h] using Trans.pollExit hpc, by simp [Obs, h]⟩
    · exact Or.inr ⟨_, by simpa [step, hpc, h] using Trans.pollEnter hpc, by simpa [Obs] using h⟩
  case L77 =>
    rcases h : r.handler.Init w with ⟨_ | e, w1⟩
    · exact Or.inr ⟨_, by simpa [step, hpc, h] using Trans.initOk hpc, by simp [Obs, h]⟩
    · exact Or.inr ⟨_, by simpa [step, hpc, h] using Trans.initErr e hpc, by simp [Obs, h]⟩
  case L96 =>
    rcases h : r.handler.Poll w with ⟨_ | e, w1⟩
    · exact Or.inr ⟨_, by simpa [step, hpc, h] using Trans.pollOk hpc, by simp [Obs, h]⟩
    · exact Or.inr ⟨_, by simpa [step, hpc, h] using Trans.pollErr e hpc, by simp [Obs, h]⟩
  case L117 =>
    rcases h : r.handler.Cleanup w with ⟨_ | e, w1⟩
    · exact Or.inr ⟨_, by simpa [step, hpc, h] using Trans.cleanupOk hpc, by simp [Obs, h]⟩
    · exact Or.inr ⟨_, by simpa [step, hpc, h] using Trans.cleanupErr e hpc, by simp [Obs, h]⟩
  case L91 =>
    exact Or.inr ⟨_, by simpa [step, hpc] using Trans.podStart (rt.Now w).1 hpc, by simp [Obs]⟩
  case L108 =>
    exact Or.inr ⟨_, by simpa [step, hpc] using Trans.lastPoll (rt.Now w).1 hpc, by simp [Obs]⟩
  case L93b =>
    by_cases h : Sub (rt.Now w).1 l.podStart ≤ r.podTTL
    · exact Or.inr ⟨_, by simpa [step, hpc, h] using Trans.ttlOk (rt.Now w).1 hpc h,
        by simp [Obs]⟩
    · exact Or.inr ⟨_, by simpa [step, hpc, h] using Trans.ttlOver (rt.Now w).1 hpc h,
        by simp [Obs]⟩
  case L94 =>
    by_cases h : Sub (rt.Now w).1 l.lastPoll > r.pollInterval
    · exact Or.inr ⟨_, by simpa [step, hpc, h] using Trans.due (rt.Now w).1 hpc h, by simp [Obs]⟩
    · exact Or.inr ⟨_, by simpa [step, hpc, h] using Trans.notDue (rt.Now w).1 hpc h,
        by simp [Obs]⟩
  case L78 e => exact Or.inr ⟨_, by simpa [step, hpc] using Trans.sendInitErr e hpc, by simp [Obs]⟩
  case L97 e => exact Or.inr ⟨_, by simpa [step, hpc] using Trans.sendPollErr e hpc, by simp [Obs]⟩
  case L118 e => exact Or.inr ⟨_, by simpa [step, hpc] using Trans.sendCleanupErr e hpc, by simp [Obs]⟩
  case L82 => exact Or.inr ⟨_, by simpa [step, hpc] using Trans.sleepInit hpc, by simp [Obs]⟩
  case L85 => exact Or.inr ⟨_, by simpa [step, hpc] using Trans.sendInitOk hpc, by simp [Obs]⟩
  case L102 => exact Or.inr ⟨_, by simpa [step, hpc] using Trans.sendPollOk hpc, by simp [Obs]⟩
  case L110 => exact Or.inr ⟨_, by simpa [step, hpc] using Trans.sleepPoll hpc, by simp [Obs]⟩
  case L112 => exact Or.inr ⟨_, by simpa [step, hpc] using Trans.sendTerm hpc, by simp [Obs]⟩
  case L123 => exact Or.inr ⟨_, by simpa [step, hpc] using Trans.sendCleanupOk hpc, by simp [Obs]⟩
  case L128 => exact Or.inr ⟨_, by simpa [step, hpc] using Trans.sleepCleanup hpc, by simp [Obs]⟩
  case L73 => exact Or.inr ⟨_, by simpa [step, hpc] using Trans.sentinel hpc, by simp [Obs]⟩

theorem step_trans {W K : Type} (rt : Runtime W) (r : Routine W K) (w : W) (l : Loop) :
    (l.pc = .done ∧ (step rt r w l).1 = l) ∨
    ∃ a, Trans r.pollInterval r.podTTL l a (step rt r w l).1 := by
  rcases step_obs rt r w l with h | ⟨a, h, _⟩
  · exact Or.inl h
  · exact Or.inr ⟨a, h⟩

theorem Trans.trace_snoc {pI pT : Int} {l l1 : Loop} {a : Action} (h : Trans pI pT l a l1) :
    l1.trace = l.trace ++ [a] := by
  cases h <;> rfl

theorem Trans.not_done {pI pT : Int} {l l1 : Loop} {a : Action} (h : Trans pI pT l a l1) :
    l.pc ≠ .done := by
  cases h <;> simp_all

theorem Path.append {pI pT : Int} {l l1 l2 : Loop} {s t : List Action}
    (h1 : Path pI pT l s l1) (h2 : Path pI pT l1 t l2) : Path pI pT l (s ++ t) l2 := by
  induction h1 with
  | nil => exact h2
  | cons htr _ ih => exact Path.cons htr (ih h2)

theorem Path.snoc {pI pT : Int} {l l1 l2 : Loop} {t : List Action} {a : Action}
    (h1 : Path pI pT l t l1) (h2 : Trans pI pT l1 a l2) : Path pI pT l (t ++ [a]) l2 :=
  h1.append (Path.cons h2 (Path.nil _))

theorem Path.nil_inv {pI pT : Int} {l l2 : Loop} (h : Path pI pT l [] l2) : l2 = l := by
  cases h; rfl

theorem Path.cons_inv {pI pT : Int} {l l2 : Loop} {a : Action} {t : List Action}
    (h : Path pI pT l (a :: t) l2) : ∃ l1, Trans pI pT l a l1 ∧ Path pI pT l1 t l2 := by
  cases h with
  | cons h1 h2 => exact ⟨_, h1, h2⟩

theorem Path.split {pI pT : Int} {l l2 : Loop} {s t : List Action}
    (h : Path pI pT l (s ++ t) l2) : ∃ l1, Path pI pT l s l1 ∧ Path pI pT l1 t l2 := by
  induction s generalizing l with
  | nil => exact ⟨l, Path.nil l, h⟩
  | cons a s ih =>
    obtain ⟨l1, h1, h2⟩ := Path.cons_inv h
    obtain ⟨l3, h3, h4⟩ := ih h2
    exact ⟨l3, Path.cons h1 h3, h4⟩

theorem Path.snoc_inv {pI pT : Int} {l l2 : Loop} {t : List Action} {a : Action}
    (h : Path pI pT l (t ++ [a]) l2) : ∃ l1, Path pI pT l t l1 ∧ Trans pI pT l1 a l2 := by
  obtain ⟨l1, h1, h2⟩ := Path.split h
  obtain ⟨l3, h3, h4⟩ := Path.cons_inv h2
  rw [Path.nil_inv h4]
  exact ⟨l1, h1, h3⟩

theorem apply_traced {W K : Type} (rt : Runtime W) (s : Sys W K) (o : Op) (h : s.Traced) :
    (s.apply rt o).Traced := by
  cases o with
  | Start =>
    by_cases hs : s.r.started = true
    · simpa [Sys.apply, Start, hs] using h
    · intro l hl
      simp only [Sys.apply, Start, hs, Bool.false_eq_true, if_false, List.mem_append,
        List.mem_singleton] at hl ⊢
      rcases hl with hl | hl
      · exact h l hl
      · subst hl; exact Path.nil _
  | SignalTerminate => exact h
  | step i =>
    cases hi : s.procs[i]? with
    | none => simpa [Sys.apply, hi] using h
    | some l0 =>
      intro l hl
      simp only [Sys.apply, hi] at hl ⊢
      rcases List.mem_or_eq_of_mem_set hl with hl | hl
      · exact h l hl
      · have h0 := h l0 (List.getElem?_mem hi)
        rcases step_trans rt s.r s.w l0 with ⟨_, hd⟩ | ⟨a, ha⟩
        · rw [hl, hd]; exact h0
        · rw [← hl] at ha
          rw [ha.trace_snoc]
          exact h0.snoc ha

theorem exec_traced {W K : Type} (rt : Runtime W) (s : Sys W K) (ops : List Op)
    (h : s.Traced) : (exec rt s ops).Traced := by
  induction ops generalizing s with
  | nil => exact h
  | cons o ops ih => exact ih _ (apply_traced rt s o h)

/-- In a run from a new Routine, every goroutine state is reached from the
entry of `routine` by performing its trace. -/
theorem reach_path {W K : Type} (rt : Runtime W) (c : K) (pI pT : Int)
    (h : RoutineHandler W) (w : W) (ops : List Op) (l : Loop)
    (hl : l ∈ (exec rt (Sys.new c pI pT h w) ops).procs) :
    Path pI pT Loop.entry l.trace l := by
  have h1 := exec_traced rt (Sys.new c pI pT h w) ops (by intro l hl; simp [Sys.new] at hl) l hl
  have h2 := exec_config rt (Sys.new c pI pT h w) ops
  rw [h2.1, h2.2.1] at h1
  exact h1


/-! ## Projections of a trace -/

theorem events_append (s t : List Action) : events (s ++ t) = events s ++ events t := by
  induction s with
  | nil => rfl
  | cons a s ih => cases a <;> simp [events, ih]

theorem calls_append (s t : List Action) : calls (s ++ t) = calls s ++ calls t := by
  induction s with
  | nil => rfl
  | cons a s ih => cases a <;> simp [calls, ih]

theorem readings_append (s t : List Action) : readings (s ++ t) = readings s ++ readings t := by
  induction s with
  | nil => rfl
  | cons a s ih => cases a <;> simp [readings, ih]

theorem loads_append (s t : List Action) : loads (s ++ t) = loads s ++ loads t := by
  induction s with
  | nil => rfl
  | cons a s ih => cases a <;> simp [loads, ih]

theorem sleeps_append (s t : List Action) : sleeps (s ++ t) = sleeps s ++ sleeps t := by
  induction s with
  | nil => rfl
  | cons a s ih => cases a <;> simp [sleeps, ih]

/-! ## C1: the Start guard -/

theorem Start_of_started {W K : Type} (s : Sys W K) (hs : s.r.started = true) :
    Start s = (some "Routine is already started", s) := by
  simp [Start, hs]

/-- C1: `Start` returns the error "Routine is already started" exactly when
`started` was already true, and `nil` otherwise; a refused `Start` changes
nothing (no field, no goroutine); the result is the same for any two Routines
with the same `started`, whatever their `terminated` flag and handler.  On a
new Routine the first `Start` returns `nil`, sets `started` and launches one
goroutine at the entry of `routine`; after any schedule that follows, a further
`Start` returns the error, changes nothing, and there is still one goroutine. -/
theorem Start_conflict_iff {W K : Type} (rt : Runtime W) (s : Sys W K) (c : K) (pI pT : Int)
    (h : RoutineHandler W) (w : W) (ops : List Op) :
    ((Start s).1 = some "Routine is already started" ↔ s.r.started = true) ∧
    ((Start s).1 = none ↔ s.r.started = false) ∧
    (s.r.started = true → (Start s).2 = s) ∧
    (∀ {W' K' : Type} (s' : Sys W' K'), s'.r.started = s.r.started → (Start s').1 = (Start s).1) ∧
    ((Start (Sys.new c pI pT h w)).1 = none ∧
      (Start (Sys.new c pI pT h w)).2 =
        { r := { started := true, terminated := false, client := c, pollInterval := pI,
                 podTTL := pT, handler := h },
          procs := [Loop.entry], w := w }) ∧
    ((Start (exec rt (Start (Sys.new c pI pT h w)).2 ops)).1 = some "Routine is already started" ∧
      (Start (exec rt (Start (Sys.new c pI pT h w)).2 ops)).2 =
        exec rt (Start (Sys.new c pI pT h w)).2 ops ∧
      (exec rt (Start (Sys.new c pI pT h w)).2 ops).procs.length = 1) := by
  refine ⟨?_, ?_, ?_, ?_, ?_, ?_⟩
  · by_cases hs : s.r.started = true <;> simp [Start, hs]
  · by_cases hs : s.r.started = true <;> simp [Start, hs]
  · intro hs; simp [Start, hs]
  · intro W' K' s' hs
    by_cases hs' : s.r.started = true <;> simp [Start, hs, hs']
  · simp [Start, Sys.new, NewRoutine]
  · have h1 := exec_started rt (Start (Sys.new c pI pT h w)).2 ops (by simp [Start, Sys.new, NewRoutine])
    rw [Start_of_started _ h1.1]
    refine ⟨rfl, rfl, ?_⟩
    rw [h1.2]; simp [Start, Sys.new, NewRoutine]

/-- C1 at a concrete run: a second `Start`, after `SignalTerminate` and some
steps of the loop, is refused and changes nothing. -/
theorem Start_conflict_iff_witness :
    (Start (exec simClock (Start demo).2 [.SignalTerminate, .step 0, .Start, .step 0])).1 =
      some "Routine is already started" ∧
    (exec simClock (Start demo).2 [.SignalTerminate, .step 0, .Start, .step 0]).procs.length = 1 :=
  ⟨(Start_conflict_iff simClock demo () 1000000000 5000000000 okHandler 1700000000000000000
      [.SignalTerminate, .step 0, .Start, .step 0]).2.2.2.2.2.1,
   (Start_conflict_iff simClock demo () 1000000000 5000000000 okHandler 1700000000000000000
      [.SignalTerminate, .step 0, .Start, .step 0]).2.2.2.2.2.2.2⟩

/-! ## C2: the sentinel is unique and last -/

/-- Along any path that does not start in a returned goroutine, the values sent
are non-nil events, followed by one `nil` exactly when the goroutine has
returned. -/
theorem Path.events_shape {pI pT : Int} {l l2 : Loop} {t : List Action}
    (h : Path pI pT l t l2) (h0 : l.pc ≠ .done) :
    (l2.pc ≠ .done → ∃ es : List Event, events t = es.map some) ∧
    (l2.pc = .done → ∃ es : List Event, events t = es.map some ++ [none]) := by
  induction t using List.reverseRecOn generalizing l2 with
  | nil =>
    rw [Path.nil_inv h]
    exact ⟨fun _ => ⟨[], rfl⟩, fun hd => absurd hd h0⟩
  | append_singleton t a ih =>
    obtain ⟨l1, h1, htr⟩ := Path.snoc_inv h
    obtain ⟨es, hes⟩ := (ih h1).1 htr.not_done
    cases htr <;> simp [Loop.goto, events_append, events, hes]
    all_goals first
      | exact ⟨es, rfl⟩
      | exact ⟨es ++ [_], by rw [List.map_append]; rfl⟩

/-- C2: in every run from a new Routine, a goroutine of `routine` that has
finished has sent exactly one terminal sentinel (`nil`), as its last value, and
every value before it is a non-nil event; a goroutine that has not finished
has sent no sentinel. -/
theorem sentinel_once_and_last {W K : Type} (rt : Runtime W) (c : K) (pI pT : Int)
    (h : RoutineHandler W) (w : W) (ops : List Op) (l : Loop)
    (hl : l ∈ (exec rt (Sys.new c pI pT h w) ops).procs) :
    (l.pc = .done → ∃ es : List Event, events l.trace = es.map some ++ [none]) ∧
    (l.pc ≠ .done → ∃ es : List Event, events l.trace = es.map some) := by
  have hp := reach_path rt c pI pT h w ops l hl
  have := hp.events_shape (by simp [Loop.entry])
  exact ⟨this.2, this.1⟩

theorem demoLoop_mem : demoLoop ∈ (exec simClock demo demoOps).procs := by decide

/-- C2 at a concrete finished run. -/
theorem sentinel_once_and_last_witness :
    ∃ es : List Event, events demoLoop.trace = es.map some ++ [none] :=
  (sentinel_once_and_last simClock () 1000000000 5000000000 okHandler 1700000000000000000
    demoOps demoLoop demoLoop_mem).1 rfl

/-! ## Peeling paths -/

theorem Path.trace_eq {pI pT : Int} {l l2 : Loop} {t : List Action} (h : Path pI pT l t l2) :
    l2.trace = l.trace ++ t := by
  induction h with
  | nil => simp
  | cons htr _ ih => rw [ih, htr.trace_snoc]; simp

/-- A path is empty or ends with a last transition. -/
theorem Path.last {pI pT : Int} {l l2 : Loop} {t : List Action} (h : Path pI pT l t l2) :
    (t = [] ∧ l2 = l) ∨ ∃ t1 a l1, t = t1 ++ [a] ∧ Path pI pT l t1 l1 ∧ Trans pI pT l1 a l2 := by
  rcases List.eq_nil_or_concat t with ht | ⟨t1, a, ht⟩
  · subst ht; exact Or.inl ⟨rfl, Path.nil_inv h⟩
  · rw [List.concat_eq_append] at ht
    subst ht
    obtain ⟨l1, h1, h2⟩ := Path.snoc_inv h
    exact Or.inr ⟨t1, a, l1, rfl, h1, h2⟩

/-- A path from the entry that is not at the loop test has a last transition. -/
theorem Path.last_of_entry {pI pT : Int} {l2 : Loop} {t : List Action}
    (h : Path pI pT Loop.entry t l2) (hpc : l2.pc ≠ .L76) :
    ∃ t1 a l1, t = t1 ++ [a] ∧ Path pI pT Loop.entry t1 l1 ∧ Trans pI pT l1 a l2 := by
  rcases h.last with ⟨_, h2⟩ | h2
  · subst h2; exact absurd rfl hpc
  · exact h2

/-- No transition leaves a returned goroutine, so a path from it is empty. -/
theorem Path.of_done {pI pT : Int} {l l2 : Loop} {t : List Action} (h : Path pI pT l t l2)
    (hd : l.pc = .done) : t = [] ∧ l2 = l := by
  cases h with
  | nil => exact ⟨rfl, rfl⟩
  | cons htr _ => exact absurd hd htr.not_done
/-! ## C3: what precedes the sentinel -/

/-- How a path from the entry of `routine` to a returned goroutine ends. -/
theorem Path.done_tail {pI pT : Int} {l : Loop} {t : List Action}
    (h : Path pI pT Loop.entry t l) (hd : l.pc = .done) :
    t = [.load true, .send none] ∨
    (∃ pre err, t = pre ++ [.call .Init (some err),
        .send (some { Status := 500, Message := "init error: " ++ err }),
        .sleep pulseInterval, .load true, .send none]) ∨
    (∃ pre, t = pre ++ [.call .Cleanup none,
        .send (some { Status := 0, Message := "cleanup success" }), .load true, .send none]) := by
  obtain ⟨t1, a1, l1, rfl, h1, tr1⟩ := h.last_of_entry (by simp [hd])
  have hl1 : l1.pc = .L73 ∧ a1 = .send none := by cases tr1 <;> simp_all [Loop.goto]
  obtain ⟨hl1, rfl⟩ := hl1
  obtain ⟨t2, a2, l2, rfl, h2, tr2⟩ := h1.last_of_entry (by simp [hl1])
  have hl2 : l2.pc = .L76 ∧ a2 = .load true := by cases tr2 <;> simp_all [Loop.goto]
  obtain ⟨hl2, rfl⟩ := hl2
  rcases h2.last with ⟨rfl, _⟩ | ⟨t3, a3, l3, rfl, h3, tr3⟩
  · exact Or.inl rfl
  · have hl3 : (l3.pc = .L82 ∧ a3 = .sleep pulseInterval) ∨
        (l3.pc = .L123 ∧ a3 = .send (some { Status := 0, Message := "cleanup success" })) := by
      cases tr3 <;> simp_all [Loop.goto]
    rcases hl3 with ⟨hl3, rfl⟩ | ⟨hl3, rfl⟩
    · obtain ⟨t4, a4, l4, rfl, h4, tr4⟩ := h3.last_of_entry (by simp [hl3])
      have hl4 : ∃ err, l4.pc = .L78 err ∧
          a4 = .send (some { Status := 500, Message := "init error: " ++ err }) := by
        cases tr4 <;> simp_all [Loop.goto]
      obtain ⟨err, hl4, rfl⟩ := hl4
      obtain ⟨t5, a5, l5, rfl, h5, tr5⟩ := h4.last_of_entry (by simp [hl4])
      have hl5 : a5 = .call .Init (some err) := by cases tr5 <;> simp_all [Loop.goto]
      subst hl5
      exact Or.inr (Or.inl ⟨t5, err, by simp⟩)
    · obtain ⟨t4, a4, l4, rfl, h4, tr4⟩ := h3.last_of_entry (by simp [hl3])
      have hl4 : a4 = .call .Cleanup none := by cases tr4 <;> simp_all [Loop.goto]
      subst hl4
      exact Or.inr (Or.inr ⟨t4, by simp⟩)

/-- C3, refuted as stated: two finished runs in which the sentinel is not
preceded by "cleanup success".  With `SignalTerminate` before `Start` the
sentinel is the only event; with `SignalTerminate` while a failed `Init` is
being retried the sentinel follows the "init error" event. -/
theorem sentinel_without_cleanup :
    (exec simClock demo [.SignalTerminate, .Start, .step 0, .step 0]).procs.map
        (fun l => (l.pc, events l.trace)) = [(.done, [none])] ∧
    (exec simClock demoFailInit
        [.Start, .step 0, .step 0, .SignalTerminate, .step 0, .step 0, .step 0, .step 0]).procs.map
        (fun l => (l.pc, events l.trace)) =
      [(.done, [some { Status := 500, Message := "init error: boom" }, none])] ∧
    ¬ (∀ (ops : List Op) (l : Loop), l ∈ (exec simClock demo ops).procs → l.pc = .done →
        ∃ pre, events l.trace = pre ++ [some { Status := 0, Message := "cleanup success" }, none]) := by
  refine ⟨by decide, by decide, ?_⟩
  intro hall
  obtain ⟨pre, hpre⟩ := hall [.SignalTerminate, .Start, .step 0, .step 0]
    { pc := .done, lastPoll := 0, podStart := 0, trace := [.load true, .send none] }
    (by decide) rfl
  have hlen := congrArg List.length hpre
  simp [events] at hlen

/-- C3, amended: in every run from a new Routine, a finished goroutine ended in
one of three ways.  Either the flag was already set at the first loop test and
the sentinel is the only event; or the flag was found set at the loop test
after a failed `Init`, and the sentinel follows that "init error" event; or the
flag was found set at the loop test after a successful `Cleanup`, and the
sentinel follows the "cleanup success" event. -/
theorem sentinel_after_cleanup_or_no_epoch {W K : Type} (rt : Runtime W) (c : K) (pI pT : Int)
    (h : RoutineHandler W) (w : W) (ops : List Op) (l : Loop)
    (hl : l ∈ (exec rt (Sys.new c pI pT h w) ops).procs) (hd : l.pc = .done) :
    (l.trace = [.load true, .send none] ∧ events l.trace = [none]) ∨
    (∃ pre err, l.trace = pre ++ [.call .Init (some err),
        .send (some { Status := 500, Message := "init error: " ++ err }),
        .sleep pulseInterval, .load true, .send none] ∧
      events l.trace =
        events pre ++ [some { Status := 500, Message := "init error: " ++ err }, none]) ∨
    (∃ pre, l.trace = pre ++ [.call .Cleanup none,
        .send (some { Status := 0, Message := "cleanup success" }), .load true, .send none] ∧
      events l.trace = events pre ++ [some { Status := 0, Message := "cleanup success" }, none]) := by
  have hp := reach_path rt c pI pT h w ops l hl
  rcases hp.done_tail hd with ht | ⟨pre, err, ht⟩ | ⟨pre, ht⟩
  · exact Or.inl ⟨ht, by rw [ht]; rfl⟩
  · exact Or.inr (Or.inl ⟨pre, err, ht, by rw [ht, events_append]; rfl⟩)
  · exact Or.inr (Or.inr ⟨pre, ht, by rw [ht, events_append]; rfl⟩)

/-- C3 amended, at the concrete finished run `demoOps`: there the sentinel
follows "cleanup success". -/
theorem sentinel_after_cleanup_or_no_epoch_witness :
    (demoLoop.trace = [.load true, .send none] ∧ events demoLoop.trace = [none]) ∨
    (∃ pre err, demoLoop.trace = pre ++ [.call .Init (some err),
        .send (some { Status := 500, Message := "init error: " ++ err }),
        .sleep pulseInterval, .load true, .send none] ∧
      events demoLoop.trace =
        events pre ++ [some { Status := 500, Message := "init error: " ++ err }, none]) ∨
    (∃ pre, demoLoop.trace = pre ++ [.call .Cleanup none,
        .send (some { Status := 0, Message := "cleanup success" }), .load true, .send none] ∧
      events demoLoop.trace =
        events pre ++ [some { Status := 0, Message := "cleanup success" }, none]) :=
  sentinel_after_cleanup_or_no_epoch simClock () 1000000000 5000000000 okHandler
    1700000000000000000 demoOps demoLoop demoLoop_mem rfl

/-! ## C4: the decision after "cleanup success" -/

/-- What a path contains after a send of "cleanup success". -/
theorem Path.after_cleanup_ok {pI pT : Int} {l0 l : Loop} {pre post : List Action}
    (h : Path pI pT l0
      (pre ++ .send (some { Status := 0, Message := "cleanup success" }) :: post) l) :
    (post = [] ∧ l.pc = .L76) ∨ (post = [.load true] ∧ l.pc = .L73) ∨
    (post = [.load true, .send none] ∧ l.pc = .done) ∨ (post = [.load false] ∧ l.pc = .L77) ∨
    ∃ err rest, post = .load false :: .call .Init err :: rest := by
  obtain ⟨l1, _, h1⟩ := Path.split h
  obtain ⟨l2, tr, h2⟩ := Path.cons_inv h1
  have hl2 : l2.pc = .L76 := by
    generalize ha : Action.send (some { Status := 0, Message := "cleanup success" }) = a at tr
    cases tr <;> simp_all [Loop.goto]
  cases post with
  | nil => rw [Path.nil_inv h2]; exact Or.inl ⟨rfl, hl2⟩
  | cons a1 post =>
    obtain ⟨l3, tr3, h3⟩ := Path.cons_inv h2
    have hl3 : (a1 = .load true ∧ l3.pc = .L73) ∨ (a1 = .load false ∧ l3.pc = .L77) := by
      cases tr3 <;> simp_all [Loop.goto]
    rcases hl3 with ⟨rfl, hl3⟩ | ⟨rfl, hl3⟩
    · cases post with
      | nil => rw [Path.nil_inv h3]; exact Or.inr (Or.inl ⟨rfl, hl3⟩)
      | cons a2 post =>
        obtain ⟨l4, tr4, h4⟩ := Path.cons_inv h3
        have hl4 : a2 = .send none ∧ l4.pc = .done := by cases tr4 <;> simp_all [Loop.goto]
        obtain ⟨rfl, hl4⟩ := hl4
        obtain ⟨rfl, rfl⟩ := h4.of_done hl4
        exact Or.inr (Or.inr (Or.inl ⟨rfl, hl4⟩))
    · cases post with
      | nil => rw [Path.nil_inv h3]; exact Or.inr (Or.inr (Or.inr (Or.inl ⟨rfl, hl3⟩)))
      | cons a2 post =>
        obtain ⟨l4, tr4, h4⟩ := Path.cons_inv h3
        have hl4 : ∃ err, a2 = .call .Init err := by cases tr4 <;> simp_all [Loop.goto]
        obtain ⟨err, rfl⟩ := hl4
        exact Or.inr (Or.inr (Or.inr (Or.inr ⟨err, post, rfl⟩)))

/-- C4: in every run from a new Routine, whatever follows a "cleanup success"
event in the trace of the goroutine starts with a read of `terminated`.  If
the value read is true, the only further action is the send of the sentinel,
after which the goroutine has returned: no handler method is called again.  If
it is false, the next action is a call of `Init`, not a sentinel. -/
theorem after_cleanup_success {W K : Type} (rt : Runtime W) (c : K) (pI pT : Int)
    (h : RoutineHandler W) (w : W) (ops : List Op) (l : Loop)
    (hl : l ∈ (exec rt (Sys.new c pI pT h w) ops).procs) (pre post : List Action)
    (ht : l.trace = pre ++ .send (some { Status := 0, Message := "cleanup success" }) :: post) :
    (post = [] ∧ l.pc = .L76) ∨ (post = [.load true] ∧ l.pc = .L73) ∨
    (post = [.load true, .send none] ∧ l.pc = .done) ∨ (post = [.load false] ∧ l.pc = .L77) ∨
    ∃ err rest, post = .load false :: .call .Init err :: rest := by
  have hp := reach_path rt c pI pT h w ops l hl
  rw [ht] at hp
  exact hp.after_cleanup_ok

/-- C4 at the concrete finished run `demoOps`, split after its "cleanup success":
the flag is read as true, the sentinel follows and the goroutine has returned. -/
theorem after_cleanup_success_witness :
    ([Action.load true, .send none] = [] ∧ demoLoop.pc = .L76) ∨
    ([Action.load true, .send none] = [.load true] ∧ demoLoop.pc = .L73) ∨
    ([Action.load true, .send none] = [.load true, .send none] ∧ demoLoop.pc = .done) ∨
    ([Action.load true, .send none] = [.load false] ∧ demoLoop.pc = .L77) ∨
    ∃ err rest, [Action.load true, .send none] = .load false :: .call .Init err :: rest :=
  after_cleanup_success simClock () 1000000000 5000000000 okHandler
    1700000000000000000 demoOps demoLoop demoLoop_mem
    [.load false, .call .Init none, .send (some { Status := 0, Message := "init success" }),
      .now 1700000000000000000, .load true,
      .send (some { Status := 0, Message := "terminated, will clean up" }),
      .call .Cleanup none] [.load true, .send none] rfl
/-! ## C5 and C6: the retry rounds -/

theorem apply_step_single {W K : Type} (rt : Runtime W) (r : Routine W K) (l : Loop) (w : W) :
    Sys.apply rt { r := r, procs := [l], w := w } (.step 0) =
      { r := r, procs := [(step rt r w l).1], w := (step rt r w l).2 } := by
  simp [Sys.apply]

theorem exec_step_single {W K : Type} (rt : Runtime W) (r : Routine W K) (l : Loop) (w : W)
    (n : Nat) :
    exec rt { r := r, procs := [l], w := w } (List.replicate (n + 1) (.step 0)) =
      exec rt { r := r, procs := [(step rt r w l).1], w := (step rt r w l).2 }
        (List.replicate n (.step 0)) := by
  rw [List.replicate_succ, exec_cons, apply_step_single]

/-- C5: let the goroutine be at the loop test (line 76) with `terminated` false
and not set meanwhile, and let `Init` fail `N` times, with the error texts
`errs`, and then succeed.  Then `4 * N + 3` statements later the goroutine is
past the "init success" send, and what it did is exactly `N` rounds of flag
read, failed `Init`, send of the Status-500 event "init error: " followed by
the error text and sleep, then a flag read, the successful `Init` and the send
of the Status-0 event "init success": `N` error events, one success event, and
no call of `Poll`. -/
theorem init_retry {W K : Type} (rt : Runtime W) (r : Routine W K) (errs : List String) (w : W)
    (l : Loop) (hterm : r.terminated = false) (hpc : l.pc = .L76)
    (hfail : ∀ k (hk : k < errs.length),
      (r.handler.Init (initAttempt rt r.handler w k)).1 = some (errs.get ⟨k, hk⟩))
    (hok : (r.handler.Init (initAttempt rt r.handler w errs.length)).1 = none) :
    ∃ l1 w1, exec rt { r := r, procs := [l], w := w }
        (List.replicate (4 * errs.length + 3) (.step 0)) = { r := r, procs := [l1], w := w1 } ∧
      l1.pc = .L91 ∧
      l1.trace = l.trace ++ (errs.map initErrorRound).flatten ++
        [.load false, .call .Init none, .send (some { Status := 0, Message := "init success" })] ∧
      events l1.trace = events l.trace ++
        errs.map (fun e => some { Status := 500, Message := "init error: " ++ e }) ++
        [some { Status := 0, Message := "init success" }] ∧
      calls l1.trace = calls l.trace ++ errs.map (fun e => (Method.Init, some e)) ++
        [(Method.Init, none)] := by
  induction errs generalizing w l with
  | nil =>
    simp only [List.length_nil, initAttempt] at hok
    rcases hI : r.handler.Init w with ⟨e, w1⟩
    rw [hI] at hok
    simp only at hok
    subst hok
    refine ⟨{ pc := .L91, lastPoll := l.lastPoll, podStart := l.podStart,
              trace := l.trace ++ [.load false, .call .Init none,
                .send (some { Status := 0, Message := "init success" })] }, w1, ?_, ?_, ?_, ?_, ?_⟩
    · simp only [List.length_nil, Nat.mul_zero, Nat.zero_add]
      rw [exec_step_single, exec_step_single, exec_step_single]
      simp [step, hpc, hterm, Loop.goto, hI, exec_nil]
    · rfl
    · simp
    · simp [events_append, events]
    · simp [calls_append, calls]
  | cons e errs ih =>
    have h0 := hfail 0 (by simp)
    simp only [initAttempt, List.get_eq_getElem, List.getElem_cons_zero] at h0
    rcases hI : r.handler.Init w with ⟨e0, w1⟩
    rw [hI] at h0
    simp only at h0
    subst h0
    obtain ⟨l1, w2, hex, hpc1, htr, hev, hca⟩ := ih (rt.Sleep pulseInterval w1)
      { pc := .L76, lastPoll := l.lastPoll, podStart := l.podStart,
        trace := l.trace ++ initErrorRound e } rfl
      (by
        intro k hk
        have := hfail (k + 1) (by simpa using hk)
        simpa [initAttempt, hI] using this)
      (by simpa [initAttempt, hI] using hok)
    refine ⟨l1, w2, ?_, hpc1, ?_, ?_, ?_⟩
    · have hn : 4 * (e :: errs).length + 3 = (4 * errs.length + 3) + 1 + 1 + 1 + 1 := by
        simp only [List.length_cons]; ring
      rw [hn, exec_step_single, exec_step_single, exec_step_single, exec_step_single, ← hex]
      simp [step, hpc, hterm, Loop.goto, hI, initErrorRound]
    · rw [htr]; simp [initErrorRound]
    · rw [hev]; simp [events_append, events, initErrorRound]
    · rw [hca]; simp [calls_append, calls, initErrorRound]

/-- C5 at a concrete handler: `Init` fails twice with "not ready" and then
succeeds; eleven statements from the entry give two error events and one
"init success". -/
theorem init_retry_witness :
    ∃ l1 w1, exec stillClock { r := flaky, procs := [Loop.entry], w := 0 }
        (List.replicate (4 * ["not ready", "not ready"].length + 3) (.step 0)) =
          { r := flaky, procs := [l1], w := w1 } ∧
      l1.pc = .L91 ∧
      l1.trace = Loop.entry.trace ++
        (["not ready", "not ready"].map initErrorRound).flatten ++
        [.load false, .call .Init none, .send (some { Status := 0, Message := "init success" })] ∧
      events l1.trace = events Loop.entry.trace ++
        ["not ready", "not ready"].map
          (fun e => some { Status := 500, Message := "init error: " ++ e }) ++
        [some { Status := 0, Message := "init success" }] ∧
      calls l1.trace = calls Loop.entry.trace ++
        ["not ready", "not ready"].map (fun e => (Method.Init, some e)) ++
        [(Method.Init, none)] :=
  init_retry stillClock flaky ["not ready", "not ready"] 0 Loop.entry rfl rfl
    (by
      intro k hk
      match k, hk with
      | 0, _ => rfl
      | 1, _ => rfl)
    rfl

/-- The clean-up rounds, from the first call of `Cleanup` (line 117). -/
theorem cleanup_rounds {W K : Type} (rt : Runtime W) (r : Routine W K) (errs : List String)
    (w : W) (l : Loop) (hpc : l.pc = .L117)
    (hfail : ∀ k (hk : k < errs.length),
      (r.handler.Cleanup (cleanupAttempt rt r.handler w k)).1 = some (errs.get ⟨k, hk⟩))
    (hok : (r.handler.Cleanup (cleanupAttempt rt r.handler w errs.length)).1 = none) :
    ∃ l1 w1, exec rt { r := r, procs := [l], w := w }
        (List.replicate (3 * errs.length + 2) (.step 0)) = { r := r, procs := [l1], w := w1 } ∧
      l1.pc = .L76 ∧
      l1.trace = l.trace ++ (errs.map cleanupErrorRound).flatten ++
        [.call .Cleanup none, .send (some { Status := 0, Message := "cleanup success" })] := by
  induction errs generalizing w l with
  | nil =>
    simp only [List.length_nil, cleanupAttempt] at hok
    rcases hI : r.handler.Cleanup w with ⟨e, w1⟩
    rw [hI] at hok
    simp only at hok
    subst hok
    refine ⟨{ pc := .L76, lastPoll := l.lastPoll, podStart := l.podStart,
              trace := l.trace ++ [.call .Cleanup none,
                .send (some { Status := 0, Message := "cleanup success" })] }, w1, ?_, rfl, ?_⟩
    · simp only [List.length_nil, Nat.mul_zero, Nat.zero_add]
      rw [exec_step_single, exec_step_single]
      simp [step, hpc, Loop.goto, hI, exec_nil]
    · simp
  | cons e errs ih =>
    have h0 := hfail 0 (by simp)
    simp only [cleanupAttempt, List.get_eq_getElem, List.getElem_cons_zero] at h0
    rcases hI : r.handler.Cleanup w with ⟨e0, w1⟩
    rw [hI] at h0
    simp only at h0
    subst h0
    obtain ⟨l1, w2, hex, hpc1, htr⟩ := ih (rt.Sleep pulseInterval w1)
      { pc := .L117, lastPoll := l.lastPoll, podStart := l.podStart,
        trace := l.trace ++ cleanupErrorRound e } rfl
      (by
        intro k hk
        have := hfail (k + 1) (by simpa using hk)
        simpa [cleanupAttempt, hI] using this)
      (by simpa [cleanupAttempt, hI] using hok)
    refine ⟨l1, w2, ?_, hpc1, ?_⟩
    · have hn : 3 * (e :: errs).length + 2 = (3 * errs.length + 2) + 1 + 1 + 1 := by
        simp only [List.length_cons]; ring
      rw [hn, exec_step_single, exec_step_single, exec_step_single, ← hex]
      simp [step, hpc, Loop.goto, hI, cleanupErrorRound]
    · rw [htr]; simp [cleanupErrorRound]

/-- C6: let the goroutine be about to send "terminated, will clean up" (line
112), with any value of `terminated`, and let `Cleanup` fail `N` times, with
the error texts `errs`, and then succeed.  Then `3 * N + 3` statements later
the goroutine is back at the loop test, and what it did after that send is
exactly `N` rounds of failed `Cleanup`, send of the Status-500 event
"cleanup error: " followed by the error text and sleep, then the successful
`Cleanup` and the send of the Status-0 event "cleanup success": no call of
`Init` or `Poll` and no sentinel in between. -/
theorem cleanup_retry {W K : Type} (rt : Runtime W) (r : Routine W K) (errs : List String)
    (w : W) (l : Loop) (hpc : l.pc = .L112)
    (hfail : ∀ k (hk : k < errs.length),
      (r.handler.Cleanup (cleanupAttempt rt r.handler w k)).1 = some (errs.get ⟨k, hk⟩))
    (hok : (r.handler.Cleanup (cleanupAttempt rt r.handler w errs.length)).1 = none) :
    ∃ l1 w1, exec rt { r := r, procs := [l], w := w }
        (List.replicate (3 * errs.length + 3) (.step 0)) = { r := r, procs := [l1], w := w1 } ∧
      l1.pc = .L76 ∧
      l1.trace = l.trace ++
        [.send (some { Status := 0, Message := "terminated, will clean up" })] ++
        (errs.map cleanupErrorRound).flatten ++
        [.call .Cleanup none, .send (some { Status := 0, Message := "cleanup success" })] ∧
      events l1.trace = events l.trace ++
        [some { Status := 0, Message := "terminated, will clean up" }] ++
        errs.map (fun e => some { Status := 500, Message := "cleanup error: " ++ e }) ++
        [some { Status := 0, Message := "cleanup success" }] ∧
      calls l1.trace = calls l.trace ++ errs.map (fun e => (Method.Cleanup, some e)) ++
        [(Method.Cleanup, none)] := by
  obtain ⟨l1, w1, hex, hpc1, htr⟩ := cleanup_rounds rt r errs w
    { pc := .L117, lastPoll := l.lastPoll, podStart := l.podStart,
      trace := l.trace ++ [.send (some { Status := 0, Message := "terminated, will clean up" })] }
    rfl hfail hok
  have hev : ∀ es : List String, events (es.map cleanupErrorRound).flatten =
      es.map (fun e => some { Status := 500, Message := "cleanup error: " ++ e }) := by
    intro es
    induction es with
    | nil => rfl
    | cons e es ih => simp [events_append, events, cleanupErrorRound, ih]
  have hca : ∀ es : List String, calls (es.map cleanupErrorRound).flatten =
      es.map (fun e => (Method.Cleanup, some e)) := by
    intro es
    induction es with
    | nil => rfl
    | cons e es ih => simp [calls_append, calls, cleanupErrorRound, ih]
  refine ⟨l1, w1, ?_, hpc1, htr, ?_, ?_⟩
  · rw [exec_step_single, ← hex]
    simp [step, hpc, Loop.goto]
  · rw [htr]; simp [events_append, events, hev]
  · rw [htr]; simp [calls_append, calls, hca]

/-- C6 at a concrete handler, with `terminated` set: `Cleanup` fails three
times with "busy" and then succeeds. -/
theorem cleanup_retry_witness :
    ∃ l1 w1, exec stillClock
        { r := SignalTerminate flaky,
          procs := [{ pc := .L112, lastPoll := 0, podStart := 0, trace := [] }], w := 0 }
        (List.replicate (3 * ["busy", "busy", "busy"].length + 3) (.step 0)) =
          { r := SignalTerminate flaky, procs := [l1], w := w1 } ∧
      l1.pc = .L76 ∧
      l1.trace = [] ++
        [.send (some { Status := 0, Message := "terminated, will clean up" })] ++
        (["busy", "busy", "busy"].map cleanupErrorRound).flatten ++
        [.call .Cleanup none, .send (some { Status := 0, Message := "cleanup success" })] ∧
      events l1.trace = events [] ++
        [some { Status := 0, Message := "terminated, will clean up" }] ++
        ["busy", "busy", "busy"].map
          (fun e => some { Status := 500, Message := "cleanup error: " ++ e }) ++
        [some { Status := 0, Message := "cleanup success" }] ∧
      calls l1.trace = calls [] ++
        ["busy", "busy", "busy"].map (fun e => (Method.Cleanup, some e)) ++
        [(Method.Cleanup, none)] :=
  cleanup_retry stillClock (SignalTerminate flaky) ["busy", "busy", "busy"] 0
    { pc := .L112, lastPoll := 0, podStart := 0, trace := [] } rfl
    (by
      intro k hk
      match k, hk with
      | 0, _ => rfl
      | 1, _ => rfl
      | 2, _ => rfl)
    rfl
/-! ## C7: SignalTerminate right after Start -/

theorem exec_steps_single {W K : Type} (rt : Runtime W) (r : Routine W K) (n : Nat) (l : Loop)
    (w : W) :
    exec rt { r := r, procs := [l], w := w } (List.replicate n (.step 0)) =
      { r := r, procs := [(runLoop rt r n (l, w)).1], w := (runLoop rt r n (l, w)).2 } := by
  induction n generalizing l w with
  | zero => rfl
  | succ n ih => rw [exec_step_single, ih]; rfl

theorem runLoop_succ {W K : Type} (rt : Runtime W) (r : Routine W K) (n : Nat) (c : Loop × W) :
    runLoop rt r (n + 1) c =
      step rt r (runLoop rt r n c).2 (runLoop rt r n c).1 := by
  induction n generalizing c with
  | zero => rfl
  | succ n ih => rw [runLoop, ih]; rfl

theorem runLoop_done {W K : Type} (rt : Runtime W) (r : Routine W K) (n : Nat) (l : Loop)
    (w : W) (hd : l.pc = .done) : runLoop rt r n (l, w) = (l, w) := by
  induction n with
  | zero => rfl
  | succ n ih => rw [runLoop_succ, ih]; simp [step, hd]

theorem PC.togo_le (pc : PC) : pc.togo ≤ 12 := by
  cases pc <;> simp [PC.togo]

theorem PC.togo_eq_zero {pc : PC} (h : pc.togo = 0) : pc = .done := by
  cases pc <;> simp [PC.togo] at h ⊢

section scenario
variable {W K : Type} (rt : Runtime W) (r : Routine W K)
  (hI : ∀ w, (r.handler.Init w).1 = none) (hP : ∀ w, (r.handler.Poll w).1 = none)
  (hC : ∀ w, (r.handler.Cleanup w).1 = none)
include hI hP hC

/-- With the flag set and a handler that never fails, every statement brings
the goroutine closer to its return. -/
theorem step_togo (ht : r.terminated = true) (w : W) (l : Loop) (hd : l.pc ≠ .done) :
    (step rt r w l).1.pc.togo < l.pc.togo := by
  rcases step_obs rt r w l with ⟨h, _⟩ | ⟨a, htr, ho⟩
  · exact absurd h hd
  · have hI' := hI w
    have hP' := hP w
    have hC' := hC w
    generalize (step rt r w l).1 = l1 at htr ⊢
    cases htr <;> simp_all [Obs, Loop.goto, PC.togo]

theorem runLoop_togo (ht : r.terminated = true) (n : Nat) (c : Loop × W) :
    (runLoop rt r n c).1.pc.togo ≤ c.1.pc.togo - n := by
  induction n with
  | zero => simp [runLoop]
  | succ n ih =>
    rw [runLoop_succ]
    by_cases hd : (runLoop rt r n c).1.pc = .done
    · simp [step, hd, PC.togo]
    · have := step_togo rt r hI hP hC ht (runLoop rt r n c).2 (runLoop rt r n c).1 hd
      omega

/-- With the flag set and a handler that never fails, a goroutine in its
first epoch stays on the way described by `oneEpoch`. -/
theorem step_oneEpoch_set (ht : r.terminated = true) (w : W) (l : Loop) (h1 : oneEpoch l) :
    oneEpoch (step rt r w l).1 := by
  rcases step_obs rt r w l with ⟨_, h⟩ | ⟨a, htr, ho⟩
  · rw [h]; exact h1
  · have hI' := hI w
    have hP' := hP w
    have hC' := hC w
    generalize (step rt r w l).1 = l1 at htr ⊢
    cases htr <;> simp_all [Obs, Loop.goto, oneEpoch, events_append, events]
    case sendInitOk => rfl
    case sendPollOk =>
      obtain ⟨j, hj⟩ := h1
      exact ⟨j + 1, by rw [hj]; simp [epochEvents, List.replicate_succ']⟩
    case sendCleanupOk =>
      obtain ⟨j, hj⟩ := h1
      exact ⟨j, by rw [hj]; simp⟩
    case sentinel =>
      obtain ⟨j, hj⟩ := h1
      exact ⟨j, by rw [hj]; simp⟩

/-- With the flag clear and a handler that never fails, a goroutine in its
first epoch stays on the way described by `oneEpoch` until "cleanup success"
has been sent. -/
theorem step_oneEpoch_clear (ht : r.terminated = false) (w : W) (l : Loop) (h1 : oneEpoch l) :
    oneEpoch (step rt r w l).1 ∨
      some { Status := 0, Message := "cleanup success" } ∈ events (step rt r w l).1.trace := by
  rcases step_obs rt r w l with ⟨_, h⟩ | ⟨a, htr, ho⟩
  · rw [h]; exact Or.inl h1
  · have hI' := hI w
    have hP' := hP w
    have hC' := hC w
    generalize (step rt r w l).1 = l1 at htr ⊢
    cases htr <;> simp_all [Obs, Loop.goto, oneEpoch, events_append, events]
    case loopEnter =>
      obtain ⟨j, hj⟩ := h1
      exact Or.inr (by rw [hj]; simp)
    case sendInitOk => rfl
    case sendPollOk =>
      obtain ⟨j, hj⟩ := h1
      exact Or.inl ⟨j + 1, by rw [hj]; simp [epochEvents, List.replicate_succ']⟩
    case sentinel =>
      obtain ⟨j, hj⟩ := h1
      exact Or.inl ⟨j, by rw [hj]; simp⟩

omit hI hP hC in
/-- What has been sent stays sent. -/
theorem step_events_mono (w : W) (l : Loop) (e : Option Event) (he : e ∈ events l.trace) :
    e ∈ events (step rt r w l).1.trace := by
  rcases step_trans rt r w l with ⟨_, h⟩ | ⟨a, htr⟩
  · rw [h]; exact he
  · rw [htr.trace_snoc, events_append]; exact List.mem_append_left _ he

theorem runLoop_oneEpoch_set (ht : r.terminated = true) (n : Nat) (c : Loop × W)
    (h1 : oneEpoch c.1) : oneEpoch (runLoop rt r n c).1 := by
  induction n with
  | zero => exact h1
  | succ n ih => rw [runLoop_succ]; exact step_oneEpoch_set rt r hI hP hC ht _ _ ih

theorem runLoop_oneEpoch_clear (ht : r.terminated = false) (n : Nat) (w : W) :
    oneEpoch (runLoop rt r (n + 1) (Loop.entry, w)).1 ∨
      some { Status := 0, Message := "cleanup success" } ∈
        events (runLoop rt r (n + 1) (Loop.entry, w)).1.trace := by
  induction n with
  | zero => left; simp [runLoop, step, Loop.entry, ht, Loop.goto, oneEpoch, events]
  | succ n ih =>
    rw [runLoop_succ]
    rcases ih with ih | ih
    · exact step_oneEpoch_clear rt r hI hP hC ht _ _ ih
    · exact Or.inr (step_events_mono rt r _ _ _ ih)

end scenario

/-- A goroutine that runs `k + 1` statements from the entry with the flag clear
and then `m ≥ 12` statements with the flag set, with a handler that never
fails, has returned, and has sent the events of one epoch, provided "cleanup
success" had not been sent when the flag was set. -/
theorem runLoop_flag_late {W K : Type} (rt : Runtime W) (r1 r2 : Routine W K)
    (ht1 : r1.terminated = false) (ht2 : r2.terminated = true)
    (hI1 : ∀ w, (r1.handler.Init w).1 = none) (hP1 : ∀ w, (r1.handler.Poll w).1 = none)
    (hC1 : ∀ w, (r1.handler.Cleanup w).1 = none)
    (hI2 : ∀ w, (r2.handler.Init w).1 = none) (hP2 : ∀ w, (r2.handler.Poll w).1 = none)
    (hC2 : ∀ w, (r2.handler.Cleanup w).1 = none) (k m : Nat) (w : W) (hm : 12 ≤ m)
    (hno : some { Status := 0, Message := "cleanup success" } ∉
      events (runLoop rt r1 (k + 1) (Loop.entry, w)).1.trace) :
    (runLoop rt r2 m (runLoop rt r1 (k + 1) (Loop.entry, w))).1.pc = .done ∧
    ∃ j, events (runLoop rt r2 m (runLoop rt r1 (k + 1) (Loop.entry, w))).1.trace =
      epochEvents j ++ [some { Status := 0, Message := "terminated, will clean up" },
        some { Status := 0, Message := "cleanup success" }, none] := by
  have h1 := runLoop_oneEpoch_clear rt r1 hI1 hP1 hC1 ht1 k w
  have h2 := h1.resolve_right hno
  have h3 := runLoop_oneEpoch_set rt r2 hI2 hP2 hC2 ht2 m _ h2
  have h4 := runLoop_togo rt r2 hI2 hP2 hC2 ht2 m (runLoop rt r1 (k + 1) (Loop.entry, w))
  have h5 := PC.togo_le (runLoop rt r1 (k + 1) (Loop.entry, w)).1.pc
  have hd : (runLoop rt r2 m (runLoop rt r1 (k + 1) (Loop.entry, w))).1.pc = .done :=
    PC.togo_eq_zero (by omega)
  refine ⟨hd, ?_⟩
  simpa [oneEpoch, hd] using h3

/-- C7, refuted as stated: TTL 5 s, poll interval 1 s, a handler that always
succeeds, `SignalTerminate` called right after `Start`.  When the flag is
already set at the loop's very first check, the goroutine returns at once and
the whole event sequence is the sentinel: there is no "init success". -/
theorem scenario_first_check_sentinel_only :
    (exec simClock demo [.Start, .SignalTerminate, .step 0, .step 0]).procs.map
        (fun l => (l.pc, events l.trace)) = [(.done, [none])] ∧
    ¬ (∀ l ∈ (exec simClock demo [.Start, .SignalTerminate, .step 0, .step 0]).procs,
        ∃ j, events l.trace = epochEvents j ++
          [some { Status := 0, Message := "terminated, will clean up" },
           some { Status := 0, Message := "cleanup success" }, none]) := by
  refine ⟨by decide, ?_⟩
  intro hall
  obtain ⟨j, hj⟩ := hall
    { pc := .done, lastPoll := 0, podStart := 0, trace := [.load true, .send none] } (by decide)
  simp [events, epochEvents] at hj

/-- C7, amended: TTL 5 s, poll interval 1 s, a handler whose `Init`, `Poll` and
`Cleanup` always succeed, any clock, `SignalTerminate` called once after
`Start`.  If it is called before the goroutine has executed anything, the
goroutine returns within two statements and the event sequence is the sentinel
alone.  If it is called after `k ≥ 1` statements, hence after the first loop
test, and before "cleanup success" has been sent, the goroutine returns within
twelve statements and the event sequence is "init success", some number
of "poll success", "terminated, will clean up", "cleanup success", sentinel. -/
theorem scenario_terminate_after_start {W K : Type} (rt : Runtime W) (c : K)
    (h : RoutineHandler W) (w : W)
    (hI : ∀ w, (h.Init w).1 = none) (hP : ∀ w, (h.Poll w).1 = none)
    (hC : ∀ w, (h.Cleanup w).1 = none) :
    (∀ m, 2 ≤ m →
      ∀ l ∈ (exec rt (Sys.new c 1000000000 5000000000 h w)
          (.Start :: .SignalTerminate :: List.replicate m (.step 0))).procs,
        l.pc = .done ∧ events l.trace = [none]) ∧
    (∀ k m, 1 ≤ k → 12 ≤ m →
      (∀ l ∈ (exec rt (Sys.new c 1000000000 5000000000 h w)
          (.Start :: List.replicate k (.step 0))).procs,
        some { Status := 0, Message := "cleanup success" } ∉ events l.trace) →
      ∀ l ∈ (exec rt (Sys.new c 1000000000 5000000000 h w)
          (.Start :: (List.replicate k (.step 0) ++
            .SignalTerminate :: List.replicate m (.step 0)))).procs,
        l.pc = .done ∧ ∃ j, events l.trace = epochEvents j ++
          [some { Status := 0, Message := "terminated, will clean up" },
           some { Status := 0, Message := "cleanup success" }, none]) := by
  have hstart : ∀ ops, exec rt (Sys.new c 1000000000 5000000000 h w) (.Start :: ops) =
      exec rt { r := { started := true, terminated := false, client := c,
                       pollInterval := 1000000000, podTTL := 5000000000, handler := h },
                procs := [Loop.entry], w := w } ops := by
    intro ops; rfl
  constructor
  · intro m hm l hl
    obtain ⟨m, rfl⟩ : ∃ n, m = n + 2 := ⟨m - 2, by omega⟩
    rw [hstart, exec_cons] at hl
    simp only [Sys.apply, SignalTerminate] at hl
    rw [exec_step_single, exec_step_single] at hl
    simp only [step, Loop.entry, Loop.goto, if_true] at hl
    rw [exec_steps_single, runLoop_done _ _ _ _ _ rfl] at hl
    simp only [List.mem_singleton] at hl
    subst hl
    exact ⟨rfl, rfl⟩
  · intro k m hk hm hno l hl
    obtain ⟨k, rfl⟩ : ∃ n, k = n + 1 := ⟨k - 1, by omega⟩
    rw [hstart, exec_steps_single] at hno
    rw [hstart, exec_append, exec_steps_single, exec_cons] at hl
    simp only [Sys.apply, SignalTerminate] at hl
    rw [exec_steps_single] at hl
    simp only [List.mem_singleton] at hl hno
    rw [hl]
    exact runLoop_flag_late rt _ _ rfl rfl hI hP hC hI hP hC k m w hm (hno _ rfl)

/-- C7 amended, at a concrete run with a clock that advances by the time
slept: `SignalTerminate` comes after four statements of the goroutine. -/
theorem scenario_terminate_after_start_witness :
    demoLoop.pc = .done ∧ ∃ j, events demoLoop.trace = epochEvents j ++
      [some { Status := 0, Message := "terminated, will clean up" },
       some { Status := 0, Message := "cleanup success" }, none] :=
  (scenario_terminate_after_start simClock () okHandler 1700000000000000000
    (fun _ => rfl) (fun _ => rfl) (fun _ => rfl)).2 4 12 (by decide) (by decide) (by decide)
    demoLoop (by decide)
/-! ## C8: the spacing of polls -/

/-- A path without handler calls that starts in the polling phase stays there
and keeps `lastPoll`. -/
theorem Path.polling_keeps {pI pT : Int} {l l2 : Loop} {t : List Action}
    (h : Path pI pT l t l2) (hp : l.pc.polling) (hno : ∀ m e, Action.call m e ∉ t) :
    l2.pc.polling ∧ l2.lastPoll = l.lastPoll := by
  induction h with
  | nil => exact ⟨hp, rfl⟩
  | cons htr _ ih =>
    have hno1 : ∀ m e, Action.call m e ∉ _ := fun m e hm => hno m e (List.mem_cons_of_mem _ hm)
    have hhead := fun m e => List.ne_of_not_mem_cons (hno m e)
    cases htr <;> simp_all [Loop.goto, PC.polling]

theorem Sub_le_of_nonneg {t u : Int} (h : u ≤ t) : Sub t u ≤ t - u := by
  unfold Sub minDuration maxDuration
  omega

/-- Two consecutive polls on a path: the reading that makes the later poll due
is more than `pI` after the `lastPoll` recorded after the earlier one. -/
theorem Path.poll_gap {pI pT : Int} {l0 l : Loop} {pre mid post : List Action} {t1 t3 t2 : Int}
    {e1 e2 : Error} {ev : Option Event}
    (h : Path pI pT l0 (pre ++ [.now t1, .call .Poll e1, .send ev, .now t3] ++ mid ++
      [.now t2, .call .Poll e2] ++ post) l)
    (hno : ∀ m e, Action.call m e ∉ mid) : Sub t2 t3 > pI := by
  obtain ⟨l1, h1, _⟩ := Path.split h
  obtain ⟨l2, h2, hB⟩ := Path.split h1
  obtain ⟨l3, h3, hmid⟩ := Path.split h2
  obtain ⟨l4, _, hA⟩ := Path.split h3
  obtain ⟨a1, tr1, hA⟩ := Path.cons_inv hA
  obtain ⟨a2, tr2, hA⟩ := Path.cons_inv hA
  obtain ⟨a3, tr3, hA⟩ := Path.cons_inv hA
  obtain ⟨a4, tr4, hA⟩ := Path.cons_inv hA
  have ha4 := Path.nil_inv hA
  subst ha4
  have hp2 : a2.pc = .L102 ∨ ∃ err, a2.pc = .L97 err := by cases tr2 <;> simp_all [Loop.goto]
  have hp3 : a3.pc = .L108 := by
    rcases hp2 with hp2 | ⟨err, hp2⟩ <;> cases tr3 <;> simp_all [Loop.goto]
  have hp4 : l3.pc = .L110 ∧ l3.lastPoll = t3 := by cases tr4 <;> simp_all [Loop.goto]
  obtain ⟨b1, tb1, hB⟩ := Path.cons_inv hB
  obtain ⟨b2, tb2, hB⟩ := Path.cons_inv hB
  have hb2 := Path.nil_inv hB
  subst hb2
  have hk := hmid.polling_keeps (by simp [hp4.1, PC.polling]) hno
  rw [hp4.2] at hk
  have hb1 : b1.pc = .L96 := by cases tb2 <;> simp_all [Loop.goto]
  have : Sub t2 l2.lastPoll > pI := by
    cases tb1 <;> simp_all [Loop.goto, PC.polling]
  rw [hk.2] at this
  exact this

/-- C8: in every run from a new Routine, take two consecutive calls of `Poll`
with no handler call between them (so both are in one epoch): the earlier one
with its triggering clock reading `t1` and the reading `t3` stored in
`lastPoll` after it, the later one with its triggering reading `t2`.  Then
`time.Since(lastPoll)` at `t2` exceeds `pollInterval`, and if the clock
readings of the run are non-decreasing, `t2` is more than `pollInterval` after
`t3`, hence also after `t1`: the two polls are more than `pollInterval` apart. -/
theorem poll_spacing {W K : Type} (rt : Runtime W) (c : K) (pI pT : Int)
    (h : RoutineHandler W) (w : W) (ops : List Op) (l : Loop)
    (hl : l ∈ (exec rt (Sys.new c pI pT h w) ops).procs)
    (pre mid post : List Action) (t1 t3 t2 : Int) (e1 e2 : Error) (ev : Option Event)
    (ht : l.trace = pre ++ [.now t1, .call .Poll e1, .send ev, .now t3] ++ mid ++
      [.now t2, .call .Poll e2] ++ post)
    (hno : ∀ m e, Action.call m e ∉ mid)
    (hclock : (readings l.trace).Pairwise (· ≤ ·)) :
    Sub t2 t3 > pI ∧ t2 - t3 > pI ∧ t2 - t1 > pI := by
  have hp := reach_path rt c pI pT h w ops l hl
  rw [ht] at hp
  have hgap := hp.poll_gap hno
  rw [ht] at hclock
  simp only [readings_append, readings, List.pairwise_append, List.pairwise_cons,
    List.mem_append, List.mem_cons, List.mem_singleton] at hclock
  have h13 : t1 ≤ t3 := by
    have := hclock.1.1.1.2.1.1
    exact this t3 (Or.inl rfl)
  have h32 : t3 ≤ t2 := hclock.1.2.2 t3 (Or.inl (Or.inr (Or.inr (Or.inl rfl)))) t2 (Or.inl rfl)
  have := Sub_le_of_nonneg h32
  refine ⟨hgap, ?_, ?_⟩ <;> omega

theorem demoPollLoop_mem : demoPollLoop ∈ (exec simClock demo demoPollOps).procs := by decide

/-- C8 at a concrete run with a clock that advances by the time slept: the
second poll of the epoch comes 2 s after the first, more than the 1 s poll
interval. -/
theorem poll_spacing_witness :
    Sub 1700000002000000000 1700000000000000000 > 1000000000 ∧
    (1700000002000000000 : Int) - 1700000000000000000 > 1000000000 ∧
    (1700000002000000000 : Int) - 1700000000000000000 > 1000000000 :=
  poll_spacing simClock () 1000000000 5000000000 okHandler 1700000000000000000 demoPollOps
    demoPollLoop demoPollLoop_mem
    [.load false, .call .Init none, .send (some { Status := 0, Message := "init success" }),
      .now 1700000000000000000, .load false, .now 1700000000000000000]
    [.sleep 2000000000, .load false, .now 1700000002000000000] []
    1700000000000000000 1700000000000000000 1700000002000000000 none none
    (some { Status := 200, Message := "poll success" }) rfl (by simp) (by decide)
/-! ## C9: handler results and events -/

/-- After a handler call the goroutine is at the send of the report of that
call. -/
theorem Trans.after_call {pI pT : Int} {l l1 l2 : Loop} {m : Method} {e : Error} {a : Action}
    (h1 : Trans pI pT l (.call m e) l1) (h2 : Trans pI pT l1 a l2) :
    a = .send (some (report m e)) ∧ quiet l2.pc [] := by
  cases h1 <;> cases h2 <;> simp_all [Loop.goto, report, quiet]

/-- A transition that is not a handler call keeps `quiet`. -/
theorem Trans.quiet_step {pI pT : Int} {l l1 : Loop} {a : Action} {es : List (Option Event)}
    (h : Trans pI pT l a l1) (hq : quiet l.pc es) (hno : ∀ m e, a ≠ .call m e) :
    quiet l1.pc (es ++ events [a]) := by
  cases h <;> simp_all [Loop.goto, quiet, events]

theorem Path.quiet_path {pI pT : Int} {l l2 : Loop} {t : List Action} {es : List (Option Event)}
    (h : Path pI pT l t l2) (hq : quiet l.pc es) (hno : ∀ m e, Action.call m e ∉ t) :
    quiet l2.pc (es ++ events t) := by
  induction h generalizing es with
  | nil => simpa [events] using hq
  | @cons l l1 l2 a t htr _ ih =>
    have h1 := htr.quiet_step hq (fun m e => (List.ne_of_not_mem_cons (hno m e)).symm)
    have h2 := ih h1 (fun m e hm => hno m e (List.mem_cons_of_mem _ hm))
    have : events (a :: t) = events [a] ++ events t := events_append [a] t
    rw [this, ← List.append_assoc]
    exact h2

/-- Between a handler call and the next one exactly the report of the first is
sent, and after it at most the marker "terminated, will clean up". -/
theorem Path.between_calls {pI pT : Int} {l0 l : Loop} {pre mid post : List Action}
    {m m' : Method} {e e' : Error}
    (h : Path pI pT l0 (pre ++ .call m e :: (mid ++ .call m' e' :: post)) l)
    (hno : ∀ m e, Action.call m e ∉ mid) :
    events mid = [some (report m e)] ∨
    events mid = [some (report m e),
      some { Status := 0, Message := "terminated, will clean up" }] := by
  obtain ⟨l1, _, h1⟩ := Path.split h
  obtain ⟨l2, tr, h2⟩ := Path.cons_inv h1
  cases mid with
  | nil =>
    obtain ⟨l3, tr3, _⟩ := Path.cons_inv h2
    exact absurd (tr.after_call tr3).1 (by simp)
  | cons a mid =>
    obtain ⟨l3, tr3, h3⟩ := Path.cons_inv h2
    obtain ⟨rfl, hq⟩ := tr.after_call tr3
    obtain ⟨l4, h4, h5⟩ := Path.split h3
    obtain ⟨l5, tr5, _⟩ := Path.cons_inv h5
    have hq4 := h4.quiet_path hq (fun m e hm => hno m e (List.mem_cons_of_mem _ hm))
    have : events mid = [] ∨
        events mid = [some { Status := 0, Message := "terminated, will clean up" }] := by
      cases tr5 <;> simp_all [quiet]
    rcases this with hm | hm <;> simp [events, hm]

/-- A Status-500 event on a path from the entry is the report of a failed
handler call made just before it. -/
theorem Path.error_event_origin {pI pT : Int} {l : Loop} {pre post : List Action} {ev : Event}
    (h : Path pI pT Loop.entry (pre ++ .send (some ev) :: post) l) (h500 : ev.Status = 500) :
    ∃ pre1 m err, pre = pre1 ++ [.call m (some err)] ∧ ev = report m (some err) := by
  obtain ⟨l1, h1, h2⟩ := Path.split h
  obtain ⟨l2, tr, _⟩ := Path.cons_inv h2
  have hsrc : ∃ err, (l1.pc = .L78 err ∧ ev = report .Init (some err)) ∨
      (l1.pc = .L97 err ∧ ev = report .Poll (some err)) ∨
      (l1.pc = .L118 err ∧ ev = report .Cleanup (some err)) := by
    generalize ha : Action.send (some ev) = a at tr
    cases tr <;> simp at ha <;> subst ha <;> simp_all [report]
  obtain ⟨err, hsrc⟩ := hsrc
  have hne : l1.pc ≠ .L76 := by rcases hsrc with h | h | h <;> simp [h.1]
  obtain ⟨t1, a1, l0, rfl, _, tr1⟩ := h1.last_of_entry hne
  rcases hsrc with ⟨hp, he⟩ | ⟨hp, he⟩ | ⟨hp, he⟩
  · refine ⟨t1, .Init, err, ?_, he⟩
    cases tr1 <;> simp_all [Loop.goto]
  · refine ⟨t1, .Poll, err, ?_, he⟩
    cases tr1 <;> simp_all [Loop.goto]
  · refine ⟨t1, .Cleanup, err, ?_, he⟩
    cases tr1 <;> simp_all [Loop.goto]

/-- The sentinel on a path from the entry comes right after a read of
`terminated` that returned true. -/
theorem Path.sentinel_origin {pI pT : Int} {l : Loop} {pre post : List Action}
    (h : Path pI pT Loop.entry (pre ++ .send none :: post) l) :
    ∃ pre1, pre = pre1 ++ [.load true] := by
  obtain ⟨l1, h1, h2⟩ := Path.split h
  obtain ⟨l2, tr, _⟩ := Path.cons_inv h2
  have hpc : l1.pc = .L73 := by
    generalize ha : Action.send none = a at tr
    cases tr <;> simp_all
  obtain ⟨t1, a1, l0, rfl, _, tr1⟩ := h1.last_of_entry (by simp [hpc])
  refine ⟨t1, ?_⟩
  cases tr1 <;> simp_all [Loop.goto]

theorem failPollLoop_mem : failPollLoop ∈ (exec simClock demoFailPoll failPollOps).procs := by
  decide

/-- C9, refuted as stated: a run in which a failed `Poll` is followed, before
the next handler call (`Cleanup`), by two events: its "poll error" report and
the marker "terminated, will clean up". -/
theorem two_events_between_calls :
    failPollLoop ∈ (exec simClock demoFailPoll failPollOps).procs ∧
    failPollLoop.trace =
      [.load false, .call .Init none, .send (some { Status := 0, Message := "init success" }),
        .now 1700000000000000000, .load false, .now 1700000000000000000,
        .now 1700000000000000000] ++
      .call .Poll (some "down") ::
        ([.send (some { Status := 500, Message := "poll error: down" }),
          .now 1700000000000000000, .sleep 2000000000, .load true,
          .send (some { Status := 0, Message := "terminated, will clean up" })] ++
        .call .Cleanup none :: []) ∧
    events [.send (some { Status := 500, Message := "poll error: down" }),
        .now 1700000000000000000, .sleep 2000000000, .load true,
        .send (some { Status := 0, Message := "terminated, will clean up" })] =
      [some { Status := 500, Message := "poll error: down" },
       some { Status := 0, Message := "terminated, will clean up" }] ∧
    ¬ (∀ (ops : List Op) (l : Loop), l ∈ (exec simClock demoFailPoll ops).procs →
        ∀ (pre mid post : List Action) (m m' : Method) (e e' : Error),
          l.trace = pre ++ .call m e :: (mid ++ .call m' e' :: post) →
          (∀ m e, Action.call m e ∉ mid) → (events mid).length = 1) := by
  refine ⟨failPollLoop_mem, rfl, rfl, ?_⟩
  intro hall
  have := hall failPollOps failPollLoop failPollLoop_mem
    [.load false, .call .Init none, .send (some { Status := 0, Message := "init success" }),
      .now 1700000000000000000, .load false, .now 1700000000000000000,
      .now 1700000000000000000]
    [.send (some { Status := 500, Message := "poll error: down" }),
      .now 1700000000000000000, .sleep 2000000000, .load true,
      .send (some { Status := 0, Message := "terminated, will clean up" })]
    [] .Poll .Cleanup (some "down") none rfl (by simp)
  simp [events] at this

/-- C9, amended: in every run from a new Routine, (1) each call of `Init`,
`Poll` or `Cleanup` is immediately followed by the send of one event, its
report: Status 500 with "init error: ", "poll error: " or "cleanup error: "
plus the error text when it failed, and 0 "init success", 200 "poll success"
or 0 "cleanup success" when it succeeded; (2) between a call and the next
handler call that report is the only event, except that the Status-0 marker
"terminated, will clean up" may follow it; (3) every Status-500 event is the
report of a failed handler call made just before it; (4) the sentinel is sent
only right after `terminated` was read as true, so no failure stops the loop. -/
theorem handler_results_reported {W K : Type} (rt : Runtime W) (c : K) (pI pT : Int)
    (h : RoutineHandler W) (w : W) (ops : List Op) (l : Loop)
    (hl : l ∈ (exec rt (Sys.new c pI pT h w) ops).procs) :
    (∀ (pre post : List Action) (m : Method) (e : Error), l.trace = pre ++ .call m e :: post →
      post = [] ∨ ∃ rest, post = .send (some (report m e)) :: rest) ∧
    (∀ (pre mid post : List Action) (m m' : Method) (e e' : Error),
      l.trace = pre ++ .call m e :: (mid ++ .call m' e' :: post) →
      (∀ m e, Action.call m e ∉ mid) →
      events mid = [some (report m e)] ∨
      events mid = [some (report m e),
        some { Status := 0, Message := "terminated, will clean up" }]) ∧
    (∀ (pre post : List Action) (ev : Event), l.trace = pre ++ .send (some ev) :: post →
      ev.Status = 500 →
      ∃ pre1 m err, pre = pre1 ++ [.call m (some err)] ∧ ev = report m (some err)) ∧
    (∀ (pre post : List Action), l.trace = pre ++ .send none :: post →
      ∃ pre1, pre = pre1 ++ [.load true]) ∧
    (∀ err, report .Init (some err) = { Status := 500, Message := "init error: " ++ err } ∧
      report .Poll (some err) = { Status := 500, Message := "poll error: " ++ err } ∧
      report .Cleanup (some err) = { Status := 500, Message := "cleanup error: " ++ err }) ∧
    report .Init none = { Status := 0, Message := "init success" } ∧
    report .Poll none = { Status := 200, Message := "poll success" } ∧
    report .Cleanup none = { Status := 0, Message := "cleanup success" } := by
  have hp := reach_path rt c pI pT h w ops l hl
  refine ⟨?_, ?_, ?_, ?_, fun err => ⟨rfl, rfl, rfl⟩, rfl, rfl, rfl⟩
  · intro pre post m e ht
    rw [ht] at hp
    obtain ⟨l1, _, h1⟩ := Path.split hp
    obtain ⟨l2, tr, h2⟩ := Path.cons_inv h1
    cases post with
    | nil => exact Or.inl rfl
    | cons a post =>
      obtain ⟨l3, tr3, _⟩ := Path.cons_inv h2
      exact Or.inr ⟨post, by rw [(tr.after_call tr3).1]⟩
  · intro pre mid post m m' e e' ht hno
    rw [ht] at hp
    exact hp.between_calls hno
  · intro pre post ev ht h500
    rw [ht] at hp
    exact hp.error_event_origin h500
  · intro pre post ht
    rw [ht] at hp
    exact hp.sentinel_origin

/-- C9 amended, at the concrete run `failPollOps`: between the failed `Poll` and
`Cleanup` the events are the "poll error" report and the marker. -/
theorem handler_results_reported_witness :
    events [.send (some { Status := 500, Message := "poll error: down" }),
        .now 1700000000000000000, .sleep 2000000000, .load true,
        .send (some { Status := 0, Message := "terminated, will clean up" })] =
      [some (report .Poll (some "down"))] ∨
    events [.send (some { Status := 500, Message := "poll error: down" }),
        .now 1700000000000000000, .sleep 2000000000, .load true,
        .send (some { Status := 0, Message := "terminated, will clean up" })] =
      [some (report .Poll (some "down")),
       some { Status := 0, Message := "terminated, will clean up" }] :=
  (handler_results_reported simClock () 1000000000 5000000000 failPoll 1700000000000000000
    failPollOps failPollLoop failPollLoop_mem).2.1
    [.load false, .call .Init none, .send (some { Status := 0, Message := "init success" }),
      .now 1700000000000000000, .load false, .now 1700000000000000000,
      .now 1700000000000000000]
    [.send (some { Status := 500, Message := "poll error: down" }),
      .now 1700000000000000000, .sleep 2000000000, .load true,
      .send (some { Status := 0, Message := "terminated, will clean up" })]
    [] .Poll .Cleanup (some "down") none rfl (by simp)
/-! ## C10: Poll results do not alter the schedule -/

/-- One transition each of two alike goroutines that see the same flag, clock
and `Init` and `Cleanup` results: the actions and the states after are alike
again. -/
theorem Trans.alike_step {pI pT : Int} {l1 l1' l2 l2' : Loop} {a1 a2 : Action}
    {t1 t2 : List Action} (h1 : Trans pI pT l1 a1 l1') (h2 : Trans pI pT l2 a2 l2')
    (hal : l1.alike l2) (hr : readings (a1 :: t1) = readings (a2 :: t2))
    (hf : loads (a1 :: t1) = loads (a2 :: t2))
    (hc : initCleanupCalls (a1 :: t1) = initCleanupCalls (a2 :: t2)) :
    a1.alike a2 ∧ l1'.alike l2' ∧ readings t1 = readings t2 ∧ loads t1 = loads t2 ∧
      initCleanupCalls t1 = initCleanupCalls t2 := by
  obtain ⟨hlp, hps, hpc⟩ := hal
  cases h1 <;> cases h2 <;>
    simp_all [Loop.goto, Loop.alike, Action.alike, PC.pollReport, readings, loads,
      initCleanupCalls]
  all_goals first
    | linarith
    | exact ⟨⟨some _, rfl⟩, ⟨none, rfl⟩⟩
    | exact ⟨⟨none, rfl⟩, ⟨some _, rfl⟩⟩
    | exact Or.inr ⟨⟨some _, rfl⟩, ⟨some _, rfl⟩⟩

theorem Path.alike_path {pI pT : Int} {l1 l1' l2 l2' : Loop} {t1 t2 : List Action}
    (h1 : Path pI pT l1 t1 l1') (h2 : Path pI pT l2 t2 l2') (hal : l1.alike l2)
    (hlen : t1.length = t2.length) (hr : readings t1 = readings t2)
    (hf : loads t1 = loads t2) (hc : initCleanupCalls t1 = initCleanupCalls t2) :
    List.Forall₂ Action.alike t1 t2 ∧ l1'.alike l2' := by
  induction h1 generalizing l2 t2 with
  | nil =>
    have : t2 = [] := List.length_eq_zero.1 hlen.symm
    subst this
    rw [Path.nil_inv h2]
    exact ⟨List.Forall₂.nil, hal⟩
  | cons htr _ ih =>
    cases t2 with
    | nil => simp at hlen
    | cons a2 t2 =>
      obtain ⟨l2m, htr2, h2'⟩ := Path.cons_inv h2
      obtain ⟨ha, hl, hr', hf', hc'⟩ := htr.alike_step htr2 hal hr hf hc
      obtain ⟨hfa, hfin⟩ := ih h2' hl (by simpa using hlen) hr' hf' hc'
      exact ⟨List.Forall₂.cons ha hfa, hfin⟩

/-- Alike traces have the same method calls and sleeps, and alike events. -/
theorem alike_projections {t1 t2 : List Action} (h : List.Forall₂ Action.alike t1 t2) :
    methods t1 = methods t2 ∧ sleeps t1 = sleeps t2 ∧
      List.Forall₂ Event.alike (events t1) (events t2) := by
  induction h with
  | nil => exact ⟨rfl, rfl, List.Forall₂.nil⟩
  | @cons a b t1 t2 hab _ ih =>
    obtain ⟨hm, hs, he⟩ := ih
    rcases hab with rfl | ⟨e1, e2, rfl, rfl⟩ | ⟨e1, e2, rfl, rfl⟩
    · cases a <;> simp [methods, sleeps, events, hm, hs, he]
      exact Or.inl rfl
    · simp [methods, sleeps, events, hm, hs, he]
    · simp only [methods, sleeps, events, hm, hs, true_and]
      exact List.Forall₂.cons (Or.inr ⟨e1, e2, rfl, rfl⟩) he

/-- C10: take two runs from new Routines with the same `pollInterval` and
`podTTL`, and in each a goroutine, such that both goroutines performed the same
number of actions, read the same clock values and the same flag values, and
got the same results from `Init` and `Cleanup`; the results of `Poll` are
arbitrary.  Then the two traces agree action by action up to the result of
each `Poll` call and the Status and Message of the event reporting it: the
same methods are called in the same order, the sleeps are the same, the events
differ only in the reports of `Poll` calls, and `lastPoll`, `podStart` and the
program point (up to the pending `Poll` report) are the same. -/
theorem poll_results_keep_schedule {W1 K1 W2 K2 : Type} (rt1 : Runtime W1) (rt2 : Runtime W2)
    (c1 : K1) (c2 : K2) (pI pT : Int) (h1 : RoutineHandler W1) (h2 : RoutineHandler W2)
    (w1 : W1) (w2 : W2) (ops1 ops2 : List Op) (l1 l2 : Loop)
    (hl1 : l1 ∈ (exec rt1 (Sys.new c1 pI pT h1 w1) ops1).procs)
    (hl2 : l2 ∈ (exec rt2 (Sys.new c2 pI pT h2 w2) ops2).procs)
    (hlen : l1.trace.length = l2.trace.length)
    (hclock : readings l1.trace = readings l2.trace)
    (hflag : loads l1.trace = loads l2.trace)
    (hcalls : initCleanupCalls l1.trace = initCleanupCalls l2.trace) :
    List.Forall₂ Action.alike l1.trace l2.trace ∧
    methods l1.trace = methods l2.trace ∧ sleeps l1.trace = sleeps l2.trace ∧
    List.Forall₂ Event.alike (events l1.trace) (events l2.trace) ∧
    l1.lastPoll = l2.lastPoll ∧ l1.podStart = l2.podStart ∧
    (l1.pc = l2.pc ∨ (l1.pc.pollReport ∧ l2.pc.pollReport)) := by
  have hp1 := reach_path rt1 c1 pI pT h1 w1 ops1 l1 hl1
  have hp2 := reach_path rt2 c2 pI pT h2 w2 ops2 l2 hl2
  obtain ⟨hfa, hal⟩ := hp1.alike_path hp2 ⟨rfl, rfl, Or.inl rfl⟩ hlen hclock hflag hcalls
  obtain ⟨hm, hs, he⟩ := alike_projections hfa
  exact ⟨hfa, hm, hs, he, hal.1, hal.2.1, hal.2.2⟩

/-- C10 at two concrete runs that differ only in the handler: `Poll` succeeds
in one and fails in the other. -/
theorem poll_results_keep_schedule_witness :
    List.Forall₂ Action.alike pollOkLoop.trace pollErrLoop.trace ∧
    methods pollOkLoop.trace = methods pollErrLoop.trace ∧
    sleeps pollOkLoop.trace = sleeps pollErrLoop.trace ∧
    List.Forall₂ Event.alike (events pollOkLoop.trace) (events pollErrLoop.trace) ∧
    pollOkLoop.lastPoll = pollErrLoop.lastPoll ∧ pollOkLoop.podStart = pollErrLoop.podStart ∧
    (pollOkLoop.pc = pollErrLoop.pc ∨
      (pollOkLoop.pc.pollReport ∧ pollErrLoop.pc.pollReport)) :=
  poll_results_keep_schedule simClock simClock () () 1000000000 5000000000 okHandler failPoll
    1700000000000000000 1700000000000000000 firstPollOps firstPollOps pollOkLoop pollErrLoop
    (by decide) (by decide) rfl rfl rfl rfl
/-! ## C11: retrying Init -/

/-- What a path contains after a failed call of `Init`. -/
theorem Path.after_failed_init {pI pT : Int} {l0 l : Loop} {pre post : List Action}
    {err : String} (h : Path pI pT l0 (pre ++ .call .Init (some err) :: post) l) :
    post = [] ∨
    ∃ p1, post = .send (some { Status := 500, Message := "init error: " ++ err }) :: p1 ∧
      (p1 = [] ∨ ∃ p2, p1 = .sleep pulseInterval :: p2 ∧
        (p2 = [] ∨ (p2 = [.load true] ∧ l.pc = .L73) ∨
          (p2 = [.load true, .send none] ∧ l.pc = .done) ∨
          ∃ p3, p2 = .load false :: p3 ∧ (p3 = [] ∨ ∃ e rest, p3 = .call .Init e :: rest))) := by
  obtain ⟨l1, _, h1⟩ := Path.split h
  obtain ⟨l2, tr, h2⟩ := Path.cons_inv h1
  have hl2 : l2.pc = .L78 err := by cases tr; simp_all [Loop.goto]
  cases post with
  | nil => exact Or.inl rfl
  | cons a1 post =>
    obtain ⟨l3, tr3, h3⟩ := Path.cons_inv h2
    have hl3 : a1 = .send (some { Status := 500, Message := "init error: " ++ err }) ∧
        l3.pc = .L82 := by cases tr3 <;> simp_all [Loop.goto]
    obtain ⟨rfl, hl3⟩ := hl3
    refine Or.inr ⟨post, rfl, ?_⟩
    cases post with
    | nil => exact Or.inl rfl
    | cons a2 post =>
      obtain ⟨l4, tr4, h4⟩ := Path.cons_inv h3
      have hl4 : a2 = .sleep pulseInterval ∧ l4.pc = .L76 := by
        cases tr4 <;> simp_all [Loop.goto]
      obtain ⟨rfl, hl4⟩ := hl4
      refine Or.inr ⟨post, rfl, ?_⟩
      cases post with
      | nil => exact Or.inl rfl
      | cons a3 post =>
        obtain ⟨l5, tr5, h5⟩ := Path.cons_inv h4
        have hl5 : (a3 = .load true ∧ l5.pc = .L73) ∨ (a3 = .load false ∧ l5.pc = .L77) := by
          cases tr5 <;> simp_all [Loop.goto]
        rcases hl5 with ⟨rfl, hl5⟩ | ⟨rfl, hl5⟩
        · cases post with
          | nil => rw [Path.nil_inv h5]; exact Or.inr (Or.inl ⟨rfl, hl5⟩)
          | cons a4 post =>
            obtain ⟨l6, tr6, h6⟩ := Path.cons_inv h5
            have hl6 : a4 = .send none ∧ l6.pc = .done := by cases tr6 <;> simp_all [Loop.goto]
            obtain ⟨rfl, hl6⟩ := hl6
            obtain ⟨rfl, rfl⟩ := h6.of_done hl6
            exact Or.inr (Or.inr (Or.inl ⟨rfl, hl6⟩))
        · refine Or.inr (Or.inr (Or.inr ⟨post, rfl, ?_⟩))
          cases post with
          | nil => exact Or.inl rfl
          | cons a4 post =>
            obtain ⟨l6, tr6, _⟩ := Path.cons_inv h5
            have hl6 : ∃ e, a4 = .call .Init e := by cases tr6 <;> simp_all [Loop.goto]
            obtain ⟨e, rfl⟩ := hl6
            exact Or.inr ⟨e, post, rfl⟩

theorem failInitLoop_mem : failInitLoop ∈ (exec simClock demoFailInit failInitOps).procs := by
  decide

/-- C11, refuted as stated: `Init` fails, `SignalTerminate` is called before the
loop test is reached again, and the goroutine returns: the failed `Init` is
followed by its report, the sleep, a read of `terminated` as true and the
sentinel, and `Init` is not called again. -/
theorem failed_init_not_retried :
    failInitLoop ∈ (exec simClock demoFailInit failInitOps).procs ∧
    failInitLoop.pc = .done ∧
    failInitLoop.trace = [.load false] ++ .call .Init (some "boom") ::
      [.send (some { Status := 500, Message := "init error: boom" }),
       .sleep 2000000000, .load true, .send none] ∧
    calls failInitLoop.trace = [(.Init, some "boom")] ∧
    ¬ (∀ (ops : List Op) (l : Loop), l ∈ (exec simClock demoFailInit ops).procs →
        ∀ (pre post : List Action) (err : String),
          l.trace = pre ++ .call .Init (some err) :: post → l.pc = .done →
          ∃ e, Action.call .Init e ∈ post) := by
  refine ⟨failInitLoop_mem, rfl, rfl, rfl, ?_⟩
  intro hall
  obtain ⟨e, he⟩ := hall failInitOps failInitLoop failInitLoop_mem [.load false]
    [.send (some { Status := 500, Message := "init error: boom" }),
     .sleep 2000000000, .load true, .send none] "boom" rfl rfl
  simp at he

/-- C11, amended: in every run from a new Routine, after a failed `Init` the
goroutine sends the Status-500 "init error: " event, sleeps one
`pulseInterval` and reads `terminated` at the loop test.  If it reads false,
the next action is a call of `Init`, so a handler call that follows a failed
`Init` is always `Init`, after any number of consecutive failures.  If it
reads true, the only further action is the send of the sentinel and the
goroutine has returned: `Init` is not retried. -/
theorem failed_init_then_loop_test {W K : Type} (rt : Runtime W) (c : K) (pI pT : Int)
    (h : RoutineHandler W) (w : W) (ops : List Op) (l : Loop)
    (hl : l ∈ (exec rt (Sys.new c pI pT h w) ops).procs) (pre post : List Action)
    (err : String) (ht : l.trace = pre ++ .call .Init (some err) :: post) :
    post = [] ∨
    ∃ p1, post = .send (some { Status := 500, Message := "init error: " ++ err }) :: p1 ∧
      (p1 = [] ∨ ∃ p2, p1 = .sleep pulseInterval :: p2 ∧
        (p2 = [] ∨ (p2 = [.load true] ∧ l.pc = .L73) ∨
          (p2 = [.load true, .send none] ∧ l.pc = .done) ∨
          ∃ p3, p2 = .load false :: p3 ∧ (p3 = [] ∨ ∃ e rest, p3 = .call .Init e :: rest))) := by
  have hp := reach_path rt c pI pT h w ops l hl
  rw [ht] at hp
  exact hp.after_failed_init

/-- C11 amended, at the concrete run `failInitOps`. -/
theorem failed_init_then_loop_test_witness :
    [Action.send (some { Status := 500, Message := "init error: boom" }),
       .sleep 2000000000, .load true, .send none] = [] ∨
    ∃ p1, [Action.send (some { Status := 500, Message := "init error: boom" }),
        .sleep 2000000000, .load true, .send none] =
        .send (some { Status := 500, Message := "init error: " ++ "boom" }) :: p1 ∧
      (p1 = [] ∨ ∃ p2, p1 = .sleep pulseInterval :: p2 ∧
        (p2 = [] ∨ (p2 = [.load true] ∧ failInitLoop.pc = .L73) ∨
          (p2 = [.load true, .send none] ∧ failInitLoop.pc = .done) ∨
          ∃ p3, p2 = .load false :: p3 ∧ (p3 = [] ∨ ∃ e rest, p3 = .call .Init e :: rest))) :=
  failed_init_then_loop_test simClock () 1000000000 5000000000 failInit 1700000000000000000
    failInitOps failInitLoop failInitLoop_mem [.load false]
    [.send (some { Status := 500, Message := "init error: boom" }),
     .sleep 2000000000, .load true, .send none] "boom" rfl
/-! ## C12 and C13: the two flags -/

/-- C12: `SignalTerminate` sets `terminated` and leaves `started`,
`pollInterval`, `podTTL`, `handler` and `client` as they are; calling it twice
gives the same struct as calling it once, and on a struct whose flag is already
set (as it is once the loop has stopped) it changes nothing.  As an operation
on the system it touches neither the goroutines nor the world, whatever state
they are in. -/
theorem SignalTerminate_idempotent {W K : Type} (rt : Runtime W) (r : Routine W K)
    (s : Sys W K) :
    (SignalTerminate r).terminated = true ∧ (SignalTerminate r).started = r.started ∧
    (SignalTerminate r).pollInterval = r.pollInterval ∧ (SignalTerminate r).podTTL = r.podTTL ∧
    (SignalTerminate r).handler = r.handler ∧ (SignalTerminate r).client = r.client ∧
    SignalTerminate (SignalTerminate r) = SignalTerminate r ∧
    (r.terminated = true → SignalTerminate r = r) ∧
    (s.apply rt .SignalTerminate).r = SignalTerminate s.r ∧
    (s.apply rt .SignalTerminate).procs = s.procs ∧ (s.apply rt .SignalTerminate).w = s.w ∧
    exec rt s [.SignalTerminate, .SignalTerminate] = exec rt s [.SignalTerminate] := by
  refine ⟨rfl, rfl, rfl, rfl, rfl, rfl, rfl, ?_, rfl, rfl, rfl, rfl⟩
  intro ht
  cases r
  simp_all [SignalTerminate]

/-- C12 at a concrete system: a second `SignalTerminate` after the loop has
stopped changes nothing. -/
theorem SignalTerminate_idempotent_witness :
    exec simClock (exec simClock demo demoOps) [.SignalTerminate, .SignalTerminate] =
      exec simClock (exec simClock demo demoOps) [.SignalTerminate] :=
  (SignalTerminate_idempotent simClock demo.r (exec simClock demo demoOps)).2.2.2.2.2.2.2.2.2.2.2

/-- Once set, `terminated` stays set. -/
theorem apply_terminated {W K : Type} (rt : Runtime W) (s : Sys W K) (o : Op)
    (h : s.r.terminated = true) : (s.apply rt o).r.terminated = true := by
  cases o with
  | Start => by_cases hs : s.r.started = true <;> simp [Sys.apply, Start, hs, h]
  | SignalTerminate => rfl
  | step i => cases hi : s.procs[i]? <;> simp [Sys.apply, hi, h]

theorem exec_terminated {W K : Type} (rt : Runtime W) (s : Sys W K) (ops : List Op)
    (h : s.r.terminated = true) : (exec rt s ops).r.terminated = true := by
  induction ops generalizing s with
  | nil => exact h
  | cons o ops ih => exact ih _ (apply_terminated rt s o h)

/-- A statement of a goroutine leaves the struct as it is. -/
theorem apply_step_r {W K : Type} (rt : Runtime W) (s : Sys W K) (i : Nat) :
    (s.apply rt (.step i)).r = s.r := by
  cases hi : s.procs[i]? <;> simp [Sys.apply, hi]

/-- C13: a new Routine has both flags false.  Over any schedule of `Start`
calls, `SignalTerminate` calls and goroutine statements, from any state: once
`started` is true it is true after every further schedule, and once
`terminated` is true it is true after every further schedule.  A statement of
the loop never changes the struct, so it writes neither flag. -/
theorem flags_monotonic {W K : Type} (rt : Runtime W) (s : Sys W K) (c : K) (pI pT : Int)
    (h : RoutineHandler W) (w : W) (ops₁ ops₂ : List Op) (i : Nat) :
    ((Sys.new c pI pT h w).r.started = false ∧ (Sys.new c pI pT h w).r.terminated = false) ∧
    ((exec rt s ops₁).r.started = true → (exec rt s (ops₁ ++ ops₂)).r.started = true) ∧
    ((exec rt s ops₁).r.terminated = true →
      (exec rt s (ops₁ ++ ops₂)).r.terminated = true) ∧
    (s.apply rt (.step i)).r = s.r := by
  refine ⟨⟨rfl, rfl⟩, ?_, ?_, apply_step_r rt s i⟩
  · intro h1
    rw [exec_append]
    exact (exec_started rt _ ops₂ h1).1
  · intro h1
    rw [exec_append]
    exact exec_terminated rt _ ops₂ h1

/-- C13 at a concrete run: both flags, set by `Start` and `SignalTerminate`,
are still set after the loop has run to its return and both methods have been
called again. -/
theorem flags_monotonic_witness :
    (exec simClock demo (demoOps ++ [.Start, .step 0, .SignalTerminate, .step 0])).r.started =
      true ∧
    (exec simClock demo
      (demoOps ++ [.Start, .step 0, .SignalTerminate, .step 0])).r.terminated = true :=
  ⟨(flags_monotonic simClock demo () 0 0 okHandler 0 demoOps
      [.Start, .step 0, .SignalTerminate, .step 0] 0).2.1 (by decide),
   (flags_monotonic simClock demo () 0 0 okHandler 0 demoOps
      [.Start, .step 0, .SignalTerminate, .step 0] 0).2.2.1 (by decide)⟩
/-! ## C14: a stalled clean-up -/

/-- While `Cleanup` fails, a statement of a goroutine in the clean-up phase
keeps it in the clean-up phase. -/
theorem step_stalled {W K : Type} (rt : Runtime W) (r : Routine W K) (w : W) (l : Loop)
    (base t : List Action) (hfail : ∀ w, (r.handler.Cleanup w).1 ≠ none)
    (ht : l.trace = base ++ t) (hs : stalled l.pc t) :
    ∃ t1, (step rt r w l).1.trace = base ++ t1 ∧ stalled (step rt r w l).1.pc t1 := by
  rcases step_obs rt r w l with ⟨hd, _⟩ | ⟨a, htr, ho⟩
  · rw [hd] at hs; exact absurd hs (by simp [stalled])
  · have hf := hfail w
    refine ⟨t ++ [a], by rw [htr.trace_snoc, ht, List.append_assoc], ?_⟩
    generalize (step rt r w l).1 = l1 at htr
    cases htr
    case sendTerm h =>
      rw [h] at hs
      simp only [stalled] at hs
      subst hs
      exact ⟨[], rfl⟩
    case cleanupErr e h =>
      rw [h] at hs
      obtain ⟨errs, rfl⟩ := hs
      exact ⟨errs, by simp⟩
    case cleanupOk h => exact absurd ho.symm hf
    case sendCleanupErr e h =>
      rw [h] at hs
      obtain ⟨errs, rfl⟩ := hs
      exact ⟨errs, e, by simp⟩
    case sleepCleanup h =>
      rw [h] at hs
      obtain ⟨errs, e, rfl⟩ := hs
      exact ⟨errs ++ [e], by simp [cleanupErrorRound]⟩
    all_goals simp_all [stalled]

theorem events_cleanupRounds (errs : List String) :
    events (errs.map cleanupErrorRound).flatten =
      errs.map (fun e => some { Status := 500, Message := "cleanup error: " ++ e }) := by
  induction errs with
  | nil => rfl
  | cons e errs ih => simp [events_append, events, cleanupErrorRound, ih]

theorem calls_cleanupRounds (errs : List String) :
    calls (errs.map cleanupErrorRound).flatten =
      errs.map (fun e => (Method.Cleanup, some e)) := by
  induction errs with
  | nil => rfl
  | cons e errs ih => simp [calls_append, calls, cleanupErrorRound, ih]

/-- What `stalled` says about the program point, the events and the calls. -/
theorem stalled_facts {pc : PC} {t : List Action} (h : stalled pc t) :
    pc ≠ .done ∧ none ∉ events t ∧ (∀ e, Action.call .Init e ∉ t) ∧
    (events t = [] ∨ ∃ errs : List String,
      events t = some { Status := 0, Message := "terminated, will clean up" } ::
        errs.map (fun e => some { Status := 500, Message := "cleanup error: " ++ e })) ∧
    ∃ errs : List String, calls t = errs.map (fun e => (Method.Cleanup, some e)) := by
  have hno : ∀ (errs : List String) (e : Error),
      Action.call .Init e ∉ (errs.map cleanupErrorRound).flatten := by
    intro errs e
    simp [cleanupErrorRound]
  cases pc <;> simp only [stalled] at h
  case L112 => subst h; simp [events, calls]
  case L117 =>
    obtain ⟨errs, rfl⟩ := h
    refine ⟨by simp, ?_, ?_, Or.inr ⟨errs, ?_⟩, errs, ?_⟩
    · simp [events, events_cleanupRounds]
    · intro e; simpa using hno errs e
    · simp [events, events_cleanupRounds]
    · simp [calls, calls_cleanupRounds]
  case L118 e =>
    obtain ⟨errs, rfl⟩ := h
    refine ⟨by simp, ?_, ?_, Or.inr ⟨errs, ?_⟩, errs ++ [e], ?_⟩
    · simp [events, events_append, events_cleanupRounds]
    · intro e; simpa using hno errs e
    · simp [events, events_append, events_cleanupRounds]
    · simp [calls, calls_append, calls_cleanupRounds]
  case L128 =>
    obtain ⟨errs, e, rfl⟩ := h
    refine ⟨by simp, ?_, ?_, Or.inr ⟨errs ++ [e], ?_⟩, errs ++ [e], ?_⟩
    · simp [events, events_append, events_cleanupRounds]
    · intro e; simpa using hno errs e
    · simp [events, events_append, events_cleanupRounds]
    · simp [calls, calls_append, calls_cleanupRounds]

/-- Over any schedule, the first goroutine stays in a stalled clean-up. -/
theorem exec_head_stalled {W K : Type} (rt : Runtime W) (s : Sys W K) (base : List Action)
    (hfail : ∀ w, (s.r.handler.Cleanup w).1 ≠ none)
    (hs : ∃ l1 rest t, s.procs = l1 :: rest ∧ l1.trace = base ++ t ∧ stalled l1.pc t)
    (ops : List Op) :
    ∃ l1 rest t, (exec rt s ops).procs = l1 :: rest ∧ l1.trace = base ++ t ∧
      stalled l1.pc t := by
  induction ops generalizing s with
  | nil => exact hs
  | cons o ops ih =>
    rw [exec_cons]
    have hh : (s.apply rt o).r.handler = s.r.handler := (apply_config rt s o).2.2.1
    refine ih _ (by rw [hh]; exact hfail) ?_
    obtain ⟨l1, rest, t, hp, ht, hst⟩ := hs
    cases o with
    | Start =>
      by_cases hsd : s.r.started = true
      · exact ⟨l1, rest, t, by simp [Sys.apply, Start, hsd, hp], ht, hst⟩
      · exact ⟨l1, rest ++ [Loop.entry], t, by simp [Sys.apply, Start, hsd, hp], ht, hst⟩
    | SignalTerminate => exact ⟨l1, rest, t, hp, ht, hst⟩
    | step i =>
      cases i with
      | zero =>
        obtain ⟨t1, ht1, hst1⟩ := step_stalled rt s.r s.w l1 base t hfail ht hst
        exact ⟨_, rest, t1, by simp [Sys.apply, hp], ht1, hst1⟩
      | succ i =>
        cases hi : rest[i]? with
        | none => exact ⟨l1, rest, t, by simp [Sys.apply, hp, hi], ht, hst⟩
        | some l2 =>
          exact ⟨l1, rest.set i (step rt s.r s.w l2).1, t, by simp [Sys.apply, hp, hi], ht, hst⟩

/-- While `Cleanup` fails, `3 * n + 1` statements from line 112 send the marker
and run `n` complete failed rounds. -/
theorem runLoop_stalled {W K : Type} (rt : Runtime W) (r : Routine W K) (l : Loop) (w : W)
    (hpc : l.pc = .L112) (hfail : ∀ w, (r.handler.Cleanup w).1 ≠ none) (n : Nat) :
    ∃ (errs : List String) (l1 : Loop) (w1 : W), errs.length = n ∧
      runLoop rt r (3 * n + 1) (l, w) = (l1, w1) ∧ l1.pc = .L117 ∧
      l1.trace = l.trace ++
        .send (some { Status := 0, Message := "terminated, will clean up" }) ::
          (errs.map cleanupErrorRound).flatten := by
  induction n with
  | zero =>
    exact ⟨[], l.goto .L117 (.send (some { Status := 0, Message := "terminated, will clean up" })),
      w, rfl, by simp [runLoop, step, hpc], rfl, rfl⟩
  | succ n ih =>
    obtain ⟨errs, l1, w1, hlen, hrun, hpc1, htr⟩ := ih
    have hn : 3 * (n + 1) + 1 = (3 * n + 1) + 1 + 1 + 1 := by ring
    rcases hC : r.handler.Cleanup w1 with ⟨_ | e, w2⟩
    · exact absurd (by rw [hC]) (hfail w1)
    · refine ⟨errs ++ [e],
        { pc := .L117, lastPoll := l1.lastPoll, podStart := l1.podStart,
          trace := l1.trace ++ cleanupErrorRound e },
        rt.Sleep pulseInterval w2, by simp [hlen], ?_, rfl, ?_⟩
      · rw [hn, runLoop_succ, runLoop_succ, runLoop_succ, hrun]
        simp [step, hpc1, hC, Loop.goto, cleanupErrorRound]
      · simp [htr]

/-- C14: let the goroutine be about to send "terminated, will clean up" (line
112) and let every call of `Cleanup` fail.  Then, over every schedule of
`Start` calls, `SignalTerminate` calls and statements, so also with
`terminated` true, the goroutine never returns and never sends the sentinel,
`Init` is never called, and the events sent are the marker followed only
by Status-500 "cleanup error: " events.  And the loop does go on: for every
`n`, after `3 * n + 1` statements exactly `n` such error events have followed
the marker. -/
theorem cleanup_stall {W K : Type} (rt : Runtime W) (r : Routine W K) (l : Loop) (w : W)
    (hpc : l.pc = .L112) (hfail : ∀ w, (r.handler.Cleanup w).1 ≠ none) :
    (∀ (ops : List Op) (l1 : Loop),
      (exec rt { r := r, procs := [l], w := w } ops).procs.head? = some l1 →
      ∃ t, l1.trace = l.trace ++ t ∧ l1.pc ≠ .done ∧ none ∉ events t ∧
        (∀ e, Action.call .Init e ∉ t) ∧
        (events t = [] ∨ ∃ errs : List String,
          events t = some { Status := 0, Message := "terminated, will clean up" } ::
            errs.map (fun e => some { Status := 500, Message := "cleanup error: " ++ e })) ∧
        ∃ errs : List String, calls t = errs.map (fun e => (Method.Cleanup, some e))) ∧
    (∀ n : Nat, ∃ (errs : List String) (l1 : Loop) (w1 : W), errs.length = n ∧
      exec rt { r := r, procs := [l], w := w } (List.replicate (3 * n + 1) (.step 0)) =
        { r := r, procs := [l1], w := w1 } ∧
      l1.pc = .L117 ∧
      events l1.trace = events l.trace ++
        some { Status := 0, Message := "terminated, will clean up" } ::
          errs.map (fun e => some { Status := 500, Message := "cleanup error: " ++ e })) := by
  constructor
  · intro ops l1 hl1
    obtain ⟨l2, rest, t, hp, ht, hst⟩ := exec_head_stalled rt { r := r, procs := [l], w := w }
      l.trace hfail ⟨l, [], [], rfl, by simp, by rw [hpc]; rfl⟩ ops
    rw [hp] at hl1
    simp only [List.head?_cons, Option.some.injEq] at hl1
    subst hl1
    exact ⟨t, ht, stalled_facts hst⟩
  · intro n
    obtain ⟨errs, l1, w1, hlen, hrun, hpc1, htr⟩ := runLoop_stalled rt r l w hpc hfail n
    refine ⟨errs, l1, w1, hlen, ?_, hpc1, ?_⟩
    · rw [exec_steps_single, hrun]
    · rw [htr, events_append]
      simp [events, events_cleanupRounds]

/-- C14 at a concrete handler whose `Cleanup` always fails, with `terminated`
set: seven statements give the marker and two error events. -/
theorem cleanup_stall_witness :
    ∃ (errs : List String) (l1 : Loop) (w1 : Int), errs.length = 2 ∧
      exec simClock
        { r := SignalTerminate (NewRoutine () 1000000000 5000000000 failCleanup),
          procs := [{ pc := .L112, lastPoll := 0, podStart := 0, trace := [] }], w := 0 }
        (List.replicate (3 * 2 + 1) (.step 0)) =
        { r := SignalTerminate (NewRoutine () 1000000000 5000000000 failCleanup),
          procs := [l1], w := w1 } ∧
      l1.pc = .L117 ∧
      events l1.trace = events [] ++
        some { Status := 0, Message := "terminated, will clean up" } ::
          errs.map (fun e => some { Status := 500, Message := "cleanup error: " ++ e }) :=
  (cleanup_stall simClock (SignalTerminate (NewRoutine () 1000000000 5000000000 failCleanup))
    { pc := .L112, lastPoll := 0, podStart := 0, trace := [] } 0 rfl
    (fun _ => Option.some_ne_none "stuck")).2 2
/-! ## C18: the handler call protocol -/

theorem isProtocol_nil : isProtocol [] :=
  ⟨[], [], by simp [failedInits], by simp, rfl⟩

theorem isProtocol_failedInit {cs : List (Method × Error)} (h : isProtocol cs) (e : String) :
    isProtocol (cs ++ [(Method.Init, some e)]) := by
  obtain ⟨fi, eps, hfi, heps, rfl⟩ := h
  rcases List.eq_nil_or_concat eps with rfl | ⟨eps1, ep, rfl⟩
  · refine ⟨fi ++ [(Method.Init, some e)], [], ?_, by simp, by simp⟩
    intro c hc
    rcases List.mem_append.1 hc with hc | hc
    · exact hfi c hc
    · exact ⟨e, by simpa using hc⟩
  · rw [List.concat_eq_append] at heps ⊢
    obtain ⟨ps, fc, fi2, hps, hfc, hfi2, rfl⟩ := heps ep (by simp)
    refine ⟨fi, eps1 ++ [(Method.Init, none) ::
      (ps ++ fc ++ (Method.Cleanup, none) :: (fi2 ++ [(Method.Init, some e)]))], hfi, ?_, by simp⟩
    intro ep1 hep1
    rcases List.mem_append.1 hep1 with hep1 | hep1
    · exact heps ep1 (List.mem_append_left _ hep1)
    · rw [List.mem_singleton] at hep1
      subst hep1
      refine ⟨ps, fc, fi2 ++ [(Method.Init, some e)], hps, hfc, ?_, rfl⟩
      intro c hc
      rcases List.mem_append.1 hc with hc | hc
      · exact hfi2 c hc
      · exact ⟨e, by simpa using hc⟩

theorem openPoll_of_protocol {cs : List (Method × Error)} (h : isProtocol cs) :
    openPoll (cs ++ [(Method.Init, none)]) :=
  ⟨cs, [], h, by simp [pollCalls], rfl⟩

theorem openPoll_poll {cs : List (Method × Error)} (h : openPoll cs) (e : Error) :
    openPoll (cs ++ [(Method.Poll, e)]) := by
  obtain ⟨p, ps, hp, hps, rfl⟩ := h
  refine ⟨p, ps ++ [(Method.Poll, e)], hp, ?_, by simp⟩
  intro c hc
  rcases List.mem_append.1 hc with hc | hc
  · exact hps c hc
  · exact ⟨e, by simpa using hc⟩

theorem openClean_of_openPoll {cs : List (Method × Error)} (h : openPoll cs) : openClean cs := by
  obtain ⟨p, ps, hp, hps, rfl⟩ := h
  exact ⟨p, ps, [], hp, hps, by simp [failedCleanups], by simp⟩

theorem openClean_failed {cs : List (Method × Error)} (h : openClean cs) (e : String) :
    openClean (cs ++ [(Method.Cleanup, some e)]) := by
  obtain ⟨p, ps, fc, hp, hps, hfc, rfl⟩ := h
  refine ⟨p, ps, fc ++ [(Method.Cleanup, some e)], hp, hps, ?_, by simp⟩
  intro c hc
  rcases List.mem_append.1 hc with hc | hc
  · exact hfc c hc
  · exact ⟨e, by simpa using hc⟩

theorem isProtocol_of_openClean {cs : List (Method × Error)} (h : openClean cs) :
    isProtocol (cs ++ [(Method.Cleanup, none)]) := by
  obtain ⟨p, ps, fc, ⟨fi, eps, hfi, heps, rfl⟩, hps, hfc, rfl⟩ := h
  refine ⟨fi, eps ++ [(Method.Init, none) :: (ps ++ fc ++ (Method.Cleanup, none) :: [])],
    hfi, ?_, by simp⟩
  intro ep hep
  rcases List.mem_append.1 hep with hep | hep
  · exact heps ep hep
  · rw [List.mem_singleton] at hep
    subst hep
    exact ⟨ps, fc, [], hps, hfc, by simp [failedInits], rfl⟩

/-- The calls made on a path from the entry stand on the protocol. -/
theorem Path.on_protocol {pI pT : Int} {l : Loop} {t : List Action}
    (h : Path pI pT Loop.entry t l) : onProtocol l.pc (calls t) := by
  induction t using List.reverseRecOn generalizing l with
  | nil => rw [Path.nil_inv h]; exact isProtocol_nil
  | append_singleton t a ih =>
    obtain ⟨l1, h1, htr⟩ := Path.snoc_inv h
    have h2 := ih h1
    rw [calls_append]
    cases htr
    case initErr e hpc =>
      rw [hpc] at h2; exact isProtocol_failedInit h2 e
    case initOk hpc =>
      rw [hpc] at h2; exact openPoll_of_protocol h2
    case pollErr e hpc =>
      rw [hpc] at h2; exact openPoll_poll h2 _
    case pollOk hpc =>
      rw [hpc] at h2; exact openPoll_poll h2 _
    case cleanupErr e hpc =>
      rw [hpc] at h2; exact openClean_failed h2 e
    case cleanupOk hpc =>
      rw [hpc] at h2; exact isProtocol_of_openClean h2
    case sendTerm hpc =>
      rw [hpc] at h2
      simpa [calls, Loop.goto, onProtocol] using openClean_of_openPoll h2
    all_goals simp_all [calls, Loop.goto, onProtocol]

/-- C18: in every run from a new Routine the handler calls made so far are a
prefix of a protocol sequence: failed `Init`s, followed by any number of
epochs, each made of a successful `Init`, then `Poll`s, then failed `Cleanup`s,
then a successful `Cleanup`, then failed `Init`s.  At most the successful
`Cleanup` of the current epoch is still missing. -/
theorem call_protocol {W K : Type} (rt : Runtime W) (c : K) (pI pT : Int)
    (h : RoutineHandler W) (w : W) (ops : List Op) (l : Loop)
    (hl : l ∈ (exec rt (Sys.new c pI pT h w) ops).procs) :
    ∃ ext, isProtocol (calls l.trace ++ ext) ∧ (ext = [] ∨ ext = [(Method.Cleanup, none)]) := by
  have hp := (reach_path rt c pI pT h w ops l hl).on_protocol
  cases hpc : l.pc <;> rw [hpc] at hp <;> simp only [onProtocol] at hp
  case L76 => exact ⟨[], by simpa using hp, Or.inl rfl⟩
  case L77 => exact ⟨[], by simpa using hp, Or.inl rfl⟩
  case L78 => exact ⟨[], by simpa using hp, Or.inl rfl⟩
  case L82 => exact ⟨[], by simpa using hp, Or.inl rfl⟩
  case L73 => exact ⟨[], by simpa using hp, Or.inl rfl⟩
  case done => exact ⟨[], by simpa using hp, Or.inl rfl⟩
  case L123 => exact ⟨[], by simpa using hp, Or.inl rfl⟩
  case L117 => exact ⟨_, isProtocol_of_openClean hp, Or.inr rfl⟩
  case L118 => exact ⟨_, isProtocol_of_openClean hp, Or.inr rfl⟩
  case L128 => exact ⟨_, isProtocol_of_openClean hp, Or.inr rfl⟩
  all_goals exact ⟨_, isProtocol_of_openClean (openClean_of_openPoll hp), Or.inr rfl⟩

/-- C18 at the concrete run `failPollOps`, which has called `Init`, `Poll` and
`Cleanup` once each and is about to report the successful `Cleanup`. -/
theorem call_protocol_witness :
    ∃ ext, isProtocol (calls failPollLoop.trace ++ ext) ∧
      (ext = [] ∨ ext = [(Method.Cleanup, none)]) :=
  call_protocol simClock () 1000000000 5000000000 failPoll 1700000000000000000
    failPollOps failPollLoop failPollLoop_mem
/-! ## C19: the flag set before the first check -/

/-- With `terminated` set, a property of goroutine states that holds at the
entry and is kept by every statement holds along every schedule. -/
theorem exec_inv_of_terminated {W K : Type} (rt : Runtime W) (P : Loop → Prop)
    (hentry : P Loop.entry)
    (hstep : ∀ (r : Routine W K) (w : W) (l : Loop), r.terminated = true → P l →
      P (step rt r w l).1)
    (s : Sys W K) (ht : s.r.terminated = true) (hp : ∀ l ∈ s.procs, P l) (ops : List Op) :
    ∀ l ∈ (exec rt s ops).procs, P l := by
  induction ops generalizing s with
  | nil => exact hp
  | cons o ops ih =>
    rw [exec_cons]
    refine ih _ (apply_terminated rt s o ht) ?_
    cases o with
    | Start =>
      by_cases hs : s.r.started = true
      · simpa [Sys.apply, Start, hs] using hp
      · intro l hl
        simp only [Sys.apply, Start, hs, Bool.false_eq_true, if_false, List.mem_append,
          List.mem_singleton] at hl
        rcases hl with hl | hl
        · exact hp l hl
        · rw [hl]; exact hentry
    | SignalTerminate => exact hp
    | step i =>
      cases hi : s.procs[i]? with
      | none => simpa [Sys.apply, hi] using hp
      | some l0 =>
        intro l hl
        simp only [Sys.apply, hi] at hl
        rcases List.mem_or_eq_of_mem_set hl with hl | hl
        · exact hp l hl
        · rw [hl]; exact hstep s.r s.w l0 ht (hp l0 (List.getElem?_mem hi))

theorem step_exitsAtOnce {W K : Type} (rt : Runtime W) (r : Routine W K) (w : W) (l : Loop)
    (ht : r.terminated = true) (h : exitsAtOnce l) : exitsAtOnce (step rt r w l).1 := by
  rcases h with ⟨hpc, htr⟩ | ⟨hpc, htr⟩ | ⟨hpc, htr⟩
  · exact Or.inr (Or.inl (by simp [step, hpc, ht, Loop.goto, htr]))
  · exact Or.inr (Or.inr (by simp [step, hpc, Loop.goto, htr]))
  · exact Or.inr (Or.inr (by simp [step, hpc, htr]))

/-- C19: `Start` on a Routine that is not started returns `nil` also when
`terminated` is already set.  When `SignalTerminate` was called before `Start`,
then over every later schedule the goroutine calls no handler method and
sends at most the sentinel; two statements after `Start` it has returned and
the whole event sequence is the sentinel.  In every run from a new Routine, a
trace that begins with a read of `terminated` as true continues with the
sentinel only, and wherever `terminated` is read as true the next action is a
send, of the sentinel or of "terminated, will clean up", never a call of
`Init`. -/
theorem flag_set_before_first_check {W K : Type} (rt : Runtime W) (c : K) (pI pT : Int)
    (h : RoutineHandler W) (w : W) :
    (∀ s : Sys W K, s.r.started = false → (Start s).1 = none) ∧
    (Start (exec rt (Sys.new c pI pT h w) [.SignalTerminate])).1 = none ∧
    (∀ (ops : List Op) (l : Loop),
      l ∈ (exec rt (Sys.new c pI pT h w) (.SignalTerminate :: .Start :: ops)).procs →
      calls l.trace = [] ∧ (events l.trace = [] ∨ events l.trace = [none]) ∧
      (l.pc = .done → events l.trace = [none]) ∧
      (l.trace = [] ∨ l.trace = [.load true] ∨ l.trace = [.load true, .send none])) ∧
    (∀ ops : List Op, ∃ w1,
      exec rt (Sys.new c pI pT h w) ([.SignalTerminate, .Start, .step 0, .step 0] ++ ops) =
        exec rt { r := { started := true, terminated := true, client := c, pollInterval := pI,
                         podTTL := pT, handler := h },
                  procs := [{ pc := .done, lastPoll := 0, podStart := 0,
                              trace := [.load true, .send none] }],
                  w := w1 } ops) ∧
    (∀ (ops : List Op) (l : Loop), l ∈ (exec rt (Sys.new c pI pT h w) ops).procs →
      (∀ post, l.trace = .load true :: post → post = [] ∨ post = [.send none]) ∧
      (∀ pre a post, l.trace = pre ++ .load true :: a :: post →
        a = .send none ∨
        a = .send (some { Status := 0, Message := "terminated, will clean up" }))) := by
  refine ⟨?_, rfl, ?_, ?_, ?_⟩
  · intro s hs
    simp [Start, hs]
  · intro ops l hl
    have hex := exec_inv_of_terminated rt exitsAtOnce (Or.inl ⟨rfl, rfl⟩)
      (fun r w l ht hp => step_exitsAtOnce rt r w l ht hp)
      (exec rt (Sys.new c pI pT h w) [.SignalTerminate, .Start]) rfl
      (by intro l hl
          have : l = Loop.entry := by simpa [exec, Sys.apply, Start, Sys.new, NewRoutine,
            SignalTerminate] using hl
          rw [this]; exact Or.inl ⟨rfl, rfl⟩)
      ops l hl
    rcases hex with ⟨hpc, htr⟩ | ⟨hpc, htr⟩ | ⟨hpc, htr⟩ <;>
      simp [hpc, htr, calls, events]
  · intro ops
    exact ⟨w, rfl⟩
  · intro ops l hl
    have hp := reach_path rt c pI pT h w ops l hl
    constructor
    · intro post ht
      rw [ht] at hp
      obtain ⟨l1, tr, h1⟩ := Path.cons_inv hp
      have hl1 : l1.pc = .L73 := by cases tr <;> simp_all [Loop.goto, Loop.entry]
      cases post with
      | nil => exact Or.inl rfl
      | cons a post =>
        obtain ⟨l2, tr2, h2⟩ := Path.cons_inv h1
        have hl2 : a = .send none ∧ l2.pc = .done := by cases tr2 <;> simp_all [Loop.goto]
        obtain ⟨rfl, hl2⟩ := hl2
        obtain ⟨rfl, -⟩ := h2.of_done hl2
        exact Or.inr rfl
    · intro pre a post ht
      rw [ht] at hp
      obtain ⟨l1, _, h1⟩ := Path.split hp
      obtain ⟨l2, tr, h2⟩ := Path.cons_inv h1
      obtain ⟨l3, tr3, _⟩ := Path.cons_inv h2
      have hl2 : l2.pc = .L73 ∨ l2.pc = .L112 := by cases tr <;> simp_all [Loop.goto]
      rcases hl2 with hl2 | hl2 <;> cases tr3 <;> simp_all [Loop.goto]

/-- C19 at the concrete run `SignalTerminate`, `Start`, two statements. -/
theorem flag_set_before_first_check_witness :
    calls exitedLoop.trace = [] ∧
    (events exitedLoop.trace = [] ∨ events exitedLoop.trace = [none]) ∧
    (exitedLoop.pc = .done → events exitedLoop.trace = [none]) ∧
    (exitedLoop.trace = [] ∨ exitedLoop.trace = [.load true] ∨
      exitedLoop.trace = [.load true, .send none]) :=
  (flag_set_before_first_check simClock () 1000000000 5000000000 okHandler
    1700000000000000000).2.2.1 [.step 0, .step 0] exitedLoop (by decide)
/-! ## C16: leaving the polling phase -/

/-- A path without a call of `Init` that starts after line 91 keeps `podStart`. -/
theorem Path.podStart_keeps {pI pT : Int} {l l2 : Loop} {t : List Action}
    (h : Path pI pT l t l2) (h85 : l.pc ≠ .L85) (h91 : l.pc ≠ .L91)
    (hno : ∀ e, Action.call .Init e ∉ t) :
    l2.pc ≠ .L85 ∧ l2.pc ≠ .L91 ∧ l2.podStart = l.podStart := by
  induction h with
  | nil => exact ⟨h85, h91, rfl⟩
  | cons htr _ ih =>
    have hno1 : ∀ e, Action.call .Init e ∉ _ := fun e hm => hno e (List.mem_cons_of_mem _ hm)
    have hhead := fun e => List.ne_of_not_mem_cons (hno e)
    cases htr <;> simp_all [Loop.goto]

/-- On a path, the reading of the clock at the TTL test decides: the marker
"terminated, will clean up" follows when the time since the `podStart` of the
epoch exceeds `pT`, the due test follows when it does not. -/
theorem Path.ttl_decision {pI pT : Int} {l0 l : Loop} {p0 mid post : List Action}
    {t0 t : Int} {a : Action}
    (h : Path pI pT l0 (p0 ++ [.send (some { Status := 0, Message := "init success" }),
      .now t0] ++ mid ++ [.load false, .now t, a] ++ post) l)
    (hno : ∀ e, Action.call .Init e ∉ mid) :
    (a = .send (some { Status := 0, Message := "terminated, will clean up" }) ∧
      pT < Sub t t0) ∨ (∃ t2, a = .now t2 ∧ Sub t t0 ≤ pT) := by
  obtain ⟨l1, h1, _⟩ := Path.split h
  obtain ⟨l2, h2, hB⟩ := Path.split h1
  obtain ⟨l3, h3, hmid⟩ := Path.split h2
  obtain ⟨l4, _, hA⟩ := Path.split h3
  obtain ⟨a1, tr1, hA⟩ := Path.cons_inv hA
  obtain ⟨a2, tr2, hA⟩ := Path.cons_inv hA
  have := Path.nil_inv hA
  subst this
  have hp1 : a1.pc = .L91 := by
    generalize ha : Action.send (some { Status := 0, Message := "init success" }) = x at tr1
    cases tr1 <;> simp_all [Loop.goto]
  have hp2 : l3.pc = .L93 ∧ l3.podStart = t0 := by cases tr2 <;> simp_all [Loop.goto]
  obtain ⟨h85, h91, hps⟩ := hmid.podStart_keeps (by simp [hp2.1]) (by simp [hp2.1]) hno
  rw [hp2.2] at hps
  obtain ⟨b1, tb1, hB⟩ := Path.cons_inv hB
  obtain ⟨b2, tb2, hB⟩ := Path.cons_inv hB
  obtain ⟨b3, tb3, hB⟩ := Path.cons_inv hB
  have hb1 : (b1.pc = .L77 ∨ b1.pc = .L93b) ∧ b1.podStart = t0 := by
    cases tb1 <;> simp_all [Loop.goto]
  have hb2 : (b2.pc = .L112 ∧ pT < Sub t t0) ∨ (b2.pc = .L94 ∧ Sub t t0 ≤ pT) := by
    rcases hb1 with ⟨hb | hb, hbp⟩ <;> cases tb2 <;> simp_all [Loop.goto]
  rcases hb2 with ⟨hb, hlt⟩ | ⟨hb, hle⟩
  · left
    refine ⟨?_, hlt⟩
    cases tb3 <;> simp_all [Loop.goto]
  · right
    have : ∃ t2, a = .now t2 := by cases tb3 <;> simp_all [Loop.goto]
    obtain ⟨t2, rfl⟩ := this
    exact ⟨t2, rfl, hle⟩

/-- On a path from the entry, the marker "terminated, will clean up" comes
right after a read of the flag as true or right after the TTL test, and is
followed by a call of `Cleanup`. -/
theorem Path.marker_context {pI pT : Int} {l : Loop} {pre post : List Action}
    (h : Path pI pT Loop.entry
      (pre ++ .send (some { Status := 0, Message := "terminated, will clean up" }) :: post) l) :
    ((∃ p, pre = p ++ [.load true]) ∨ (∃ p t, pre = p ++ [.load false, .now t])) ∧
    (post = [] ∨ ∃ e rest, post = .call .Cleanup e :: rest) := by
  obtain ⟨l1, h1, h2⟩ := Path.split h
  obtain ⟨l2, tr, h3⟩ := Path.cons_inv h2
  have hpc : l1.pc = .L112 ∧ l2.pc = .L117 := by
    generalize ha : Action.send (some { Status := 0, Message := "terminated, will clean up" }) = x
      at tr
    cases tr <;> simp_all [Loop.goto]
  constructor
  · obtain ⟨t1, a1, l0, rfl, h4, tr1⟩ := h1.last_of_entry (by simp [hpc.1])
    have hsrc : (a1 = .load true) ∨ (∃ t, a1 = .now t ∧ l0.pc = .L93b) := by
      cases tr1 <;> simp_all [Loop.goto]
    rcases hsrc with rfl | ⟨t, rfl, hl0⟩
    · exact Or.inl ⟨t1, rfl⟩
    · obtain ⟨t2, a2, l00, rfl, _, tr2⟩ := h4.last_of_entry (by simp [hl0])
      have : a2 = .load false := by cases tr2 <;> simp_all [Loop.goto]
      subst this
      exact Or.inr ⟨t2, t, by simp⟩
  · cases post with
    | nil => exact Or.inl rfl
    | cons a post =>
      obtain ⟨l3, tr3, _⟩ := Path.cons_inv h3
      have : ∃ e, a = .call .Cleanup e := by cases tr3 <;> simp_all [Loop.goto]
      obtain ⟨e, rfl⟩ := this
      exact Or.inr ⟨e, post, rfl⟩

/-- Between a call of `Init` or `Poll` and the first call of `Cleanup` after
it, the events are the report of that call and the marker, and the marker is
the action right before the `Cleanup`. -/
theorem Path.first_cleanup_marker {pI pT : Int} {l0 l : Loop} {pre mid post : List Action}
    {m : Method} {e e' : Error}
    (h : Path pI pT l0 (pre ++ .call m e :: (mid ++ .call .Cleanup e' :: post)) l)
    (hm : m ≠ .Cleanup) (hno : ∀ m e, Action.call m e ∉ mid) :
    events mid = [some (report m e),
      some { Status := 0, Message := "terminated, will clean up" }] ∧
    ∃ mid1, mid = mid1 ++
      [.send (some { Status := 0, Message := "terminated, will clean up" })] := by
  have hbetween := h.between_calls hno
  obtain ⟨l1, _, h1⟩ := Path.split h
  obtain ⟨l2, tr, h2⟩ := Path.cons_inv h1
  obtain ⟨l3, hmid, h3⟩ := Path.split h2
  obtain ⟨l4, tr4, _⟩ := Path.cons_inv h3
  have hl3 : l3.pc = .L117 := by cases tr4 <;> simp_all [Loop.goto]
  have hl2 : l2.pc ≠ .L117 ∧ l2.pc ≠ .L128 ∧ ∀ err, l2.pc ≠ .L118 err := by
    cases tr <;> simp_all [Loop.goto]
  have hlast : ∃ mid1, mid = mid1 ++
      [.send (some { Status := 0, Message := "terminated, will clean up" })] := by
    rcases hmid.last with ⟨_, hl⟩ | ⟨m1, a, l5, rfl, hm1, tra⟩
    · rw [hl] at hl3; exact absurd hl3 hl2.1
    · have ha : a = .send (some { Status := 0, Message := "terminated, will clean up" }) ∨
          (a = .sleep pulseInterval ∧ l5.pc = .L128) := by
        cases tra <;> simp_all [Loop.goto]
      rcases ha with rfl | ⟨rfl, hl5⟩
      · exact ⟨m1, rfl⟩
      · exfalso
        rcases hm1.last with ⟨_, hl⟩ | ⟨m2, b, l6, rfl, hm2, trb⟩
        · rw [hl] at hl5; exact hl2.2.1 hl5
        · have hb : ∃ err, l6.pc = .L118 err := by cases trb <;> simp_all [Loop.goto]
          obtain ⟨err, hl6⟩ := hb
          rcases hm2.last with ⟨_, hl⟩ | ⟨m3, c, l7, rfl, _, trc⟩
          · rw [hl] at hl6; exact hl2.2.2 err hl6
          · have hc : ∃ x, c = .call .Cleanup x := by cases trc <;> simp_all [Loop.goto]
            obtain ⟨x, rfl⟩ := hc
            exact hno .Cleanup x (by simp)
  refine ⟨?_, hlast⟩
  obtain ⟨mid1, rfl⟩ := hlast
  rcases hbetween with hb | hb
  · exfalso
    rw [events_append] at hb
    have hlen := congrArg List.length hb
    simp only [events, List.length_append, List.length_cons, List.length_nil] at hlen
    have h0 : events mid1 = [] := List.length_eq_zero.1 (by omega)
    rw [h0] at hb
    simp only [events, List.nil_append, List.cons.injEq, Option.some.injEq, and_true] at hb
    cases m <;> cases e <;> simp [report] at hb hm
  · exact hb

/-- C16: at the top of a polling iteration (line 93) the loop goes on to the
TTL test when `terminated` is false and leaves the phase when it is true; at
the TTL test it goes on when the time since `podStart` is at most `podTTL`,
equality included, and leaves when it is greater; at the due test it calls
`Poll` exactly when the time since `lastPoll` is strictly greater than
`pollInterval`; leaving the phase means sending the Status-0 event
"terminated, will clean up" and then calling `Cleanup`.  In every run from a
new Routine: that marker comes right after a read of the flag as true or a
TTL test, and before a call of `Cleanup`; the TTL test is followed by the
marker exactly when the reading minus the `podStart` of the epoch exceeds
`podTTL`; and between a call of `Init` or `Poll` and the first `Cleanup` after
it the marker is sent exactly once, right before that `Cleanup`. -/
theorem polling_phase_exit {W K : Type} (rt : Runtime W) (c : K) (pI pT : Int)
    (h : RoutineHandler W) (w0 : W) (ops : List Op) (l1 : Loop)
    (hl : l1 ∈ (exec rt (Sys.new c pI pT h w0) ops).procs) :
    (∀ (r : Routine W K) (w : W) (l : Loop),
      (l.pc = .L93 → (r.terminated = false → (step rt r w l).1.pc = .L93b) ∧
        (r.terminated = true → (step rt r w l).1.pc = .L112)) ∧
      (l.pc = .L93b → (Sub (rt.Now w).1 l.podStart ≤ r.podTTL → (step rt r w l).1.pc = .L94) ∧
        (r.podTTL < Sub (rt.Now w).1 l.podStart → (step rt r w l).1.pc = .L112)) ∧
      (l.pc = .L94 →
        (r.pollInterval < Sub (rt.Now w).1 l.lastPoll → (step rt r w l).1.pc = .L96) ∧
        (Sub (rt.Now w).1 l.lastPoll ≤ r.pollInterval → (step rt r w l).1.pc = .L110)) ∧
      (l.pc = .L112 → step rt r w l =
        (l.goto .L117 (.send (some { Status := 0, Message := "terminated, will clean up" })),
          w))) ∧
    (∀ pre post : List Action,
      l1.trace = pre ++
        .send (some { Status := 0, Message := "terminated, will clean up" }) :: post →
      ((∃ p, pre = p ++ [.load true]) ∨ (∃ p t, pre = p ++ [.load false, .now t])) ∧
      (post = [] ∨ ∃ e rest, post = .call .Cleanup e :: rest)) ∧
    (∀ (p0 mid post : List Action) (t0 t : Int) (a : Action),
      l1.trace = p0 ++ [.send (some { Status := 0, Message := "init success" }), .now t0] ++
        mid ++ [.load false, .now t, a] ++ post →
      (∀ e, Action.call .Init e ∉ mid) →
      (a = .send (some { Status := 0, Message := "terminated, will clean up" }) ∧
        pT < Sub t t0) ∨ (∃ t2, a = .now t2 ∧ Sub t t0 ≤ pT)) ∧
    (∀ (pre mid post : List Action) (m : Method) (e e' : Error),
      l1.trace = pre ++ .call m e :: (mid ++ .call .Cleanup e' :: post) →
      m ≠ .Cleanup → (∀ m e, Action.call m e ∉ mid) →
      events mid = [some (report m e),
        some { Status := 0, Message := "terminated, will clean up" }] ∧
      ∃ mid1, mid = mid1 ++
        [.send (some { Status := 0, Message := "terminated, will clean up" })]) := by
  have hp := reach_path rt c pI pT h w0 ops l1 hl
  refine ⟨?_, ?_, ?_, ?_⟩
  · intro r w l
    refine ⟨?_, ?_, ?_, ?_⟩
    · intro hpc
      exact ⟨fun ht => by simp [step, hpc, ht, Loop.goto],
        fun ht => by simp [step, hpc, ht, Loop.goto]⟩
    · intro hpc
      exact ⟨fun ht => by simp [step, hpc, ht, Loop.goto],
        fun ht => by simp [step, hpc, not_le.2 ht, Loop.goto]⟩
    · intro hpc
      exact ⟨fun ht => by simp [step, hpc, ht, Loop.goto],
        fun ht => by simp [step, hpc, not_lt.2 ht, Loop.goto]⟩
    · intro hpc
      simp [step, hpc]
  · intro pre post ht
    rw [ht] at hp
    exact hp.marker_context
  · intro p0 mid post t0 t a ht hno
    rw [ht] at hp
    exact hp.ttl_decision hno
  · intro pre mid post m e e' ht hm hno
    rw [ht] at hp
    exact hp.first_cleanup_marker hm hno

/-- C16 at the concrete run `failPollOps`: between the failed `Poll` and the
`Cleanup` the events are the report and the marker. -/
theorem polling_phase_exit_witness :
    events [.send (some { Status := 500, Message := "poll error: down" }),
        .now 1700000000000000000, .sleep 2000000000, .load true,
        .send (some { Status := 0, Message := "terminated, will clean up" })] =
      [some (report .Poll (some "down")),
        some { Status := 0, Message := "terminated, will clean up" }] ∧
    ∃ mid1, [Action.send (some { Status := 500, Message := "poll error: down" }),
        .now 1700000000000000000, .sleep 2000000000, .load true,
        .send (some { Status := 0, Message := "terminated, will clean up" })] = mid1 ++
      [.send (some { Status := 0, Message := "terminated, will clean up" })] :=
  (polling_phase_exit simClock () 1000000000 5000000000 failPoll 1700000000000000000
    failPollOps failPollLoop failPollLoop_mem).2.2.2
    [.load false, .call .Init none, .send (some { Status := 0, Message := "init success" }),
      .now 1700000000000000000, .load false, .now 1700000000000000000,
      .now 1700000000000000000]
    [.send (some { Status := 500, Message := "poll error: down" }),
      .now 1700000000000000000, .sleep 2000000000, .load true,
      .send (some { Status := 0, Message := "terminated, will clean up" })]
    [] .Poll (some "down") none rfl (by decide) (by simp)
/-! ## C17: where and how long the loop sleeps -/

/-- On a path from the entry every sleep lasts `pulseInterval` and comes after
the report of a failed `Init`, after the report of a failed `Cleanup`, or at
the end of a polling iteration, with or without a poll. -/
theorem Path.sleep_context {pI pT : Int} {l : Loop} {pre post : List Action} {d : Int}
    (h : Path pI pT Loop.entry (pre ++ .sleep d :: post) l) :
    d = pulseInterval ∧
    ((∃ p e, pre = p ++ [.call .Init (some e), .send (some (report .Init (some e)))]) ∨
     (∃ p e, pre = p ++ [.call .Cleanup (some e), .send (some (report .Cleanup (some e)))]) ∨
     (∃ p t1 t2, pre = p ++ [.load false, .now t1, .now t2]) ∨
     (∃ p t1 t2 e t3, pre = p ++ [.load false, .now t1, .now t2, .call .Poll e,
        .send (some (report .Poll e)), .now t3])) := by
  obtain ⟨l1, h1, h2⟩ := Path.split h
  obtain ⟨l2, tr, _⟩ := Path.cons_inv h2
  have hsrc : d = pulseInterval ∧ (l1.pc = .L82 ∨ l1.pc = .L110 ∨ l1.pc = .L128) := by
    cases tr <;> simp_all
  refine ⟨hsrc.1, ?_⟩
  rcases hsrc.2 with hpc | hpc | hpc
  · obtain ⟨t1, a1, m1, rfl, g1, tr1⟩ := h1.last_of_entry (by simp [hpc])
    have : ∃ e, a1 = .send (some (report .Init (some e))) ∧ m1.pc = .L78 e := by
      cases tr1 <;> simp_all [Loop.goto, report]
    obtain ⟨e, rfl, hm1⟩ := this
    obtain ⟨t2, a2, m2, rfl, _, tr2⟩ := g1.last_of_entry (by simp [hm1])
    have : a2 = .call .Init (some e) := by cases tr2 <;> simp_all [Loop.goto]
    subst this
    exact Or.inl ⟨t2, e, by simp⟩
  · obtain ⟨t1, a1, m1, rfl, g1, tr1⟩ := h1.last_of_entry (by simp [hpc])
    have : ∃ t, a1 = .now t ∧ (m1.pc = .L94 ∨ m1.pc = .L108) := by
      cases tr1 <;> simp_all [Loop.goto]
    obtain ⟨t, rfl, hm1⟩ := this
    rcases hm1 with hm1 | hm1
    · obtain ⟨t2, a2, m2, rfl, g2, tr2⟩ := g1.last_of_entry (by simp [hm1])
      have : ∃ u, a2 = .now u ∧ m2.pc = .L93b := by cases tr2 <;> simp_all [Loop.goto]
      obtain ⟨u, rfl, hm2⟩ := this
      obtain ⟨t3, a3, m3, rfl, _, tr3⟩ := g2.last_of_entry (by simp [hm2])
      have : a3 = .load false := by cases tr3 <;> simp_all [Loop.goto]
      subst this
      exact Or.inr (Or.inr (Or.inl ⟨t3, u, t, by simp⟩))
    · obtain ⟨t2, a2, m2, rfl, g2, tr2⟩ := g1.last_of_entry (by simp [hm1])
      have : (a2 = .send (some (report .Poll none)) ∧ m2.pc = .L102) ∨
          ∃ e, a2 = .send (some (report .Poll (some e))) ∧ m2.pc = .L97 e := by
        cases tr2 <;> simp_all [Loop.goto, report]
      have hcall : ∃ e t3 m3, a2 = .send (some (report .Poll e)) ∧ t2 = t3 ++ [.call .Poll e] ∧
          Path pI pT Loop.entry t3 m3 ∧ m3.pc = .L96 := by
        rcases this with ⟨rfl, hm2⟩ | ⟨e, rfl, hm2⟩
        · obtain ⟨t3, a3, m3, rfl, g3, tr3⟩ := g2.last_of_entry (by simp [hm2])
          have : a3 = .call .Poll none ∧ m3.pc = .L96 := by cases tr3 <;> simp_all [Loop.goto]
          exact ⟨none, t3, m3, rfl, by rw [this.1], g3, this.2⟩
        · obtain ⟨t3, a3, m3, rfl, g3, tr3⟩ := g2.last_of_entry (by simp [hm2])
          have : a3 = .call .Poll (some e) ∧ m3.pc = .L96 := by
            cases tr3 <;> simp_all [Loop.goto]
          exact ⟨some e, t3, m3, rfl, by rw [this.1], g3, this.2⟩
      obtain ⟨e, t3, m3, rfl, rfl, g3, hm3⟩ := hcall
      obtain ⟨t4, a4, m4, rfl, g4, tr4⟩ := g3.last_of_entry (by simp [hm3])
      have : ∃ u2, a4 = .now u2 ∧ m4.pc = .L94 := by cases tr4 <;> simp_all [Loop.goto]
      obtain ⟨u2, rfl, hm4⟩ := this
      obtain ⟨t5, a5, m5, rfl, g5, tr5⟩ := g4.last_of_entry (by simp [hm4])
      have : ∃ u1, a5 = .now u1 ∧ m5.pc = .L93b := by cases tr5 <;> simp_all [Loop.goto]
      obtain ⟨u1, rfl, hm5⟩ := this
      obtain ⟨t6, a6, m6, rfl, _, tr6⟩ := g5.last_of_entry (by simp [hm5])
      have : a6 = .load false := by cases tr6 <;> simp_all [Loop.goto]
      subst this
      exact Or.inr (Or.inr (Or.inr ⟨t6, u1, u2, e, t, by simp⟩))
  · obtain ⟨t1, a1, m1, rfl, g1, tr1⟩ := h1.last_of_entry (by simp [hpc])
    have : ∃ e, a1 = .send (some (report .Cleanup (some e))) ∧ m1.pc = .L118 e := by
      cases tr1 <;> simp_all [Loop.goto, report]
    obtain ⟨e, rfl, hm1⟩ := this
    obtain ⟨t2, a2, m2, rfl, _, tr2⟩ := g1.last_of_entry (by simp [hm1])
    have : a2 = .call .Cleanup (some e) := by cases tr2 <;> simp_all [Loop.goto]
    subst this
    exact Or.inr (Or.inl ⟨t2, e, by simp⟩)

/-- Three transitions in a row inside a path. -/
theorem Path.three {pI pT : Int} {l0 l : Loop} {pre post : List Action} {a b c : Action}
    (h : Path pI pT l0 (pre ++ [a, b, c] ++ post) l) :
    ∃ l1 l2 l3 l4, Trans pI pT l1 a l2 ∧ Trans pI pT l2 b l3 ∧ Trans pI pT l3 c l4 := by
  obtain ⟨m, h1, _⟩ := Path.split h
  obtain ⟨l1, _, h2⟩ := Path.split h1
  obtain ⟨l2, ta, h2⟩ := Path.cons_inv h2
  obtain ⟨l3, tb, h2⟩ := Path.cons_inv h2
  obtain ⟨l4, tc, _⟩ := Path.cons_inv h2
  exact ⟨l1, l2, l3, l4, ta, tb, tc⟩

/-- Four transitions in a row inside a path. -/
theorem Path.four {pI pT : Int} {l0 l : Loop} {pre post : List Action} {a b c d : Action}
    (h : Path pI pT l0 (pre ++ [a, b, c, d] ++ post) l) :
    ∃ l1 l2 l3 l4 l5, Trans pI pT l1 a l2 ∧ Trans pI pT l2 b l3 ∧ Trans pI pT l3 c l4 ∧
      Trans pI pT l4 d l5 := by
  obtain ⟨m, h1, _⟩ := Path.split h
  obtain ⟨l1, _, h2⟩ := Path.split h1
  obtain ⟨l2, ta, h2⟩ := Path.cons_inv h2
  obtain ⟨l3, tb, h2⟩ := Path.cons_inv h2
  obtain ⟨l4, tc, h2⟩ := Path.cons_inv h2
  obtain ⟨l5, td, _⟩ := Path.cons_inv h2
  exact ⟨l1, l2, l3, l4, l5, ta, tb, tc, td⟩

/-- C17: in every run from a new Routine every sleep lasts `pulseInterval`,
which is 2 s, whatever `pollInterval`, `podTTL` and the number of earlier
failures.  Each sleep comes after the report of a failed `Init`, after the
report of a failed `Cleanup`, or at the end of a polling iteration (after the
due test when no poll is due, after the recording of `lastPoll` otherwise).
Conversely the report of a failed `Init` or `Cleanup` is followed by a sleep,
a polling iteration that has passed the due test goes on to a sleep, directly
or through a poll, and the recording of `lastPoll` is followed by a sleep.
After the report of a successful `Init` comes a clock reading, after the
report of a successful `Cleanup` a read of the flag: no sleep. -/
theorem sleep_always_pulse {W K : Type} (rt : Runtime W) (c : K) (pI pT : Int)
    (h : RoutineHandler W) (w : W) (ops : List Op) (l : Loop)
    (hl : l ∈ (exec rt (Sys.new c pI pT h w) ops).procs) :
    pulseInterval = 2000000000 ∧
    (∀ d ∈ sleeps l.trace, d = pulseInterval) ∧
    (∀ (pre post : List Action) (d : Int), l.trace = pre ++ .sleep d :: post →
      d = pulseInterval ∧
      ((∃ p e, pre = p ++ [.call .Init (some e), .send (some (report .Init (some e)))]) ∨
       (∃ p e, pre = p ++ [.call .Cleanup (some e),
          .send (some (report .Cleanup (some e)))]) ∨
       (∃ p t1 t2, pre = p ++ [.load false, .now t1, .now t2]) ∨
       (∃ p t1 t2 e t3, pre = p ++ [.load false, .now t1, .now t2, .call .Poll e,
          .send (some (report .Poll e)), .now t3]))) ∧
    (∀ (pre post : List Action) (e : String) (ev : Option Event) (a : Action),
      (l.trace = pre ++ [.call .Init (some e), .send ev, a] ++ post → a = .sleep pulseInterval) ∧
      (l.trace = pre ++ [.call .Cleanup (some e), .send ev, a] ++ post →
        a = .sleep pulseInterval)) ∧
    (∀ (pre post : List Action) (t1 t2 : Int) (a : Action),
      l.trace = pre ++ [.load false, .now t1, .now t2, a] ++ post →
      a = .sleep pulseInterval ∨ ∃ e, a = .call .Poll e) ∧
    (∀ (pre post : List Action) (e : Error) (ev : Option Event) (t3 : Int) (a : Action),
      l.trace = pre ++ [.call .Poll e, .send ev, .now t3, a] ++ post →
      a = .sleep pulseInterval) ∧
    (∀ (pre post : List Action) (ev : Option Event) (a : Action),
      (l.trace = pre ++ [.call .Init none, .send ev, a] ++ post → ∃ t, a = .now t) ∧
      (l.trace = pre ++ [.call .Cleanup none, .send ev, a] ++ post → ∃ b, a = .load b)) := by
  have hp := reach_path rt c pI pT h w ops l hl
  refine ⟨by decide, ?_, ?_, ?_, ?_, ?_, ?_⟩
  · intro d hd
    have hmem : Action.sleep d ∈ l.trace := by
      generalize l.trace = t at hd
      induction t with
      | nil => simp [sleeps] at hd
      | cons a t ih =>
        cases a <;> simp only [sleeps, List.mem_cons] at hd ⊢
        case sleep d' =>
          rcases hd with rfl | hd
          · exact Or.inl rfl
          · exact Or.inr (ih hd)
        all_goals exact Or.inr (ih hd)
    obtain ⟨pre, post, ht⟩ := List.append_of_mem hmem
    rw [ht] at hp
    exact hp.sleep_context.1
  · intro pre post d ht
    rw [ht] at hp
    exact hp.sleep_context
  · intro pre post e ev a
    constructor
    · intro ht
      rw [ht] at hp
      obtain ⟨l1, l2, l3, l4, ta, tb, tc⟩ := hp.three
      have h2 : l2.pc = .L78 e := by cases ta; simp_all [Loop.goto]
      have h3 : l3.pc = .L82 := by cases tb <;> simp_all [Loop.goto]
      cases tc <;> simp_all [Loop.goto]
    · intro ht
      rw [ht] at hp
      obtain ⟨l1, l2, l3, l4, ta, tb, tc⟩ := hp.three
      have h2 : l2.pc = .L118 e := by cases ta; simp_all [Loop.goto]
      have h3 : l3.pc = .L128 := by cases tb <;> simp_all [Loop.goto]
      cases tc <;> simp_all [Loop.goto]
  · intro pre post t1 t2 a ht
    rw [ht] at hp
    obtain ⟨l1, l2, l3, l4, l5, ta, tb, tc, td⟩ := hp.four
    have h2 : l2.pc = .L77 ∨ l2.pc = .L93b := by cases ta <;> simp_all [Loop.goto]
    have h3 : l3.pc = .L94 ∨ l3.pc = .L112 := by
      rcases h2 with h2 | h2 <;> cases tb <;> simp_all [Loop.goto]
    have h4 : l4.pc = .L96 ∨ l4.pc = .L110 := by
      rcases h3 with h3 | h3 <;> cases tc <;> simp_all [Loop.goto]
    rcases h4 with h4 | h4 <;> cases td <;> simp_all [Loop.goto]
  · intro pre post e ev t3 a ht
    rw [ht] at hp
    obtain ⟨l1, l2, l3, l4, l5, ta, tb, tc, td⟩ := hp.four
    have h2 : l2.pc = .L102 ∨ ∃ err, l2.pc = .L97 err := by cases ta <;> simp_all [Loop.goto]
    have h3 : l3.pc = .L108 := by
      rcases h2 with h2 | ⟨err, h2⟩ <;> cases tb <;> simp_all [Loop.goto]
    have h4 : l4.pc = .L110 := by cases tc <;> simp_all [Loop.goto]
    cases td <;> simp_all [Loop.goto]
  · intro pre post ev a
    constructor
    · intro ht
      rw [ht] at hp
      obtain ⟨l1, l2, l3, l4, ta, tb, tc⟩ := hp.three
      have h2 : l2.pc = .L85 := by cases ta; simp_all [Loop.goto]
      have h3 : l3.pc = .L91 := by cases tb <;> simp_all [Loop.goto]
      cases tc <;> simp_all [Loop.goto]
    · intro ht
      rw [ht] at hp
      obtain ⟨l1, l2, l3, l4, ta, tb, tc⟩ := hp.three
      have h2 : l2.pc = .L123 := by cases ta; simp_all [Loop.goto]
      have h3 : l3.pc = .L76 := by cases tb <;> simp_all [Loop.goto]
      cases tc <;> simp_all [Loop.goto]

/-- C17 at the concrete run `demoPollOps`: its one sleep lasts 2 s and ends a
polling iteration. -/
theorem sleep_always_pulse_witness :
    (2000000000 : Int) = pulseInterval ∧
    ((∃ p e, [Action.load false, .call .Init none,
        .send (some { Status := 0, Message := "init success" }),
        .now 1700000000000000000, .load false, .now 1700000000000000000,
        .now 1700000000000000000, .call .Poll none,
        .send (some { Status := 200, Message := "poll success" }),
        .now 1700000000000000000] =
        p ++ [.call .Init (some e), .send (some (report .Init (some e)))]) ∨
     (∃ p e, [Action.load false, .call .Init none,
        .send (some { Status := 0, Message := "init success" }),
        .now 1700000000000000000, .load false, .now 1700000000000000000,
        .now 1700000000000000000, .call .Poll none,
        .send (some { Status := 200, Message := "poll success" }),
        .now 1700000000000000000] =
        p ++ [.call .Cleanup (some e), .send (some (report .Cleanup (some e)))]) ∨
     (∃ p t1 t2, [Action.load false, .call .Init none,
        .send (some { Status := 0, Message := "init success" }),
        .now 1700000000000000000, .load false, .now 1700000000000000000,
        .now 1700000000000000000, .call .Poll none,
        .send (some { Status := 200, Message := "poll success" }),
        .now 1700000000000000000] = p ++ [.load false, .now t1, .now t2]) ∨
     (∃ p t1 t2 e t3, [Action.load false, .call .Init none,
        .send (some { Status := 0, Message := "init success" }),
        .now 1700000000000000000, .load false, .now 1700000000000000000,
        .now 1700000000000000000, .call .Poll none,
        .send (some { Status := 200, Message := "poll success" }),
        .now 1700000000000000000] =
        p ++ [.load false, .now t1, .now t2, .call .Poll e,
          .send (some (report .Poll e)), .now t3])) :=
  (sleep_always_pulse simClock () 1000000000 5000000000 okHandler 1700000000000000000
    demoPollOps demoPollLoop demoPollLoop_mem).2.2.1
    [.load false, .call .Init none, .send (some { Status := 0, Message := "init success" }),
      .now 1700000000000000000, .load false, .now 1700000000000000000,
      .now 1700000000000000000, .call .Poll none,
      .send (some { Status := 200, Message := "poll success" }), .now 1700000000000000000]
    [.load false, .now 1700000002000000000, .now 1700000002000000000, .call .Poll none]
    2000000000 rfl
/-! ## C20: lastPoll starts at the Unix epoch in every epoch -/

theorem Sub_zero_of_range {t : Int} (h1 : minDuration ≤ t) (h2 : t ≤ maxDuration) :
    Sub t 0 = t := by
  unfold Sub
  unfold minDuration at h1
  unfold maxDuration at h2
  unfold minDuration maxDuration
  omega

/-- The first polling iteration of an epoch: after the due test comes a call of
`Poll` exactly when the time since the Unix epoch exceeds `pI`. -/
theorem Path.first_iteration {pI pT : Int} {l0 l : Loop} {pre post : List Action}
    {t0 t1 t2 : Int} {a : Action}
    (h : Path pI pT l0 (pre ++ [.send (some { Status := 0, Message := "init success" }),
      .now t0, .load false, .now t1, .now t2, a] ++ post) l) :
    ((∃ e, a = .call .Poll e) ∧ pI < Sub t2 0) ∨ (a = .sleep pulseInterval ∧ Sub t2 0 ≤ pI) := by
  obtain ⟨m, h1, _⟩ := Path.split h
  obtain ⟨l1, _, h2⟩ := Path.split h1
  obtain ⟨l2, ta, h2⟩ := Path.cons_inv h2
  obtain ⟨l3, tb, h2⟩ := Path.cons_inv h2
  obtain ⟨l4, tc, h2⟩ := Path.cons_inv h2
  obtain ⟨l5, td, h2⟩ := Path.cons_inv h2
  obtain ⟨l6, te, h2⟩ := Path.cons_inv h2
  obtain ⟨l7, tf, _⟩ := Path.cons_inv h2
  have g2 : l2.pc = .L91 := by
    generalize ha : Action.send (some { Status := 0, Message := "init success" }) = x at ta
    cases ta <;> simp_all [Loop.goto]
  have g3 : l3.pc = .L93 ∧ l3.lastPoll = 0 := by cases tb <;> simp_all [Loop.goto]
  have g4 : l4.pc = .L93b ∧ l4.lastPoll = 0 := by cases tc <;> simp_all [Loop.goto]
  have g5 : (l5.pc = .L94 ∨ l5.pc = .L112) ∧ l5.lastPoll = 0 := by
    cases td <;> simp_all [Loop.goto]
  have g6 : (l6.pc = .L96 ∧ pI < Sub t2 0) ∨ (l6.pc = .L110 ∧ Sub t2 0 ≤ pI) := by
    rcases g5 with ⟨g5 | g5, g50⟩ <;> cases te <;> simp_all [Loop.goto]
  rcases g6 with ⟨g6, hlt⟩ | ⟨g6, hle⟩
  · left
    refine ⟨?_, hlt⟩
    cases tf <;> simp_all [Loop.goto]
  · right
    refine ⟨?_, hle⟩
    cases tf <;> simp_all [Loop.goto]

/-- While every clock reading is at most `pI` after the Unix epoch, no poll is
made. -/
theorem Path.never_due {pI pT : Int} {l : Loop} {t : List Action}
    (h : Path pI pT Loop.entry t l) (hr : ∀ x ∈ readings t, Sub x 0 ≤ pI) :
    (∀ e, Action.call .Poll e ∉ t) ∧ unpolled l := by
  induction t using List.reverseRecOn generalizing l with
  | nil => rw [Path.nil_inv h]; exact ⟨by simp, by simp [unpolled, Loop.entry]⟩
  | append_singleton t a ih =>
    obtain ⟨l1, h1, htr⟩ := Path.snoc_inv h
    rw [readings_append] at hr
    obtain ⟨hno, hun⟩ := ih h1 (fun x hx => hr x (List.mem_append_left _ hx))
    have hra : ∀ x ∈ readings [a], Sub x 0 ≤ pI := fun x hx => hr x (List.mem_append_right _ hx)
    cases htr
    case due x hpc hgt =>
      have hx := hra x (by simp [readings])
      simp only [unpolled, hpc] at hun
      rw [hun] at hgt
      omega
    all_goals simp_all [Loop.goto, unpolled, readings]

set_option maxRecDepth 8192 in
theorem twoEpochLoop_mem : twoEpochLoop ∈ (exec simClock demoShortTTL twoEpochOps).procs := by
  decide

/-- C20: line 91 sets `lastPoll` to the Unix epoch (time 0) at the start of
every epoch.  So in every run from a new Routine, in the first polling
iteration of an epoch (after "init success", the reading of `podStart`, a
read of the flag as false and a passed TTL test) the due test with reading
`t2` is followed by a call of `Poll` exactly when `time.Since` of the Unix
epoch at `t2`, which is `t2` itself for a reading in the int64 range, is
strictly greater than `pollInterval`, and by the sleep otherwise, whatever
happened in earlier epochs.  Two polls in consecutive epochs can therefore
be closer than `pollInterval`: in the run `twoEpochOps`, with a poll interval
of 10 s, they are 2 s apart.  And in a run in which every clock reading is at
most `pollInterval` after the Unix epoch, `Poll` is never called. -/
theorem lastPoll_reset_each_epoch {W K : Type} (rt : Runtime W) (c : K) (pI pT : Int)
    (h : RoutineHandler W) (w : W) (ops : List Op) (l : Loop)
    (hl : l ∈ (exec rt (Sys.new c pI pT h w) ops).procs) :
    (∀ (r : Routine W K) (w1 : W) (l0 : Loop), l0.pc = .L91 →
      (step rt r w1 l0).1.lastPoll = 0 ∧ (step rt r w1 l0).1.podStart = (rt.Now w1).1 ∧
      (step rt r w1 l0).1.pc = .L93) ∧
    (∀ (pre post : List Action) (t0 t1 t2 : Int) (a : Action),
      l.trace = pre ++ [.send (some { Status := 0, Message := "init success" }),
        .now t0, .load false, .now t1, .now t2, a] ++ post →
      ((∃ e, a = .call .Poll e) ↔ pI < Sub t2 0) ∧
      (a = .sleep pulseInterval ↔ Sub t2 0 ≤ pI)) ∧
    (∀ t : Int, minDuration ≤ t → t ≤ maxDuration → Sub t 0 = t) ∧
    ((∀ x ∈ readings l.trace, Sub x 0 ≤ pI) → ∀ e, Action.call .Poll e ∉ l.trace) ∧
    (twoEpochLoop ∈ (exec simClock demoShortTTL twoEpochOps).procs ∧
      demoShortTTL.r.pollInterval = 10000000000 ∧
      twoEpochLoop.trace =
        [.load false, .call .Init none, .send (some { Status := 0, Message := "init success" }),
          .now 1700000000000000000, .load false, .now 1700000000000000000] ++
        [.now 1700000000000000000, .call .Poll none] ++
        [.send (some { Status := 200, Message := "poll success" }), .now 1700000000000000000,
          .sleep 2000000000, .load false, .now 1700000002000000000,
          .send (some { Status := 0, Message := "terminated, will clean up" }),
          .call .Cleanup none, .send (some { Status := 0, Message := "cleanup success" }),
          .load false, .call .Init none,
          .send (some { Status := 0, Message := "init success" }),
          .now 1700000002000000000, .load false, .now 1700000002000000000] ++
        [.now 1700000002000000000, .call .Poll none] ∧
      (1700000002000000000 : Int) - 1700000000000000000 < 10000000000) := by
  have hp := reach_path rt c pI pT h w ops l hl
  refine ⟨?_, ?_, fun t h1 h2 => Sub_zero_of_range h1 h2, ?_,
    twoEpochLoop_mem, rfl, rfl, by decide⟩
  · intro r w1 l0 hpc
    simp [step, hpc]
  · intro pre post t0 t1 t2 a ht
    rw [ht] at hp
    rcases hp.first_iteration with ⟨⟨e, rfl⟩, hlt⟩ | ⟨rfl, hle⟩
    · exact ⟨⟨fun _ => hlt, fun _ => ⟨e, rfl⟩⟩, ⟨fun hx => by simp at hx, fun hx => by omega⟩⟩
    · exact ⟨⟨fun hx => by simp at hx, fun hx => by omega⟩, ⟨fun _ => hle, fun _ => rfl⟩⟩
  · intro hr
    exact (hp.never_due hr).1

/-- C20 at the concrete run `twoEpochOps`: the first iteration of the second
epoch polls, 2 s after the poll of the first epoch, because the time since
the Unix epoch exceeds the poll interval of 10 s. -/
theorem lastPoll_reset_each_epoch_witness :
    ((∃ e, Action.call .Poll none = .call .Poll e) ↔
      (10000000000 : Int) < Sub 1700000002000000000 0) ∧
    (Action.call .Poll none = .sleep pulseInterval ↔
      Sub 1700000002000000000 0 ≤ (10000000000 : Int)) :=
  (lastPoll_reset_each_epoch simClock () 10000000000 1000000000 okHandler 1700000000000000000
    twoEpochOps twoEpochLoop twoEpochLoop_mem).2.1
    [.load false, .call .Init none, .send (some { Status := 0, Message := "init success" }),
      .now 1700000000000000000, .load false, .now 1700000000000000000,
      .now 1700000000000000000, .call .Poll none,
      .send (some { Status := 200, Message := "poll success" }), .now 1700000000000000000,
      .sleep 2000000000, .load false, .now 1700000002000000000,
      .send (some { Status := 0, Message := "terminated, will clean up" }),
      .call .Cleanup none, .send (some { Status := 0, Message := "cleanup success" }),
      .load false, .call .Init none]
    [] 1700000002000000000 1700000002000000000 1700000002000000000 (.call .Poll none) rfl
/-! ## C15: the number of polls in an epoch -/

theorem methods_append (s t : List Action) : methods (s ++ t) = methods s ++ methods t := by
  induction s with
  | nil => rfl
  | cons a s ih => cases a <;> simp [methods, ih]

theorem runLoop_add {W K : Type} (rt : Runtime W) (r : Routine W K) (m n : Nat) (c : Loop × W) :
    runLoop rt r (m + n) c = runLoop rt r n (runLoop rt r m c) := by
  induction m generalizing c with
  | zero => simp [runLoop]
  | succ m ih =>
    have : m + 1 + n = (m + n) + 1 := by omega
    rw [this, runLoop, ih, runLoop]

theorem Sub_eq_of_range {t u : Int} (h1 : 0 ≤ t - u) (h2 : t - u ≤ maxDuration) :
    Sub t u = t - u := by
  unfold Sub
  unfold maxDuration at h2
  unfold minDuration maxDuration
  omega

theorem Sub_gt_of_gt {t u x : Int} (h1 : x < t - u) (h2 : x < maxDuration) (h3 : 0 ≤ x) :
    x < Sub t u := by
  unfold Sub
  unfold maxDuration at h2
  unfold minDuration maxDuration
  omega

theorem Sub_mono_left {t u : Int} (h : t ≤ u) (x : Int) : Sub t x ≤ Sub u x := by
  unfold Sub
  omega

/-- One polling iteration on an exact clock while the TTL has not expired: the
goroutine is back at the top of the iteration one `pulseInterval` later, and
has polled exactly when the poll was due. -/
theorem runLoop_iteration {W K : Type} (rt : Runtime W) (r : Routine W K) (time : W → Int)
    (hclock : ExactClock rt r.handler time) (ht : r.terminated = false) (l : Loop) (w : W)
    (hpc : l.pc = .L93) (hsub : Sub (time w) l.podStart ≤ r.podTTL) :
    ∃ n, (runLoop rt r n (l, w)).1.pc = .L93 ∧
      (runLoop rt r n (l, w)).1.podStart = l.podStart ∧
      time (runLoop rt r n (l, w)).2 = time w + pulseInterval ∧
      ((¬ r.pollInterval < Sub (time w) l.lastPoll ∧
          (runLoop rt r n (l, w)).1.lastPoll = l.lastPoll ∧
          methods (runLoop rt r n (l, w)).1.trace = methods l.trace) ∨
       (r.pollInterval < Sub (time w) l.lastPoll ∧
          (runLoop rt r n (l, w)).1.lastPoll = time w ∧
          methods (runLoop rt r n (l, w)).1.trace = methods l.trace ++ [.Poll])) := by
  obtain ⟨hNow, hSleep, hPoll⟩ := hclock
  rcases hN1 : rt.Now w with ⟨x1, w1⟩
  have hx1 : x1 = time w ∧ time w1 = time w := by simpa [hN1] using hNow w
  obtain ⟨rfl, hw1⟩ := hx1
  rcases hN2 : rt.Now w1 with ⟨x2, w2⟩
  have hx2 : x2 = time w1 ∧ time w2 = time w1 := by simpa [hN2] using hNow w1
  obtain ⟨rfl, hw2⟩ := hx2
  by_cases hdue : r.pollInterval < Sub (time w) l.lastPoll
  · rcases hP : r.handler.Poll w2 with ⟨e, w3⟩
    have hw3 : time w3 = time w2 := by simpa [hP] using hPoll w2
    rcases hN3 : rt.Now w3 with ⟨x3, w4⟩
    have hx3 : x3 = time w3 ∧ time w4 = time w3 := by simpa [hN3] using hNow w3
    obtain ⟨rfl, hw4⟩ := hx3
    refine ⟨7, ?_⟩
    cases e <;>
      simp [runLoop, step, hpc, ht, Loop.goto, hN1, hN2, hN3, hP, hsub, hw1, hdue,
        hSleep, hw4, hw3, hw2, methods_append, methods]
  · refine ⟨4, ?_⟩
    simp [runLoop, step, hpc, ht, Loop.goto, hN1, hN2, hsub, hw1, hdue, hSleep, hw2,
      methods_append, methods]

/-- Leaving the polling phase on an exact clock once the TTL has expired: two
statements reach line 112 with no handler call. -/
theorem runLoop_expired {W K : Type} (rt : Runtime W) (r : Routine W K) (time : W → Int)
    (hclock : ExactClock rt r.handler time) (ht : r.terminated = false) (l : Loop) (w : W)
    (hpc : l.pc = .L93) (hdT : r.podTTL < time w - l.podStart)
    (hT0 : 0 ≤ r.podTTL) (hT : r.podTTL < maxDuration) :
    (runLoop rt r 2 (l, w)).1.pc = .L112 ∧
      methods (runLoop rt r 2 (l, w)).1.trace = methods l.trace := by
  obtain ⟨hNow, -, -⟩ := hclock
  have hsub : ¬ Sub (time w) l.podStart ≤ r.podTTL :=
    not_le.mpr (Sub_gt_of_gt hdT hT hT0)
  rcases hN1 : rt.Now w with ⟨x1, w1⟩
  have hx1 : x1 = time w ∧ time w1 = time w := by simpa [hN1] using hNow w
  obtain ⟨rfl, hw1⟩ := hx1
  simp [runLoop, step, hpc, ht, Loop.goto, hN1, hsub, methods_append, methods]

/-- From any top of an iteration that satisfies `phaseInv`, the polling phase
ends at line 112 with a number of polls within the bounds, which is zero
exactly when the last iteration reads no more than `P` after the Unix epoch. -/
theorem runLoop_phase {W K : Type} (rt : Runtime W) (r : Routine W K) (time : W → Int)
    (hclock : ExactClock rt r.handler time) (ht : r.terminated = false)
    (hP0 : 0 ≤ r.pollInterval) (hPT : r.pollInterval < r.podTTL) (hT : r.podTTL < maxDuration)
    (base : List Method) (t0 : Int) (m : Nat) :
    ∀ (k : Nat) (l : Loop) (w : W), phaseInv time r.pollInterval r.podTTL base t0 k l w →
      r.podTTL - (time w - t0) < m * pulseInterval →
      ∃ n k1, (runLoop rt r n (l, w)).1.pc = .L112 ∧
        methods (runLoop rt r n (l, w)).1.trace = base ++ List.replicate k1 .Poll ∧
        (k1 : Int) ≤ r.podTTL / max r.pollInterval pulseInterval + 1 ∧
        (1 ≤ k1 ↔ r.pollInterval < Sub (lastIteration t0 r.podTTL) 0) := by
  have hM : 0 < max r.pollInterval pulseInterval := by
    unfold pulseInterval; omega
  have hH : pulseInterval = 2000000000 := rfl
  have hexit : ∀ (k : Nat) (l : Loop) (w : W),
      phaseInv time r.pollInterval r.podTTL base t0 k l w → r.podTTL < time w - t0 →
      ∃ n k1, (runLoop rt r n (l, w)).1.pc = .L112 ∧
        methods (runLoop rt r n (l, w)).1.trace = base ++ List.replicate k1 .Poll ∧
        (k1 : Int) ≤ r.podTTL / max r.pollInterval pulseInterval + 1 ∧
        (1 ≤ k1 ↔ r.pollInterval < Sub (lastIteration t0 r.podTTL) 0) := by
    intro k l w ⟨hpc, hps, h0, hal, hm, hk, hk0⟩ hexp
    obtain ⟨e1, e2⟩ := runLoop_expired rt r time hclock ht l w hpc (by omega) (by omega) hT
    refine ⟨2, k, e1, by rw [e2, hm], ?_, ?_⟩
    · rcases Nat.eq_zero_or_pos k with rfl | hpos
      · have := Int.ediv_nonneg (show 0 ≤ r.podTTL by omega) (le_of_lt hM)
        simp only [Nat.cast_zero]; omega
      · obtain ⟨hk1, hk2, -, -⟩ := hk hpos
        have := Int.le_ediv_of_mul_le hM (le_trans hk1 hk2)
        omega
    · rcases Nat.eq_zero_or_pos k with rfl | hpos
      · obtain ⟨-, hlast⟩ := hk0 rfl
        constructor
        · intro h; omega
        · intro h
          have h2 := hlast h
          unfold lastIteration at h2
          rw [hH] at h2
          omega
      · exact ⟨fun _ => (hk hpos).2.2.2, fun _ => hpos⟩
  induction m with
  | zero =>
    intro k l w hinv hlt
    exact hexit k l w hinv (by simpa using hlt)
  | succ m ih =>
    intro k l w hinv hlt
    by_cases hexp : r.podTTL < time w - t0
    · exact hexit k l w hinv hexp
    · obtain ⟨hpc, hps, h0, hal, hm, hk, hk0⟩ := hinv
      have hsub : Sub (time w) l.podStart ≤ r.podTTL := by
        rw [Sub_eq_of_range (by omega) (by omega)]; omega
      obtain ⟨n, e1, e2, e3, e4⟩ := runLoop_iteration rt r time hclock ht l w hpc hsub
      have hlt2 : r.podTTL - (time (runLoop rt r n (l, w)).2 - t0) < m * pulseInterval := by
        rw [e3]; push_cast at hlt; rw [hH] at hlt ⊢; omega
      have hal2 : (time (runLoop rt r n (l, w)).2 - t0) % pulseInterval = 0 := by
        rw [e3]; rw [hH] at hal ⊢; omega
      have hle : time w ≤ lastIteration t0 r.podTTL := by
        unfold lastIteration; rw [hH] at hal ⊢; omega
      rcases e4 with ⟨hnd, e5, e6⟩ | ⟨hd, e5, e6⟩
      · have hinv2 : phaseInv time r.pollInterval r.podTTL base t0 k
            (runLoop rt r n (l, w)).1 (runLoop rt r n (l, w)).2 := by
          refine ⟨e1, by rw [e2, hps], by rw [e3, hH]; omega, hal2, by rw [e6, hm], ?_, ?_⟩
          · intro hpos
            obtain ⟨a, b, c, d⟩ := hk hpos
            rw [e5, e3]
            exact ⟨a, b, by rw [hH] at c ⊢; omega, d⟩
          · intro hz
            obtain ⟨f1, f2⟩ := hk0 hz
            refine ⟨by rw [e5, f1], fun hc => ?_⟩
            have hne : time w ≠ lastIteration t0 r.podTTL := by
              intro heq
              rw [f1, heq] at hnd
              exact hnd hc
            rw [e3]
            unfold lastIteration at hle hne ⊢
            rw [hH] at hal hle hne ⊢
            omega
        obtain ⟨n2, k1, g1, g2, g3, g4⟩ := ih k _ _ hinv2 hlt2
        exact ⟨n + n2, k1, by rw [runLoop_add]; exact g1, by rw [runLoop_add]; exact g2,
          g3, g4⟩
      · have hgap : r.pollInterval < time w - l.lastPoll := by
          have : Sub (time w) l.lastPoll ≤ max minDuration (time w - l.lastPoll) := by
            unfold Sub; omega
          unfold minDuration at this
          omega
        have hcond : r.pollInterval < Sub (lastIteration t0 r.podTTL) 0 := by
          rcases Nat.eq_zero_or_pos k with hz | hpos
          · obtain ⟨f1, -⟩ := hk0 hz
            rw [f1] at hd
            exact lt_of_lt_of_le hd (Sub_mono_left hle 0)
          · exact (hk hpos).2.2.2
        have hinv2 : phaseInv time r.pollInterval r.podTTL base t0 (k + 1)
            (runLoop rt r n (l, w)).1 (runLoop rt r n (l, w)).2 := by
          refine ⟨e1, by rw [e2, hps], by rw [e3, hH]; omega, hal2,
            by rw [e6, hm, List.replicate_succ', List.append_assoc], ?_,
            fun hz => absurd hz (Nat.succ_ne_zero k)⟩
          intro _
          rw [e5, e3]
          refine ⟨?_, by omega, by omega, hcond⟩
          rcases Nat.eq_zero_or_pos k with rfl | hpos
          · simp; omega
          · obtain ⟨a, b, c, -⟩ := hk hpos
            have hstep : max r.pollInterval pulseInterval ≤ time w - l.lastPoll := by
              rw [hH] at c ⊢; omega
            have hring : (((k + 1 : Nat) : Int) - 1) * max r.pollInterval pulseInterval
                = ((k : Int) - 1) * max r.pollInterval pulseInterval
                  + max r.pollInterval pulseInterval := by
              push_cast; ring
            rw [hring]; omega
        obtain ⟨n2, k1, g1, g2, g3, g4⟩ := ih (k + 1) _ _ hinv2 hlt2
        exact ⟨n + n2, k1, by rw [runLoop_add]; exact g1, by rw [runLoop_add]; exact g2,
          g3, g4⟩

/-- With the largest Duration as TTL the saturated `Since(podStart)` never
exceeds the TTL: on an exact clock, with `terminated` clear and a poll
interval below one `pulseInterval`, every iteration polls and the goroutine is
at the top of an iteration again, for any number of iterations. -/
theorem runLoop_forever {W K : Type} (rt : Runtime W) (r : Routine W K) (time : W → Int)
    (hclock : ExactClock rt r.handler time) (ht : r.terminated = false)
    (hPH : r.pollInterval < pulseInterval) (hT : r.podTTL = maxDuration) (j : Nat) :
    ∀ (l : Loop) (w : W), l.pc = .L93 → r.pollInterval < Sub (time w) l.lastPoll →
      ∃ n, (runLoop rt r n (l, w)).1.pc = .L93 ∧
        methods (runLoop rt r n (l, w)).1.trace = methods l.trace ++ List.replicate j .Poll := by
  have hH : pulseInterval = 2000000000 := rfl
  induction j with
  | zero =>
    intro l w hpc _
    exact ⟨0, by simpa [runLoop] using hpc, by simp [runLoop]⟩
  | succ j ih =>
    intro l w hpc hdue
    have hsub : Sub (time w) l.podStart ≤ r.podTTL := by
      rw [hT]; unfold Sub maxDuration minDuration; omega
    obtain ⟨n, e1, -, e3, e4⟩ := runLoop_iteration rt r time hclock ht l w hpc hsub
    rcases e4 with ⟨hnd, -, -⟩ | ⟨-, e5, e6⟩
    · exact absurd hdue hnd
    · have hdue2 : r.pollInterval
          < Sub (time (runLoop rt r n (l, w)).2) (runLoop rt r n (l, w)).1.lastPoll := by
        rw [e3, e5, Sub_eq_of_range (by rw [hH]; omega) (by rw [hH]; unfold maxDuration; omega)]
        omega
      obtain ⟨n2, g1, g2⟩ := ih _ _ e1 hdue2
      refine ⟨n + n2, by rw [runLoop_add]; exact g1, ?_⟩
      rw [runLoop_add, g2, e6, List.append_assoc]
      rfl

theorem simClock_exact : ExactClock simClock okHandler id :=
  ⟨fun _ => ⟨rfl, rfl⟩, fun _ _ => rfl, fun _ => rfl⟩

set_option maxRecDepth 8192 in
theorem wholePhaseLoop_run :
    (exec simClock demoEpochZero wholePhaseOps).procs = [wholePhaseLoop] := by
  decide

set_option maxRecDepth 8192 in
theorem wholePhaseLoop_runLoop :
    runLoop simClock demoEpochZero.r 15 (epochStart, 0) = (wholePhaseLoop, 6000000000) := by
  decide

set_option maxRecDepth 8192 in
theorem wholePhaseLoop_flag :
    (exec simClock demoEpochZero wholePhaseOps).r.terminated = false := by
  decide

/-- On `demoForever` the polling phase of the first epoch makes any number of
polls: after its first statement every iteration polls and comes back to the
top of the iteration. -/
theorem demoForever_polls (j : Nat) :
    ∃ n, (runLoop simClock demoForever.r n (epochStart, 1700000000000000000)).1.pc = .L93 ∧
      methods (runLoop simClock demoForever.r n (epochStart, 1700000000000000000)).1.trace
        = methods epochStart.trace ++ List.replicate j .Poll := by
  obtain ⟨n, h1, h2⟩ := runLoop_forever simClock demoForever.r id simClock_exact rfl
    (by decide) rfl j
    { pc := .L93, lastPoll := 0, podStart := 1700000000000000000,
      trace := epochStart.trace ++ [.now 1700000000000000000] }
    1700000000000000000 rfl (by decide)
  refine ⟨1 + n, ?_, ?_⟩
  · rw [runLoop_add]; exact h1
  · rw [runLoop_add]; exact h2

/-- C15, refuted as stated, on both bounds.  Lower bound: with T = 4.5 s,
P = 4 s and a clock that reads the Unix epoch when the epoch starts and
advances by exactly 2 s per sleep, the polling phase runs its iterations at
0 s, 2 s and 4 s, none of which is more than P after
`lastPoll = time.Unix(0, 0)`, and the TTL has expired at 6 s: the goroutine
reaches line 112 with `terminated` clear and no `Poll` call at all.  Upper
bound: with T the largest Duration and P = 1 s, `time.Since(podStart)` is a
Duration and so never exceeds T; the polling phase does not end and makes
more polls than any bound. -/
theorem epoch_without_poll :
    ((exec simClock demoEpochZero wholePhaseOps).procs = [wholePhaseLoop] ∧
     (exec simClock demoEpochZero wholePhaseOps).r.terminated = false ∧
     demoEpochZero.r.pollInterval = 4000000000 ∧ demoEpochZero.r.podTTL = 4500000000 ∧
     wholePhaseLoop.pc = .L112 ∧ methods wholePhaseLoop.trace = [.Init] ∧
     ¬ (∀ (r : Routine Int Unit) (l : Loop) (w : Int) (n k : Nat),
         ExactClock simClock r.handler id → r.terminated = false →
         0 ≤ r.pollInterval → r.pollInterval < r.podTTL → l.pc = .L91 →
         (runLoop simClock r n (l, w)).1.pc = .L112 →
         methods (runLoop simClock r n (l, w)).1.trace
           = methods l.trace ++ List.replicate k .Poll →
         1 ≤ k ∧ (k : Int) ≤ r.podTTL / max r.pollInterval pulseInterval + 1)) ∧
    (demoForever.r.pollInterval = 1000000000 ∧ demoForever.r.podTTL = maxDuration ∧
     demoForever.r.terminated = false ∧
     (∀ j : Nat, ∃ n,
       (runLoop simClock demoForever.r n (epochStart, 1700000000000000000)).1.pc = .L93 ∧
       methods (runLoop simClock demoForever.r n (epochStart, 1700000000000000000)).1.trace
         = [.Init] ++ List.replicate j .Poll) ∧
     ¬ (∀ (r : Routine Int Unit) (l : Loop) (w : Int) (n k : Nat),
         ExactClock simClock r.handler id → r.terminated = false →
         0 ≤ r.pollInterval → r.pollInterval < r.podTTL → l.pc = .L91 →
         methods (runLoop simClock r n (l, w)).1.trace
           = methods l.trace ++ List.replicate k .Poll →
         (k : Int) ≤ r.podTTL / max r.pollInterval pulseInterval + 1)) := by
  refine ⟨⟨wholePhaseLoop_run, wholePhaseLoop_flag, rfl, rfl, rfl, rfl, ?_⟩,
    rfl, rfl, rfl, demoForever_polls, ?_⟩
  · intro hall
    have h := hall demoEpochZero.r epochStart 0 15 0 simClock_exact rfl (by decide) (by decide)
      rfl (by rw [wholePhaseLoop_runLoop]; rfl) (by rw [wholePhaseLoop_runLoop]; rfl)
    omega
  · intro hall
    obtain ⟨n, -, h2⟩ := demoForever_polls 4611686020
    have h := hall demoForever.r epochStart 1700000000000000000 n 4611686020 simClock_exact
      rfl (by decide) (by decide) rfl h2
    have hb : demoForever.r.podTTL / max demoForever.r.pollInterval pulseInterval + 1
        = 4611686019 := by decide
    rw [hb] at h
    omega

/-- C15, amended: take an epoch during which `terminated` stays clear, a TTL
`T` below the largest Duration and a poll interval `P` with `0 ≤ P < T`, on a
clock that advances by exactly the time slept and not otherwise.  From the
start of the polling phase (line 91) the goroutine reaches line 112 after
finitely many statements, having made only `Poll` calls meanwhile, `k` of
them, with `k ≤ T / max P pulseInterval + 1` (integer division).  The phase
makes at least one poll exactly when its last iteration, which is
`T / pulseInterval` heartbeats after the start of the epoch, reads the clock
more than `P` after the Unix epoch (a difference saturated as by `Time.Sub`),
and no poll at all otherwise; in particular `k ≥ 1` when the clock at the
start of the epoch reads more than `P` after the Unix epoch. -/
theorem poll_count_bounds {W K : Type} (rt : Runtime W) (r : Routine W K) (time : W → Int)
    (hclock : ExactClock rt r.handler time) (ht : r.terminated = false)
    (hP0 : 0 ≤ r.pollInterval) (hPT : r.pollInterval < r.podTTL) (hT : r.podTTL < maxDuration)
    (l : Loop) (w : W) (hpc : l.pc = .L91) :
    ∃ n k, (runLoop rt r n (l, w)).1.pc = .L112 ∧
      methods (runLoop rt r n (l, w)).1.trace = methods l.trace ++ List.replicate k .Poll ∧
      (k : Int) ≤ r.podTTL / max r.pollInterval pulseInterval + 1 ∧
      (1 ≤ k ↔ r.pollInterval < Sub (lastIteration (time w) r.podTTL) 0) ∧
      (k = 0 ↔ Sub (lastIteration (time w) r.podTTL) 0 ≤ r.pollInterval) ∧
      (r.pollInterval < time w → 1 ≤ k) := by
  obtain ⟨hNow, hSleep, hPoll⟩ := hclock
  rcases hN1 : rt.Now w with ⟨x1, w1⟩
  have hx1 : x1 = time w ∧ time w1 = time w := by simpa [hN1] using hNow w
  obtain ⟨rfl, hw1⟩ := hx1
  have hH : pulseInterval = 2000000000 := rfl
  have hstep : step rt r w l
      = ({ pc := .L93, lastPoll := 0, podStart := time w, trace := l.trace ++ [.now (time w)] },
          w1) := by
    simp [step, hpc, hN1]
  have hlast : time w ≤ lastIteration (time w) r.podTTL := by
    unfold lastIteration; rw [hH]; omega
  have hinv : phaseInv time r.pollInterval r.podTTL (methods l.trace) (time w) 0
      { pc := .L93, lastPoll := 0, podStart := time w, trace := l.trace ++ [.now (time w)] }
      w1 := by
    refine ⟨rfl, rfl, by omega, by rw [hw1]; simp, by simp [methods_append, methods], ?_,
      fun _ => ⟨rfl, fun _ => by rw [hw1]; exact hlast⟩⟩
    intro h; omega
  obtain ⟨m, hm⟩ : ∃ m : Nat, r.podTTL - (time w1 - time w) < m * pulseInterval := by
    refine ⟨(r.podTTL + 1).toNat, ?_⟩
    have : ((r.podTTL + 1).toNat : Int) = r.podTTL + 1 := Int.toNat_of_nonneg (by omega)
    rw [this, hw1, hH]
    omega
  obtain ⟨n, k, g1, g2, g3, g4⟩ :=
    runLoop_phase rt r time ⟨hNow, hSleep, hPoll⟩ ht hP0 hPT hT (methods l.trace) (time w) m 0
      _ _ hinv hm
  refine ⟨1 + n, k, ?_, ?_, g3, g4, ?_, ?_⟩
  · rw [runLoop_add]; simpa [runLoop, hstep] using g1
  · rw [runLoop_add]; simpa [runLoop, hstep] using g2
  · constructor
    · intro hz
      exact not_lt.mp (fun hc => by have := g4.mpr hc; omega)
    · intro hle
      by_contra hne
      exact absurd (g4.mp (by omega)) (not_lt.mpr hle)
  · intro hlt
    refine g4.mpr (lt_of_lt_of_le ?_ (Sub_mono_left hlast 0))
    exact Sub_gt_of_gt (by omega) (by omega) hP0

theorem poll_count_bounds_witness :
    ExactClock simClock demo.r.handler id ∧ demo.r.terminated = false ∧
    0 ≤ demo.r.pollInterval ∧ demo.r.pollInterval < demo.r.podTTL ∧
    demo.r.podTTL < maxDuration ∧ epochStart.pc = .L91 ∧
    ∃ n k, (runLoop simClock demo.r n (epochStart, 1700000000000000000)).1.pc = .L112 ∧
      methods (runLoop simClock demo.r n (epochStart, 1700000000000000000)).1.trace
        = methods epochStart.trace ++ List.replicate k .Poll ∧
      (k : Int) ≤ demo.r.podTTL / max demo.r.pollInterval pulseInterval + 1 ∧
      (1 ≤ k ↔ demo.r.pollInterval
        < Sub (lastIteration (id (1700000000000000000 : Int)) demo.r.podTTL) 0) ∧
      (k = 0 ↔ Sub (lastIteration (id (1700000000000000000 : Int)) demo.r.podTTL) 0
        ≤ demo.r.pollInterval) ∧
      (demo.r.pollInterval < id (1700000000000000000 : Int) → 1 ≤ k) :=
  ⟨simClock_exact, rfl, by decide, by decide, by decide, rfl,
    poll_count_bounds simClock demo.r id simClock_exact rfl (by decide) (by decide) (by decide)
      epochStart 1700000000000000000 rfl⟩
end routines
